import Mathlib

/-!
# Playback orchestration core of Strawberry (`src/core/player.cpp`)

A shallow embedding of `Player` and of the collaborators it talks to.  The
member functions of `Player` are translated statement by statement from
`src/src/core/player.cpp`.  The collaborators whose code is not part of the
sources at hand (playback engine, playlist cursor, URL handlers, `Song`,
`QUrl`) are modelled as data plus observation logs, or taken as parameters
(`Env`).

Conventions:
* a `shared_ptr<PlaylistItem>` is an `ItemPtr`, the item objects live in
  `Player.heap`;
* every signal the player emits, every command it sends to the engine and every
  call it makes on a URL handler is appended to a log, oldest first;
* the mutually recursive `PlayAt` / `HandleLoadResult` / `PlayNextItem` are
  tied together through a recursion budget that counts nested `PlayAt` calls;
  `none` means that no final state is produced (budget exhausted, or a null
  `shared_ptr` dereferenced).
-/

namespace Strawberry

/-- Modelled from the spec: `QUrl` (Qt, not part of the sources).  Only the scheme
and equality of URLs are used by the player; `QUrl()` is `QUrl.null`. -/
structure QUrl where
  scheme : String
  rest : String
deriving DecidableEq, Repr

/-- The default constructed `QUrl()`. -/
def QUrl.null : QUrl := ⟨"", ""⟩

/-- Modelled from the spec: `Engine::State` (`engine_fwd.h` is not part of the
sources), the PlaybackState enum {Empty, Idle, Playing, Paused, Error}. -/
inductive EngineState where
  | Empty | Idle | Playing | Paused | Error
deriving DecidableEq, Repr

/-- Modelled from the spec: the tag of `Engine::TrackChangeFlags`, one of
{Manual, Auto, Intro, First}. -/
inductive TrackChangeType where
  | First | Manual | Auto | Intro
deriving DecidableEq, Repr

/-- Modelled from the spec: `Engine::TrackChangeFlags`, a tag plus the flag
`SameAlbum`. -/
structure TrackChangeFlags where
  tag : TrackChangeType
  same_album : Bool
deriving DecidableEq, Repr

/-- The flags value `Engine::Manual` (tag only, `SameAlbum` clear). -/
def Engine.Manual : TrackChangeFlags := ⟨.Manual, false⟩
/-- The flags value `Engine::Auto`. -/
def Engine.Auto : TrackChangeFlags := ⟨.Auto, false⟩
/-- The flags value `Engine::Intro`. -/
def Engine.Intro : TrackChangeFlags := ⟨.Intro, false⟩
/-- The flags value `Engine::First`. -/
def Engine.First : TrackChangeFlags := ⟨.First, false⟩

/-- The test `change & Engine::Manual`. -/
def TrackChangeFlags.hasManual (change : TrackChangeFlags) : Bool :=
  decide (change.tag = .Manual)

/-- The update `change |= Engine::SameAlbum`. -/
def TrackChangeFlags.orSameAlbum (change : TrackChangeFlags) : TrackChangeFlags :=
  { change with same_album := true }

/-- Modelled from the spec: `PlaylistSequence::RepeatMode` (`playlistsequence.h`
is not part of the sources).  The player names `Repeat_Off` and `Repeat_Track`;
the remaining constructors stand for "any other repeat". -/
inductive RepeatMode where
  | Repeat_Off | Repeat_Track | Repeat_Album | Repeat_Playlist
deriving DecidableEq, Repr

/-- Modelled from the spec: `Song::FileType` (`song.h` is not part of the
sources).  The player names `FileType_Unknown` and `FileType_Stream`. -/
inductive FileType where
  | FileType_Unknown
  | FileType_Stream
  | FileType_Other (code : Nat)
deriving DecidableEq, Repr

/-- Modelled from the spec: the part of `Song` read or written by the player. -/
structure Song where
  url : QUrl
  filetype : FileType
  length_nanosec : Int
  has_cue : Bool
  beginning_nanosec : Int
  end_nanosec : Int
  id : Int
  title : String
  artist : String
deriving DecidableEq, Repr

/-- Modelled from the spec: a playlist entry (`playlistitem.h` is not part of the
sources): its URL, its metadata and the temporary metadata overlay. -/
structure PlaylistItem where
  url : QUrl
  song : Song
  temp_metadata : Option Song
  is_local_collection_item : Bool
  pause_disabled : Bool
deriving DecidableEq, Repr

/-- The call `item->Metadata()`: the temporary overlay when there is one. -/
def PlaylistItem.Metadata (item : PlaylistItem) : Song :=
  item.temp_metadata.getD item.song

/-- The call `item->SetTemporaryMetadata(song)`. -/
def PlaylistItem.SetTemporaryMetadata (item : PlaylistItem) (song : Song) : PlaylistItem :=
  { item with temp_metadata := some song }

/-- A `shared_ptr<PlaylistItem>` that is not null: the identity of an item. -/
abbrev ItemPtr := Nat

/-- A `UrlHandler*`: the identity of the handler object and the string its
`scheme()` reports. -/
structure UrlHandler where
  ptr : Nat
  scheme : String
deriving DecidableEq, Repr

/-- The tag `UrlHandler::LoadResult::Type`, as named in `HandleLoadResult`. -/
inductive LoadResultType where
  | NoMoreTracks | WillLoadAsynchronously | TrackAvailable | Error
deriving DecidableEq, Repr

/-- The struct `UrlHandler::LoadResult` with the members the player reads. -/
structure LoadResult where
  original_url_ : QUrl
  type_ : LoadResultType
  media_url_ : QUrl
  filetype_ : FileType
  length_nanosec_ : Int
  error_ : String
deriving DecidableEq, Repr

/-- The signals of `Player` (the notifications of the orchestrator). -/
inductive Signal where
  | Playing
  | Paused
  | Stopped
  | Error (message : String)
  | VolumeChanged (value : Int)
  | Seeked (microsec : Int)
  | PlaylistFinished
  | TrackSkipped (item : ItemPtr)
  | ForceShowOSD (song : Song) (toggle : Bool)
  | SongChangeRequestProcessed (url : QUrl) (valid : Bool)
deriving DecidableEq, Repr

/-- The commands the player sends to the engine. -/
inductive EngineCommand where
  | Play (media_url original_url : QUrl) (change : TrackChangeFlags) (has_cue : Bool)
      (beginning_nanosec end_nanosec : Int)
  | Stop (stop_after : Bool)
  | Pause
  | Unpause
  | Seek (nanosec : Int)
  | SetVolume (value : Int)
  | StartPreloading (media_url original_url : QUrl) (has_cue : Bool)
      (beginning_nanosec end_nanosec : Int)
deriving DecidableEq, Repr

/-- The calls the player makes on a registered URL handler. -/
inductive HandlerCall where
  | StartLoading (handler : UrlHandler) (url : QUrl)
  | LoadNext (handler : UrlHandler) (url : QUrl)
  | TrackAboutToEnd (handler : UrlHandler)
  | TrackSkipped (handler : UrlHandler)
deriving DecidableEq, Repr

/-- Modelled from the spec: the Playback Engine collaborator (`enginebase.h` is
not part of the sources): the values the player reads from it and the log of
the commands it received.  `SetVolume` is mirrored into `volume`. -/
structure EngineBase where
  state : EngineState
  volume : Int
  position_nanosec : Int
  length_nanosec : Int
  is_autocrossfade_enabled : Bool
  is_fadeout_enabled : Bool
  crossfade_same_album : Bool
  commands : List EngineCommand
deriving DecidableEq, Repr

/-- Modelled from the spec: the Playlist Cursor collaborator (`playlist.h` is not
part of the sources): the rows of the active queue, the current row (`-1` when
there is none), the stop-after row, the repeat mode, the row count of the
filter proxy, and counters for the notifications the player sends to it, with
the logs of the scrobble points and of the stream metadata it was given, and
the row played last.  What `next_row` and `previous_row` answer is a parameter
(`Env`). -/
structure Playlist where
  items : List ItemPtr
  current_row : Int
  stop_after : Int
  repeat_mode : RepeatMode
  proxy_rowCount : Int
  reshuffles : Nat
  song_change_informs : Nat
  scrobble_points : List Int
  stream_metadata : List (QUrl × Song)
  last_played_row : Int
deriving DecidableEq, Repr

/-- The call `has_item_at(index)`. -/
def Playlist.has_item_at (p : Playlist) (index : Int) : Bool :=
  decide (0 ≤ index ∧ index < (p.items.length : Int))

/-- The call `item_at(index)`; a null pointer when there is no such row. -/
def Playlist.item_at (p : Playlist) (index : Int) : Option ItemPtr :=
  if p.has_item_at index then p.items.get? index.toNat else none

/-- The call `set_current_row(index)`: the cursor moves to the row, and reports
no current row (`-1`) when the row does not exist. -/
def Playlist.set_current_row (p : Playlist) (index : Int) : Playlist :=
  { p with current_row := if p.has_item_at index then index else -1 }

/-- The call `current_item()`. -/
def Playlist.current_item (p : Playlist) : Option ItemPtr :=
  p.item_at p.current_row

/-- The call `stop_after_current()`. -/
def Playlist.stop_after_current (p : Playlist) : Bool :=
  decide (p.stop_after ≠ -1 ∧ p.stop_after = p.current_row)

/-- The call `StopAfter(row)`. -/
def Playlist.StopAfter (p : Playlist) (row : Int) : Playlist :=
  { p with stop_after := row }

/-- The call `ReshuffleIndices()`. -/
def Playlist.ReshuffleIndices (p : Playlist) : Playlist :=
  { p with reshuffles := p.reshuffles + 1 }

/-- The call `InformOfCurrentSongChange()`. -/
def Playlist.InformOfCurrentSongChange (p : Playlist) : Playlist :=
  { p with song_change_informs := p.song_change_informs + 1 }

/-- The call `UpdateScrobblePoint(nanosec)`. -/
def Playlist.UpdateScrobblePoint (p : Playlist) (nanosec : Int) : Playlist :=
  { p with scrobble_points := p.scrobble_points ++ [nanosec] }

/-- The call `SetStreamMetadata(url, song)`, as far as the cursor itself records
it. -/
def Playlist.SetStreamMetadata (p : Playlist) (url : QUrl) (song : Song) : Playlist :=
  { p with stream_metadata := p.stream_metadata ++ [(url, song)] }

/-- The enum `Player::PreviousBehaviour`. -/
inductive PreviousBehaviour where
  | PreviousBehaviour_DontRestart | PreviousBehaviour_Restart
deriving DecidableEq, Repr

/-- The behaviour of the collaborators that the player cannot see into: what the
cursor answers for the next and previous row in a given cursor state, the
album comparison of `Song`, and what a URL handler answers to `StartLoading`
and `LoadNext` given the calls made on handlers so far. -/
structure Env where
  next_row : Playlist → Bool → Int
  previous_row : Playlist → Bool → Int
  IsOnSameAlbum : Song → Song → Bool
  StartLoading : List HandlerCall → UrlHandler → QUrl → LoadResult
  LoadNext : List HandlerCall → UrlHandler → QUrl → LoadResult

/-- The members of `Player` together with its collaborators and the logs of what
it emitted.  `nb_errors_received_` is the ErrorBudget, `loading_async_` the
PendingAsyncLoad (`QUrl.null` when empty), `current_item_` the CurrentItem and
`last_state_` the tracked PlaybackState.  The counter is declared in
`player.h`, which is not part of the sources; it is an unbounded integer here.
`play_count_increments` logs the calls of `IncrementPlayCountAsync`. -/
structure Player where
  current_item_ : Option ItemPtr
  stream_change_type_ : TrackChangeFlags
  last_state_ : EngineState
  nb_errors_received_ : Int
  volume_before_mute_ : Int
  last_pressed_previous_ : Option Int
  continue_on_error_ : Bool
  greyout_ : Bool
  menu_previousmode_ : PreviousBehaviour
  seek_step_sec_ : Int
  volume_control_ : Bool
  loading_async_ : QUrl
  url_handlers_ : List (String × UrlHandler)
  settings_volume : Int
  engine_ : EngineBase
  playlist : Playlist
  heap : ItemPtr → PlaylistItem
  signals : List Signal
  handler_calls : List HandlerCall
  play_count_increments : List Int

/-- Modelled from the spec: `qBound(min, value, max)` of Qt, the value clamped
to the range: `qMax(min, qMin(max, value))`. -/
def qBound (lo value hi : Int) : Int := max lo (min hi value)

/-- Modelled from the spec: the constant `kNsecPerSec` (`timeconstants.h` is not
part of the sources), the number of nanoseconds in a second. -/
def kNsecPerSec : Int := 1000000000

/-- A mathematical integer as a `qint64`: the value modulo `2^64`, in the range
from `-2^63` to `2^63 - 1`. -/
def qint64 (x : Int) : Int := (x + 2 ^ 63) % 2 ^ 64 - 2 ^ 63

/-- A mathematical integer as an `int`: the value modulo `2^32`, in the range
from `-2^31` to `2^31 - 1`. -/
def int32 (x : Int) : Int := (x + 2 ^ 31) % 2 ^ 32 - 2 ^ 31

namespace QDateTime

/-- Modelled from the spec: `QDateTime::isValid()` (Qt); a date and time is a
clock reading in seconds, `none` when it is not valid. -/
def isValid (t : Option Int) : Bool := t.isSome

/-- Modelled from the spec: `QDateTime::secsTo(other)` (Qt): the seconds from
this reading to the other one, 0 when this one is not valid. -/
def secsTo (t : Option Int) (other : Int) : Int :=
  match t with
  | some reading => other - reading
  | none => 0

end QDateTime

/-- Modelled from the spec: `Engine::SimpleMetaBundle` (`engine_fwd.h` is not part
of the sources), the fields the player reads. -/
structure SimpleMetaBundle where
  url : QUrl
  title : String
  artist : String
deriving DecidableEq, Repr

namespace QString

/-- Modelled from the spec: `QChar::isSpace` (Qt): the ASCII white space
characters, next line and no-break space. -/
def isSpace (c : Char) : Bool :=
  c.toNat = 32 || (9 ≤ c.toNat && c.toNat ≤ 13) || c.toNat = 133 || c.toNat = 160

/-- The search behind `QString::indexOf`: the position, counted from `i`, of the
first place where `needle` starts in `hay`, or `-1`. -/
def indexOfFrom (needle : List Char) : List Char → Nat → Int
  | [], i => if needle = [] then (i : Int) else -1
  | c :: rest, i =>
    if needle.isPrefixOf (c :: rest) then (i : Int) else indexOfFrom needle rest (i + 1)

/-- Modelled from the spec: `QString::indexOf(needle)` (Qt). -/
def indexOf (s needle : String) : Int := indexOfFrom needle.data s.data 0

/-- Modelled from the spec: `QString::left(n)` (Qt): the first `n` characters, the
whole string when `n` is negative or not less than the size. -/
def left (s : String) (n : Int) : String :=
  if n < 0 ∨ (s.data.length : Int) ≤ n then s else ⟨s.data.take n.toNat⟩

/-- Modelled from the spec: `QString::mid(position)` (Qt): the characters from
`position` to the end. -/
def mid (s : String) (position : Int) : String := ⟨s.data.drop position.toNat⟩

/-- The characters of a string with white space removed from both ends. -/
def trim (l : List Char) : List Char :=
  ((l.dropWhile isSpace).reverse.dropWhile isSpace).reverse

/-- Modelled from the spec: `QString::trimmed()` (Qt). -/
def trimmed (s : String) : String := ⟨trim s.data⟩

/-- Modelled from the spec: `QString::isEmpty()` (Qt). -/
def isEmpty (s : String) : Bool := s.data.isEmpty

/-- The order of the characters behind `operator<` of `QString`: by the codes of
the characters, a proper start of a string coming before the string. -/
def ltChars : List Char → List Char → Bool
  | _, [] => false
  | [], _ :: _ => true
  | a :: as, b :: bs =>
    if a.toNat < b.toNat then true
    else if a.toNat = b.toNat then ltChars as bs
    else false

/-- Modelled from the spec: `operator<` of `QString` (Qt), the order of the keys
of a `QMap`. -/
def lt (a b : String) : Bool := ltChars a.data b.data

end QString

namespace QMap

/-- Modelled from the spec: `QMap::contains(key)` (Qt) on the handler map, whose
entries are kept in the order of their keys. -/
def contains (m : List (String × UrlHandler)) (key : String) : Bool :=
  (m.lookup key).isSome

/-- Modelled from the spec: `QMap::insert(key, value)` (Qt): the entry is put at
its place in the order of the keys and replaces an entry with the same key. -/
def insert : List (String × UrlHandler) → String → UrlHandler → List (String × UrlHandler)
  | [], key, value => [(key, value)]
  | (k, v) :: rest, key, value =>
    if QString.lt key k then (key, value) :: (k, v) :: rest
    else if key = k then (key, value) :: rest
    else (k, v) :: insert rest key value

/-- Modelled from the spec: `QMap::key(value)` (Qt): the first key whose value is
the given handler pointer, the default `QString()` when there is none. -/
def key (m : List (String × UrlHandler)) (value : UrlHandler) : String :=
  match m.find? (fun e => decide (e.2.ptr = value.ptr)) with
  | some e => e.1
  | none => ""

/-- Modelled from the spec: `QMap::remove(key)` (Qt). -/
def remove (m : List (String × UrlHandler)) (key : String) : List (String × UrlHandler) :=
  m.filter (fun e => decide (e.1 ≠ key))

end QMap

/-- Modelled from the spec: `Song::MergeFromSimpleMetaBundle` (`song.cpp` is not
part of the sources), a merge of the bundle into the metadata: a non-empty
title or artist of the bundle replaces that of the song, the rest is kept. -/
def Song.MergeFromSimpleMetaBundle (song : Song) (bundle : SimpleMetaBundle) : Song :=
  let song := if QString.isEmpty bundle.title then song else { song with title := bundle.title }
  if QString.isEmpty bundle.artist then song else { song with artist := bundle.artist }

namespace Player

/-- The statement `emit sig`. -/
def emit (s : Player) (sig : Signal) : Player :=
  { s with signals := s.signals ++ [sig] }

/-- A call `engine_->...` that is a command. -/
def engine_call (s : Player) (c : EngineCommand) : Player :=
  { s with engine_ := { s.engine_ with commands := s.engine_.commands ++ [c] } }

/-- A call on a URL handler is recorded. -/
def handler_call (s : Player) (c : HandlerCall) : Player :=
  { s with handler_calls := s.handler_calls ++ [c] }

/-- The lookup `url_handlers_.contains(scheme)` / `url_handlers_[scheme]`. -/
def handler_for (s : Player) (scheme : String) : Option UrlHandler :=
  s.url_handlers_.lookup scheme

/-- Member `Player::EngineStateChanged` (player.cpp 485-510). -/
def EngineStateChanged (s : Player) (state : EngineState) : Player :=
  let s :=
    if EngineState.Error = state then
      { s with nb_errors_received_ := s.nb_errors_received_ + 1 }
    else
      { s with nb_errors_received_ := 0 }
  let s :=
    match state with
    | .Paused => s.emit .Paused
    | .Playing => s.emit .Playing
    | .Error => (s.emit (.Error "")).emit .Stopped
    | .Empty => s.emit .Stopped
    | .Idle => s.emit .Stopped
  { s with last_state_ := state }

/-- Member `Player::Stop` (player.cpp 441-445). -/
def Stop (s : Player) (stop_after : Bool) : Player :=
  let s := s.engine_call (.Stop stop_after)
  let s := { s with playlist := s.playlist.set_current_row (-1) }
  { s with current_item_ := none }

/-- Member `Player::FatalError` (player.cpp 757-760); `Stop()` is `Stop(false)`. -/
def FatalError (s : Player) : Player :=
  let s := { s with nb_errors_received_ := 0 }
  s.Stop false

/-- The hints of a `TrackAvailable` result merged into the metadata of the item
(player.cpp 277-294): the song to store and the flag `update`. -/
def TrackAvailableSong (md : Song) (result : LoadResult) : Song × Bool :=
  let song := md
  let update := false
  let c1 : Bool := decide
    ((md.filetype = .FileType_Unknown ∧ result.filetype_ ≠ .FileType_Unknown)
      ∨ (md.filetype = .FileType_Stream ∧ result.filetype_ ≠ .FileType_Stream))
  let song := if c1 then { song with filetype := result.filetype_ } else song
  let update := if c1 then true else update
  let c2 : Bool := decide (md.length_nanosec ≤ 0 ∧ result.length_nanosec_ ≠ -1)
  let song := if c2 then { song with length_nanosec := result.length_nanosec_ } else song
  let update := if c2 then true else update
  (song, update)

/-- The temporary metadata overlay of the `TrackAvailable` case (player.cpp
295-298): written, and the cursor informed, when `update` is set. -/
def TrackAvailableOverlay (s : Player) (item : ItemPtr) (result : LoadResult) : Player :=
  let merged := TrackAvailableSong (s.heap item).Metadata result
  if merged.2 then
    { s with
      heap := Function.update s.heap item ((s.heap item).SetTemporaryMetadata merged.1)
      playlist := s.playlist.InformOfCurrentSongChange }
  else s

/-- The `TrackAvailable` case of `Player::HandleLoadResult` (player.cpp 273-304)
for the cursor's current item `item`. -/
def HandleTrackAvailable (s : Player) (item : ItemPtr) (result : LoadResult) : Player :=
  let s := s.TrackAvailableOverlay item result
  let md := (s.heap item).Metadata
  let s := s.engine_call
    (.Play result.media_url_ result.original_url_ s.stream_change_type_
      md.has_cue md.beginning_nanosec md.end_nanosec)
  let s := { s with current_item_ := some item }
  { s with loading_async_ := QUrl.null }

/-- Member `Player::HandleLoadResult` (player.cpp 248-314); the call of `PlayNextItem`
is the parameter. -/
def HandleLoadResultWith (PlayNextItem : Player → TrackChangeFlags → Option Player)
    (s : Player) (result : LoadResult) : Option Player :=
  match s.playlist.current_item with
  | none => some { s with loading_async_ := QUrl.null }
  | some item =>
    if (s.heap item).url ≠ result.original_url_ then some s
    else
      match result.type_ with
      | .Error =>
        let s := { s with loading_async_ := QUrl.null }
        let s := s.EngineStateChanged .Error
        let s := s.FatalError
        some (s.emit (.Error result.error_))
      | .NoMoreTracks =>
        let s := { s with loading_async_ := QUrl.null }
        PlayNextItem s s.stream_change_type_
      | .TrackAvailable => some (s.HandleTrackAvailable item result)
      | .WillLoadAsynchronously =>
        some { s with loading_async_ := result.original_url_ }

/-- The test of `Player::PlayNextItem` (player.cpp 344-347) that decides whether
too many errors were received: the change is `Engine::Auto`, the repeat mode
is not `Repeat_Off`, and the error count reached 3 under `Repeat_Track` or
reached the row count of the proxy. -/
def ErrorCeilingReached (s : Player) (change : TrackChangeFlags) : Bool :=
  decide (change = Engine.Auto ∧ s.playlist.repeat_mode ≠ .Repeat_Off
    ∧ ((s.playlist.repeat_mode = .Repeat_Track ∧ s.nb_errors_received_ ≥ 3)
        ∨ s.nb_errors_received_ ≥ s.playlist.proxy_rowCount))

/-- The branch of `Player::PlayNextItem` taken when too many errors were
received (player.cpp 349-351). -/
def PlayNextItemAbort (s : Player) : Player :=
  let s := { s with nb_errors_received_ := 0 }
  s.Stop false

/-- The rest of `Player::PlayNextItem` (player.cpp 356-367): the cursor is asked
for the next row. -/
def PlayNextItemAdvance (env : Env)
    (PlayAt : Player → Int → TrackChangeFlags → Bool → Option Player)
    (s : Player) (change : TrackChangeFlags) : Option Player :=
  let ignore_repeat_track := change.hasManual
  let i := env.next_row s.playlist ignore_repeat_track
  if i = -1 then
    let s := { s with playlist := s.playlist.set_current_row i }
    let s := s.emit .PlaylistFinished
    some (s.Stop false)
  else
    PlayAt s i change false

/-- Member `Player::PlayNextItem` (player.cpp 339-369); the call of `PlayAt` is the
parameter. -/
def PlayNextItemWith (env : Env)
    (PlayAt : Player → Int → TrackChangeFlags → Bool → Option Player)
    (s : Player) (change : TrackChangeFlags) : Option Player :=
  if s.ErrorCeilingReached change then some s.PlayNextItemAbort
  else PlayNextItemAdvance env PlayAt s change

/-- The head of `Player::PlayAt` (player.cpp 530-536): the skip notification. -/
def PlayAtSkip (s : Player) (change : TrackChangeFlags) : Player :=
  match s.current_item_ with
  | some cur =>
    if change = Engine.Manual ∧ s.engine_.position_nanosec ≠ s.engine_.length_nanosec then
      let s := s.emit (.TrackSkipped cur)
      let url := (s.heap cur).url
      match s.handler_for url.scheme with
      | some handler => s.handler_call (.TrackSkipped handler)
      | none => s
    else s
  | none => s

/-- The same-album test of `Player::PlayAt` (player.cpp 538-540). -/
def PlayAtChange (env : Env) (s : Player) (index : Int) (change : TrackChangeFlags) :
    TrackChangeFlags :=
  match s.current_item_, s.playlist.item_at index with
  | some cur, some next =>
    if env.IsOnSameAlbum (s.heap cur).Metadata (s.heap next).Metadata then change.orSameAlbum
    else change
  | _, _ => change

/-- The first part of `Player::PlayAt` (player.cpp 530-543): skip notification,
same-album flag, reshuffle, and the move of the cursor to `index`.  Gives the
state reached and the change flags computed. -/
def PlayAtSelect (env : Env) (s : Player) (index : Int) (change : TrackChangeFlags)
    (reshuffle : Bool) : Player × TrackChangeFlags :=
  let s := s.PlayAtSkip change
  let change := PlayAtChange env s index change
  let s := if reshuffle then { s with playlist := s.playlist.ReshuffleIndices } else s
  let s := { s with playlist := s.playlist.set_current_row index }
  (s, change)

/-- The state of `Player::PlayAt` after `current_item_` was set to the item
`item` of the selected row (player.cpp 549). -/
def PlayAtSelected (env : Env) (s : Player) (index : Int) (change : TrackChangeFlags)
    (reshuffle : Bool) (item : ItemPtr) : Player :=
  { (PlayAtSelect env s index change reshuffle).1 with current_item_ := some item }

/-- The state in which `Player::PlayAt` hands the answer of the handler to
`HandleLoadResult` (player.cpp 556-557): the change is stored and
`StartLoading` has been called on the handler. -/
def PlayAtLoading (s : Player) (cur : ItemPtr) (change : TrackChangeFlags)
    (handler : UrlHandler) : Player :=
  let s := { s with stream_change_type_ := change }
  s.handler_call (.StartLoading handler (s.heap cur).url)

/-- The state in which `Player::PlayAt` ends when no handler is registered
(player.cpp 560-561): the pending load is cleared and the engine plays the
URL of the item. -/
def PlayAtPlay (s : Player) (cur : ItemPtr) (change : TrackChangeFlags) : Player :=
  let s := { s with loading_async_ := QUrl.null }
  let md := (s.heap cur).Metadata
  s.engine_call
    (.Play (s.heap cur).url (s.heap cur).url change
      md.has_cue md.beginning_nanosec md.end_nanosec)

/-- Member `Player::PlayAt` (player.cpp 528-564); the call of `HandleLoadResult` is the
parameter. -/
def PlayAtWith (env : Env) (HandleLoadResult : Player → LoadResult → Option Player)
    (s : Player) (index : Int) (change : TrackChangeFlags) (reshuffle : Bool) :
    Option Player :=
  let selected := PlayAtSelect env s index change reshuffle
  if selected.1.playlist.current_row = -1 then some selected.1
  else
    match selected.1.playlist.current_item with
    | none => none
    | some cur =>
      let s := PlayAtSelected env s index change reshuffle cur
      let change := selected.2
      let url := (s.heap cur).url
      match s.handler_for url.scheme with
      | some handler =>
        if url = s.loading_async_ then some s
        else
          let result := env.StartLoading s.handler_calls handler url
          HandleLoadResult (s.PlayAtLoading cur change handler) result
      | none => some (s.PlayAtPlay cur change)

/-- Member `Player::PlayAt` with a budget of nested `PlayAt` calls. -/
def PlayAt (env : Env) : Nat → Player → Int → TrackChangeFlags → Bool → Option Player
  | 0 => fun _ _ _ _ => none
  | fuel + 1 =>
    PlayAtWith env (HandleLoadResultWith (PlayNextItemWith env (PlayAt env fuel)))

/-- Member `Player::PlayNextItem`, with the budget for the `PlayAt` it may call. -/
def PlayNextItem (env : Env) (fuel : Nat) (s : Player) (change : TrackChangeFlags) :
    Option Player :=
  PlayNextItemWith env (PlayAt env fuel) s change

/-- Member `Player::HandleLoadResult`, with the budget for the `PlayAt` it may reach. -/
def HandleLoadResult (env : Env) (fuel : Nat) (s : Player) (result : LoadResult) :
    Option Player :=
  HandleLoadResultWith (PlayNextItem env fuel) s result

/-- Member `Player::HandleStopAfter` (player.cpp 371-387): the flag it returns and the
state it leaves. -/
def HandleStopAfter (env : Env) (s : Player) : Bool × Player :=
  if s.playlist.stop_after_current then
    let next_row := env.next_row s.playlist false
    let s :=
      if next_row ≠ -1 then { s with playlist := s.playlist.set_current_row next_row }
      else s
    let s := { s with playlist := s.playlist.StopAfter (-1) }
    (true, s.Stop true)
  else (false, s)

/-- Member `Player::NextInternal` (player.cpp 318-337). -/
def NextInternal (env : Env) (fuel : Nat) (s : Player) (change : TrackChangeFlags) :
    Option Player :=
  match HandleStopAfter env s with
  | (true, s) => some s
  | (false, s) =>
    match s.playlist.current_item with
    | some item =>
      let url := (s.heap item).url
      match s.handler_for url.scheme with
      | some handler =>
        if url = s.loading_async_ then some s
        else
          let s := { s with stream_change_type_ := change }
          let result := env.LoadNext s.handler_calls handler url
          let s := s.handler_call (.LoadNext handler url)
          HandleLoadResult env fuel s result
      | none => PlayNextItem env fuel s change
    | none => PlayNextItem env fuel s change

/-- Member `Player::Next` (player.cpp 316). -/
def Next (env : Env) (fuel : Nat) (s : Player) : Option Player :=
  NextInternal env fuel s Engine.Manual

/-- The call `engine_->SetVolume(volume)`: recorded, and mirrored into the
volume the engine reports. -/
def engine_SetVolume (s : Player) (volume : Int) : Player :=
  { s with engine_ :=
      { s.engine_ with volume := volume, commands := s.engine_.commands ++ [.SetVolume volume] } }

/-- Member `Player::SetVolume` (player.cpp 512-524). -/
def SetVolume (s : Player) (value : Int) : Player :=
  let old_volume := s.engine_.volume
  let volume := qBound 0 value 100
  let s := { s with settings_volume := volume }
  let s := s.engine_SetVolume volume
  if volume ≠ old_volume then s.emit (.VolumeChanged volume) else s

/-- Member `Player::GetVolume` (player.cpp 526). -/
def GetVolume (s : Player) : Int := s.engine_.volume

/-- Member `Player::Mute` (player.cpp 652-666). -/
def Mute (s : Player) : Player :=
  if s.volume_control_ = false then s
  else
    let current_volume := s.engine_.volume
    if current_volume = 0 then s.SetVolume s.volume_before_mute_
    else
      let s := { s with volume_before_mute_ := current_volume }
      s.SetVolume 0

/-- Member `Player::SeekTo` (player.cpp 583-600); `seconds` is the `int` argument,
the product is taken in `qint64`. -/
def SeekTo (s : Player) (seconds : Int) : Player :=
  let length_nanosec := s.engine_.length_nanosec
  if length_nanosec ≤ 0 then s
  else
    let nanosec := qBound 0 (qint64 (qint64 seconds * kNsecPerSec)) length_nanosec
    let s := s.engine_call (.Seek nanosec)
    let s := { s with playlist := s.playlist.UpdateScrobblePoint nanosec }
    s.emit (.Seeked (nanosec.tdiv 1000))

/-- The split of "Artist - Title" in `Player::EngineMetadataReceived` (player.cpp
617-632): the copy of the bundle after the heuristic. -/
def SplitArtistTitle (bundle : SimpleMetaBundle) : SimpleMetaBundle :=
  let bundle_copy := bundle
  let dash_pos := QString.indexOf bundle_copy.title "-"
  if dash_pos ≠ -1 ∧ QString.isEmpty bundle_copy.artist then
    let space_dash_pos := QString.indexOf bundle_copy.title " - "
    if space_dash_pos ≠ -1 then
      let bundle_copy :=
        { bundle_copy with
          artist := QString.trimmed (QString.left bundle_copy.title space_dash_pos) }
      { bundle_copy with
        title := QString.trimmed (QString.mid bundle_copy.title (space_dash_pos + 3)) }
    else
      let bundle_copy :=
        { bundle_copy with artist := QString.trimmed (QString.left bundle_copy.title dash_pos) }
      { bundle_copy with title := QString.trimmed (QString.mid bundle_copy.title (dash_pos + 1)) }
  else bundle_copy

/-- The call `SetStreamMetadata(url, song)` on the cursor: the cursor records it
and the song becomes the live (temporary) metadata of its current item. -/
def SetStreamMetadata (s : Player) (item : ItemPtr) (song : Song) : Player :=
  { s with
    playlist := s.playlist.SetStreamMetadata (s.heap item).url song
    heap := Function.update s.heap item ((s.heap item).SetTemporaryMetadata song) }

/-- Member `Player::EngineMetadataReceived` (player.cpp 610-642); what
`Song::MergeFromSimpleMetaBundle` does is the parameter `merge`. -/
def EngineMetadataReceived (merge : Song → SimpleMetaBundle → Song) (s : Player)
    (bundle : SimpleMetaBundle) : Player :=
  match s.playlist.current_item with
  | none => s
  | some item =>
    if bundle.url ≠ (s.heap item).Metadata.url then s
    else
      let bundle_copy := SplitArtistTitle bundle
      let song := (s.heap item).Metadata
      let song := merge song bundle_copy
      if QString.isEmpty song.title ∧ QString.isEmpty song.artist then s
      else s.SetStreamMetadata item song

/-- Member `Player::RegisterUrlHandler` (player.cpp 779-793); the signal
connections are not part of the state. -/
def RegisterUrlHandler (s : Player) (handler : UrlHandler) : Player :=
  let scheme := handler.scheme
  if QMap.contains s.url_handlers_ scheme then s
  else { s with url_handlers_ := QMap.insert s.url_handlers_ scheme handler }

/-- Member `Player::UnregisterUrlHandler` (player.cpp 795-808). -/
def UnregisterUrlHandler (s : Player) (handler : UrlHandler) : Player :=
  let scheme := QMap.key s.url_handlers_ handler
  if QString.isEmpty scheme then s
  else { s with url_handlers_ := QMap.remove s.url_handlers_ scheme }

/-- Member `Player::HandlerForUrl` (player.cpp 810-818); `none` is `nullptr`. -/
def HandlerForUrl (s : Player) (url : QUrl) : Option UrlHandler :=
  s.url_handlers_.lookup url.scheme

/-- Member `Player::TrackEnded` (player.cpp 389-399). -/
def TrackEnded (env : Env) (fuel : Nat) (s : Player) : Option Player :=
  match HandleStopAfter env s with
  | (true, s) => some s
  | (false, s) =>
    let s :=
      match s.current_item_ with
      | some cur =>
        if (s.heap cur).is_local_collection_item = true ∧ (s.heap cur).Metadata.id ≠ -1 then
          { s with
            play_count_increments := s.play_count_increments ++ [(s.heap cur).Metadata.id] }
        else s
      | none => s
    NextInternal env fuel s Engine.Auto

/-- Member `Player::PlayPause` (player.cpp 401-431).  There is one playlist, so
`SetActivePlaylist` changes nothing; dereferencing a null `current_item_`
gives no state. -/
def PlayPause (env : Env) (fuel : Nat) (s : Player) : Option Player :=
  match s.engine_.state with
  | .Paused => some (s.engine_call .Unpause)
  | .Playing =>
    match s.current_item_ with
    | none => none
    | some cur =>
      if (s.heap cur).pause_disabled then some (s.Stop false)
      else some (s.engine_call .Pause)
  | _ =>
    if s.playlist.items.length = 0 then some s
    else
      let i := s.playlist.current_row
      let i := if i = -1 then s.playlist.last_played_row else i
      let i := if i = -1 then 0 else i
      PlayAt env fuel s i Engine.First true

/-- Member `Player::Pause` (player.cpp 668). -/
def Pause (s : Player) : Player := s.engine_call .Pause

/-- Modelled from the spec: `Player::GetState` (`player.h` is not part of the
sources), the tracked playback state. -/
def GetState (s : Player) : EngineState := s.last_state_

/-- Member `Player::Play` (player.cpp 670-683). -/
def Play (env : Env) (fuel : Nat) (s : Player) : Option Player :=
  match s.GetState with
  | .Playing => some (s.SeekTo 0)
  | .Paused => some (s.engine_call .Unpause)
  | _ => PlayPause env fuel s

/-- Member `Player::PreviousWouldRestartTrack` (player.cpp 451-454); `now` is the
clock reading `QDateTime::currentDateTime()`. -/
def PreviousWouldRestartTrack (now : Int) (s : Player) : Bool :=
  decide (s.menu_previousmode_ = .PreviousBehaviour_Restart
    ∧ QDateTime.isValid s.last_pressed_previous_ = true
    ∧ QDateTime.secsTo s.last_pressed_previous_ now ≥ 2)

/-- The second part of `Player::PreviousItem` (player.cpp 473-481): the cursor is
asked for the previous row and moved to it. -/
def PreviousItemBack (env : Env) (fuel : Nat) (s : Player) (change : TrackChangeFlags) :
    Option Player :=
  let ignore_repeat_track := change.hasManual
  let i := env.previous_row s.playlist ignore_repeat_track
  let s := { s with playlist := s.playlist.set_current_row i }
  if i = -1 then
    let s := s.Stop false
    PlayAt env fuel s i change true
  else
    PlayAt env fuel s i change false

/-- Member `Player::PreviousItem` (player.cpp 458-483); `now` is the clock reading
`QDateTime::currentDateTime()`. -/
def PreviousItem (env : Env) (fuel : Nat) (now : Int) (s : Player)
    (change : TrackChangeFlags) : Option Player :=
  if s.menu_previousmode_ = .PreviousBehaviour_Restart then
    if QDateTime.isValid s.last_pressed_previous_ = true
        ∧ QDateTime.secsTo s.last_pressed_previous_ now ≥ 2 then
      let s := { s with last_pressed_previous_ := some now }
      PlayAt env fuel s s.playlist.current_row change false
    else
      let s := { s with last_pressed_previous_ := some now }
      PreviousItemBack env fuel s change
  else PreviousItemBack env fuel s change

/-- Member `Player::Previous` (player.cpp 456). -/
def Previous (env : Env) (fuel : Nat) (now : Int) (s : Player) : Option Player :=
  PreviousItem env fuel now s Engine.Manual

/-- Member `Player::SeekForward` (player.cpp 602-604): the seconds are computed in
`qint64` and passed as an `int`. -/
def SeekForward (s : Player) : Player :=
  s.SeekTo (int32 (qint64 (s.engine_.position_nanosec.tdiv kNsecPerSec + s.seek_step_sec_)))

/-- Member `Player::SeekBackward` (player.cpp 606-608). -/
def SeekBackward (s : Player) : Player :=
  s.SeekTo (int32 (qint64 (s.engine_.position_nanosec.tdiv kNsecPerSec - s.seek_step_sec_)))

/-- The preloading of the next item in `Player::TrackAboutToEnd` (player.cpp
729-751): the URL is resolved through its handler when one is registered and
the engine is told to preload it. -/
def PreloadNext (env : Env) (s : Player) (next_item : ItemPtr) : Player :=
  let url := (s.heap next_item).url
  let md := (s.heap next_item).Metadata
  match s.handler_for url.scheme with
  | some handler =>
    let result := env.LoadNext s.handler_calls handler url
    let s := s.handler_call (.LoadNext handler url)
    match result.type_ with
    | .Error =>
      let s := { s with loading_async_ := QUrl.null }
      let s := s.EngineStateChanged .Error
      let s := s.FatalError
      s.emit (.Error result.error_)
    | .NoMoreTracks => s
    | .WillLoadAsynchronously => { s with loading_async_ := url }
    | .TrackAvailable =>
      s.engine_call
        (.StartPreloading result.media_url_ url md.has_cue md.beginning_nanosec md.end_nanosec)
  | none =>
    s.engine_call (.StartPreloading url url md.has_cue md.beginning_nanosec md.end_nanosec)

/-- The part of `Player::TrackAboutToEnd` reached when the track is not ended at
once (player.cpp 726-751): the next item, when there is one, is preloaded. -/
def TrackAboutToEndGapless (env : Env) (s : Player) : Player :=
  if env.next_row s.playlist false = -1 then s
  else
    match s.playlist.item_at (env.next_row s.playlist false) with
    | none => s
    | some next_item => PreloadNext env s next_item

/-- The part of `Player::TrackAboutToEnd` after the handler of the current item
was looked for and not found (player.cpp 705-751).  Dereferencing a null
`current_item_` gives no state. -/
def TrackAboutToEndLocal (env : Env) (fuel : Nat) (s : Player) : Option Player :=
  let has_next_row : Bool := decide (env.next_row s.playlist false ≠ -1)
  let next_item : Option ItemPtr :=
    if has_next_row then s.playlist.item_at (env.next_row s.playlist false) else none
  if s.engine_.is_autocrossfade_enabled then
    if s.engine_.is_fadeout_enabled = false ∧ has_next_row = false then some s
    else if s.engine_.crossfade_same_album = true ∨ has_next_row = false then
      TrackEnded env fuel s
    else
      match next_item with
      | none => TrackEnded env fuel s
      | some next =>
        match s.current_item_ with
        | none => none
        | some cur =>
          if env.IsOnSameAlbum (s.heap cur).Metadata (s.heap next).Metadata = false then
            TrackEnded env fuel s
          else some (TrackAboutToEndGapless env s)
  else some (TrackAboutToEndGapless env s)

/-- Member `Player::TrackAboutToEnd` (player.cpp 693-753). -/
def TrackAboutToEnd (env : Env) (fuel : Nat) (s : Player) : Option Player :=
  match s.playlist.current_item with
  | some item =>
    match s.handler_for (s.heap item).url.scheme with
    | some handler => some (s.handler_call (.TrackAboutToEnd handler))
    | none => TrackAboutToEndLocal env fuel s
  | none => TrackAboutToEndLocal env fuel s

/-- Member `Player::ValidSongRequested` (player.cpp 762-764). -/
def ValidSongRequested (s : Player) (url : QUrl) : Player :=
  s.emit (.SongChangeRequestProcessed url true)

/-- Member `Player::InvalidSongRequested` (player.cpp 766-777). -/
def InvalidSongRequested (env : Env) (fuel : Nat) (s : Player) (url : QUrl) :
    Option Player :=
  let s := if s.greyout_ then s.emit (.SongChangeRequestProcessed url false) else s
  if s.continue_on_error_ = false then some s.FatalError
  else PlayNextItem env fuel s Engine.Auto

/-- The commands and callbacks of the orchestrator; `Previous` carries the clock
reading at the press. -/
inductive Event where
  | Play
  | PlayAt (index : Int) (change : TrackChangeFlags) (reshuffle : Bool)
  | Pause
  | Stop (stop_after : Bool)
  | Next
  | Previous (now : Int)
  | SeekTo (seconds : Int)
  | SetVolume (value : Int)
  | Mute
  | EngineStateChanged (state : EngineState)
  | TrackEnded
  | TrackAboutToEnd
  | HandleLoadResult (result : LoadResult)
  | InvalidSongRequested (url : QUrl)

/-- The state after a command or callback, with the budget of nested `PlayAt`
calls; `none` when no state is produced. -/
def step (env : Env) (fuel : Nat) (s : Player) : Event → Option Player
  | .Play => Play env fuel s
  | .PlayAt index change reshuffle => PlayAt env fuel s index change reshuffle
  | .Pause => some s.Pause
  | .Stop stop_after => some (s.Stop stop_after)
  | .Next => Next env fuel s
  | .Previous now => Previous env fuel now s
  | .SeekTo seconds => some (s.SeekTo seconds)
  | .SetVolume value => some (s.SetVolume value)
  | .Mute => some s.Mute
  | .EngineStateChanged state => some (s.EngineStateChanged state)
  | .TrackEnded => TrackEnded env fuel s
  | .TrackAboutToEnd => TrackAboutToEnd env fuel s
  | .HandleLoadResult result => HandleLoadResult env fuel s result
  | .InvalidSongRequested url => InvalidSongRequested env fuel s url

/-- Member `Player::Player` (player.cpp 83-102): the values the constructor gives to the
members, for a given cursor, engine and item store; `now` is the clock reading
`QDateTime::currentDateTime()`, in seconds. -/
def initial (playlist : Playlist) (engine : EngineBase) (heap : ItemPtr → PlaylistItem)
    (now : Int) : Player where
  current_item_ := none
  stream_change_type_ := Engine.First
  last_state_ := .Empty
  nb_errors_received_ := 0
  volume_before_mute_ := 100
  last_pressed_previous_ := some now
  continue_on_error_ := false
  greyout_ := true
  menu_previousmode_ := .PreviousBehaviour_DontRestart
  seek_step_sec_ := 10
  volume_control_ := true
  loading_async_ := QUrl.null
  url_handlers_ := []
  settings_volume := 100
  engine_ := engine
  playlist := playlist
  heap := heap
  signals := []
  handler_calls := []
  play_count_increments := []

/-- The states the player can be in: the state after construction, for any
cursor, engine, item store and clock reading, and every state a command or
callback produces from such a state. -/
inductive Reachable (env : Env) : Player → Prop where
  | start (playlist : Playlist) (engine : EngineBase) (heap : ItemPtr → PlaylistItem)
      (now : Int) : Reachable env (Player.initial playlist engine heap now)
  | next (fuel : Nat) (s s' : Player) (e : Event) :
      Reachable env s → step env fuel s e = some s' → Reachable env s'

/-- What no command and no callback other than an engine state change does to
the members of the player: the tracked playback state is kept or becomes
`Error`, and the settings and the time of the last press of Previous are
kept. -/
def KeepsTrackedState (s s' : Player) : Prop :=
  (s'.last_state_ = s.last_state_ ∨ s'.last_state_ = .Error)
    ∧ s'.menu_previousmode_ = s.menu_previousmode_
    ∧ s'.last_pressed_previous_ = s.last_pressed_previous_

end Player

/-! ## Concrete queues, handlers and states used to run the code -/

namespace Demo

/-- A song of ten seconds with the given URL. -/
def song (u : QUrl) : Song :=
  ⟨u, .FileType_Other 1, 10000000000, false, 0, 10000000000, -1, "t", "a"⟩

/-- A playlist entry for the given URL. -/
def item (u : QUrl) : PlaylistItem := ⟨u, song u, none, false, false⟩

/-- The URL of a local file. -/
def fileUrl (name : String) : QUrl := ⟨"file", name⟩

/-- The URL of a stream served by the handler for scheme `x`. -/
def streamUrl : QUrl := ⟨"x", "radio"⟩

/-- The item store: three local files `a`, `b`, `c` and a stream item. -/
def heap : ItemPtr → PlaylistItem
  | 0 => item (fileUrl "a")
  | 1 => item (fileUrl "b")
  | 2 => item (fileUrl "c")
  | _ => item streamUrl

/-- An engine that is idle at position 0 of a track of length 0. -/
def engine : EngineBase := ⟨.Empty, 100, 0, 0, false, false, false, []⟩

/-- A queue with the given rows, current row and repeat mode; the proxy shows all
rows. -/
def queue (rows : List ItemPtr) (current : Int) (mode : RepeatMode) : Playlist :=
  ⟨rows, current, -1, mode, rows.length, 0, 0, [], [], -1⟩

/-- The handler registered for scheme `x`. -/
def handlerX : UrlHandler := ⟨7, "x"⟩

/-- A load result of the given type for the stream URL. -/
def result (ty : LoadResultType) (original : QUrl) : LoadResult :=
  ⟨original, ty, fileUrl "resolved", .FileType_Unknown, -1, "boom"⟩

/-- A cursor that walks the rows in order: the row after the current one, the
current row again under `Repeat_Track` unless told to ignore it, the first row
again after the last one when a repeat mode is on, `-1` otherwise.  The
handlers answer `answer` to every request. -/
def env (answer : LoadResultType) : Env where
  next_row := fun p ignore_repeat_track =>
    if p.repeat_mode = .Repeat_Track ∧ ignore_repeat_track = false
        ∧ p.has_item_at p.current_row then p.current_row
    else if p.has_item_at (p.current_row + 1) then p.current_row + 1
    else if p.repeat_mode ≠ .Repeat_Off ∧ p.has_item_at 0 then 0
    else -1
  previous_row := fun p _ => if p.has_item_at (p.current_row - 1) then p.current_row - 1 else -1
  IsOnSameAlbum := fun _ _ => false
  StartLoading := fun _ _ url => result answer url
  LoadNext := fun _ _ url => result answer url

/-- The player as constructed, on a queue with the given rows, row 0 current, and
the given repeat mode and error count. -/
def localPlayer (rows : List ItemPtr) (mode : RepeatMode) (errors : Int) : Player :=
  { Player.initial (queue rows 0 mode) engine heap 0 with nb_errors_received_ := errors }

/-- The player with the handler for scheme `x` registered, on a queue holding
the stream item (row 0) and the local file `a` (row 1); `current` is the
cursor's row, `cur` the current item and `pending` the URL being loaded. -/
def streamPlayer (current : Int) (cur : Option ItemPtr) (pending : QUrl) : Player :=
  { Player.initial (queue [3, 0] current .Repeat_Off) engine heap 0 with
    url_handlers_ := [("x", handlerX)], current_item_ := cur, loading_async_ := pending }

/-- The same player while the engine is four seconds into a track of ten. -/
def midTrack (s : Player) : Player :=
  { s with engine_ :=
      { s.engine_ with
        state := .Playing, position_nanosec := 4000000000, length_nanosec := 10000000000 } }

/-- The engine command that plays the local file `name` as it is, for the
given reason. -/
def playFile (name : String) (change : TrackChangeFlags) : EngineCommand :=
  .Play (fileUrl name) (fileUrl name) change false 0 10000000000

/-- A state of the player on the queue of the three local files under
repeat-all, given by the cursor's row, the current item, the error count, the
tracked playback state and the logs of engine commands and signals. -/
def localState (row : Int) (cur : Option ItemPtr) (errors : Int) (last : EngineState)
    (commands : List EngineCommand) (signals : List Signal) : Player :=
  { Player.initial ⟨[0, 1, 2], row, -1, .Repeat_Playlist, 3, 0, 0, [], [], -1⟩
      { engine with commands := commands } heap 0 with
    current_item_ := cur, nb_errors_received_ := errors, last_state_ := last,
    signals := signals }

/-- A playlist entry for the given URL whose metadata has no title and no
artist. -/
def untitled (u : QUrl) : PlaylistItem :=
  ⟨u, { song u with title := "", artist := "" }, none, false, false⟩

/-- The player of `streamPlayer` with the cursor on the stream item, which has
no title and no artist. -/
def untitledPlayer : Player :=
  { streamPlayer 0 none QUrl.null with heap := fun _ => untitled streamUrl }

/-- The player of `streamPlayer` on a queue whose last row holds the stream
item: the local file `a` (row 0, current) and then the stream item (row 1). -/
def streamLastPlayer : Player :=
  { streamPlayer 0 (some 0) QUrl.null with playlist := queue [0, 3] 0 .Repeat_Off }

/-- An item store in which every item is the local file `a` as an entry of the
collection with id 5. -/
def collectionHeap : ItemPtr → PlaylistItem :=
  fun _ => ⟨fileUrl "a", { song (fileUrl "a") with id := 5 }, none, true, false⟩

/-- The player on the queue of three rows while row 0 plays an entry of the
collection and stop-after-current is set on that row. -/
def stopAfterPlayer : Player :=
  { localState 0 (some 0) 0 .Playing [] [] with
    playlist := ⟨[0, 1, 2], 0, 0, .Repeat_Playlist, 3, 0, 0, [], [], -1⟩
    heap := collectionHeap }

/-- The player on the queue of three local files while row 1 plays, with the
previous-behaviour Restart and the given time of the last press of Previous. -/
def restartPlayer (last : Option Int) : Player :=
  { localState 1 (some 1) 0 .Playing [] [] with
    menu_previousmode_ := .PreviousBehaviour_Restart, last_pressed_previous_ := last }

/-- The player on the queue of three local files while row 0 plays, with
automatic crossfading on and the given fade-out and same-album settings of
the engine. -/
def crossfadePlayer (fadeout same_album : Bool) : Player :=
  { localState 0 (some 0) 0 .Playing [] [] with
    engine_ := ⟨.Playing, 100, 4000000000, 10000000000, true, fadeout, same_album, []⟩ }

/-- The player on the queue of three local files while row 0 plays, with the
given settings `continue_on_error` and `greyout`. -/
def errorPolicyPlayer (continue_on_error greyout : Bool) : Player :=
  { localState 0 (some 0) 1 .Error [] [] with
    continue_on_error_ := continue_on_error, greyout_ := greyout }

/-- The player of `streamPlayer` with the cursor on the stream item, whose
metadata has the file type `Stream` and a known length. -/
def radioPlayer : Player :=
  { streamPlayer 0 none QUrl.null with
    heap := fun _ =>
      ⟨streamUrl, { song streamUrl with filetype := .FileType_Stream }, none, false, false⟩ }

/-- The same player while the engine is at `position` of a track of `length`
nanoseconds. -/
def atPosition (s : Player) (position length : Int) : Player :=
  { s with engine_ :=
      { s.engine_ with
        state := .Playing, position_nanosec := position, length_nanosec := length } }

end Demo

/-! ## Properties -/

namespace Player

theorem has_item_at_item_at (p : Playlist) (index : Int) (h : p.has_item_at index = true) :
    ∃ item, p.item_at index = some item := by
  have hb : 0 ≤ index ∧ index < (p.items.length : Int) := by
    simpa [Playlist.has_item_at] using h
  have hlt : index.toNat < p.items.length := by omega
  refine ⟨p.items.get ⟨index.toNat, hlt⟩, ?_⟩
  simp [Playlist.item_at, h, List.get?_eq_get hlt]

theorem item_at_has_item_at (p : Playlist) (index : Int) (item : ItemPtr)
    (h : p.item_at index = some item) : p.has_item_at index = true := by
  by_contra hc
  simp [Playlist.item_at, hc] at h

theorem current_item_set_current_row (p : Playlist) (index : Int) (item : ItemPtr)
    (h : p.item_at index = some item) :
    (p.set_current_row index).current_row = index
      ∧ (p.set_current_row index).current_item = some item := by
  have hh := item_at_has_item_at p index item h
  have h1 : (p.set_current_row index).current_row = index := by
    simp [Playlist.set_current_row, hh]
  refine ⟨h1, ?_⟩
  unfold Playlist.current_item
  rw [h1]
  simpa [Playlist.item_at, Playlist.set_current_row, Playlist.has_item_at] using h

theorem current_item_set_current_row_none (p : Playlist) :
    (p.set_current_row (-1)).current_row = -1
      ∧ (p.set_current_row (-1)).current_item = none := by
  have hh : p.has_item_at (-1) = false := by simp [Playlist.has_item_at]
  have h1 : (p.set_current_row (-1)).current_row = -1 := by
    simp [Playlist.set_current_row, hh]
  refine ⟨h1, ?_⟩
  unfold Playlist.current_item
  rw [h1]
  simp [Playlist.item_at, Playlist.set_current_row, Playlist.has_item_at]

/-- C1: a load result that arrives when the cursor has no current item, or whose
original URL differs from the URL of the cursor's current item, is dropped:
`HandleLoadResult` returns (whatever the recursion budget), and the tracked
playback state, the current item and the error count are unchanged, the engine
received no command and no signal was emitted. -/
theorem HandleLoadResult_stale_dropped (env : Env) (fuel : Nat) (s : Player)
    (r : LoadResult)
    (h : s.playlist.current_item = none
      ∨ ∃ item, s.playlist.current_item = some item ∧ (s.heap item).url ≠ r.original_url_) :
    ∃ s', HandleLoadResult env fuel s r = some s'
      ∧ s'.last_state_ = s.last_state_
      ∧ s'.current_item_ = s.current_item_
      ∧ s'.nb_errors_received_ = s.nb_errors_received_
      ∧ s'.engine_.commands = s.engine_.commands
      ∧ s'.signals = s.signals := by
  rcases h with h | ⟨item, h, hne⟩
  · exact ⟨{ s with loading_async_ := QUrl.null },
      by simp [HandleLoadResult, HandleLoadResultWith, h], rfl, rfl, rfl, rfl, rfl⟩
  · exact ⟨s, by simp [HandleLoadResult, HandleLoadResultWith, h, hne], rfl, rfl, rfl, rfl, rfl⟩

/-- C1, run: a `TrackAvailable` result for the stream URL arrives while the local
file `a` is the cursor's current item. -/
theorem HandleLoadResult_stale_dropped_witness :
    (∃ item, (Demo.localPlayer [0, 1, 2] .Repeat_Off 2).playlist.current_item = some item
        ∧ ((Demo.localPlayer [0, 1, 2] .Repeat_Off 2).heap item).url
            ≠ (Demo.result .TrackAvailable Demo.streamUrl).original_url_)
      ∧ ∃ s', HandleLoadResult (Demo.env .Error) 0 (Demo.localPlayer [0, 1, 2] .Repeat_Off 2)
            (Demo.result .TrackAvailable Demo.streamUrl) = some s'
          ∧ s'.last_state_ = (Demo.localPlayer [0, 1, 2] .Repeat_Off 2).last_state_
          ∧ s'.current_item_ = (Demo.localPlayer [0, 1, 2] .Repeat_Off 2).current_item_
          ∧ s'.nb_errors_received_ = (Demo.localPlayer [0, 1, 2] .Repeat_Off 2).nb_errors_received_
          ∧ s'.engine_.commands = (Demo.localPlayer [0, 1, 2] .Repeat_Off 2).engine_.commands
          ∧ s'.signals = (Demo.localPlayer [0, 1, 2] .Repeat_Off 2).signals :=
  ⟨⟨0, by decide, by decide⟩,
    HandleLoadResult_stale_dropped (Demo.env .Error) 0 (Demo.localPlayer [0, 1, 2] .Repeat_Off 2)
      (Demo.result .TrackAvailable Demo.streamUrl) (Or.inr ⟨0, by decide, by decide⟩)⟩

/-- C2: after `EngineStateChanged(state)` the error count is the previous count
plus one when the state is `Error` and 0 for every other state, and the tracked
playback state is `state`. -/
theorem EngineStateChanged_error_count (s : Player) (state : EngineState) :
    (s.EngineStateChanged state).nb_errors_received_
        = (if state = .Error then s.nb_errors_received_ + 1 else 0)
      ∧ (s.EngineStateChanged state).last_state_ = state := by
  cases state <;> simp [EngineStateChanged, emit]

theorem ErrorCeilingReached_iff (s : Player) (change : TrackChangeFlags) :
    s.ErrorCeilingReached change = true ↔
      (change = Engine.Auto ∧ s.playlist.repeat_mode ≠ .Repeat_Off
        ∧ ((s.playlist.repeat_mode = .Repeat_Track ∧ s.nb_errors_received_ ≥ 3)
            ∨ s.nb_errors_received_ ≥ s.playlist.proxy_rowCount)) := by
  simp [ErrorCeilingReached]

theorem PlayNextItem_of_ceiling (env : Env) (fuel : Nat) (s : Player)
    (change : TrackChangeFlags) (h : s.ErrorCeilingReached change = true) :
    PlayNextItem env fuel s change = some s.PlayNextItemAbort := by
  simp [PlayNextItem, PlayNextItemWith, h]

theorem PlayNextItem_of_not_ceiling (env : Env) (fuel : Nat) (s : Player)
    (change : TrackChangeFlags) (h : s.ErrorCeilingReached change = false) :
    PlayNextItem env fuel s change
      = (if env.next_row s.playlist change.hasManual = -1 then
          some ((({ s with playlist := s.playlist.set_current_row (-1) } : Player).emit
            .PlaylistFinished).Stop false)
        else PlayAt env fuel s (env.next_row s.playlist change.hasManual) change false) := by
  simp only [PlayNextItem, PlayNextItemWith, h, PlayNextItemAdvance]
  by_cases hn : env.next_row s.playlist change.hasManual = -1
  · simp [hn]
  · simp [hn]

theorem PlayNextItemAbort_effect (s : Player) :
    s.PlayNextItemAbort.nb_errors_received_ = 0
      ∧ s.PlayNextItemAbort.engine_.commands = s.engine_.commands ++ [.Stop false]
      ∧ s.PlayNextItemAbort.current_item_ = none
      ∧ s.PlayNextItemAbort.playlist.current_row = -1
      ∧ s.PlayNextItemAbort.signals = s.signals
      ∧ s.PlayNextItemAbort.handler_calls = s.handler_calls := by
  refine ⟨rfl, rfl, rfl, ?_, rfl, rfl⟩
  exact (current_item_set_current_row_none s.playlist).1

/-- C3 (as stated, refuted): under `Repeat_Track` on a queue of two rows, the
auto-advance made with an error count of 2 already aborts: the count is reset,
the engine is stopped and nothing is played. -/
theorem PlayNextItem_repeat_track_aborts_below_three :
    (Demo.localPlayer [0, 1] .Repeat_Track 2).playlist.repeat_mode = .Repeat_Track
      ∧ (Demo.localPlayer [0, 1] .Repeat_Track 2).nb_errors_received_ = 2
      ∧ ¬ ((Demo.localPlayer [0, 1] .Repeat_Track 2).nb_errors_received_ ≥ 3)
      ∧ (Demo.localPlayer [0, 1] .Repeat_Track 2).ErrorCeilingReached Engine.Auto = true
      ∧ ∃ s', PlayNextItem (Demo.env .TrackAvailable) 1
            (Demo.localPlayer [0, 1] .Repeat_Track 2) Engine.Auto = some s'
          ∧ s'.nb_errors_received_ = 0
          ∧ s'.engine_.commands = [.Stop false]
          ∧ s'.current_item_ = none
          ∧ s'.playlist.current_row = -1 := by
  refine ⟨rfl, rfl, by decide, by decide, _, PlayNextItem_of_ceiling _ _ _ _ (by decide),
    rfl, rfl, rfl, by decide⟩

/-- C3 (amended): under `Repeat_Track`, an auto-advance with reason `Auto` aborts
exactly when the error count is at least 3 or at least the row count of the
queue; so on a queue of at least 3 rows it aborts exactly when the count is at
least 3.  When it aborts, the result does not depend on the cursor's next row:
the count is reset to 0 and the engine is stopped.  When it does not abort, the
cursor is asked for the next row (repeat-track not ignored). -/
theorem PlayNextItem_repeat_track_ceiling (env : Env) (fuel : Nat) (s : Player)
    (h : s.playlist.repeat_mode = .Repeat_Track) :
    (s.ErrorCeilingReached Engine.Auto = true
        ↔ (s.nb_errors_received_ ≥ 3 ∨ s.nb_errors_received_ ≥ s.playlist.proxy_rowCount))
      ∧ (3 ≤ s.playlist.proxy_rowCount →
          (s.ErrorCeilingReached Engine.Auto = true ↔ s.nb_errors_received_ ≥ 3))
      ∧ (s.ErrorCeilingReached Engine.Auto = true →
          PlayNextItem env fuel s Engine.Auto = some s.PlayNextItemAbort
            ∧ s.PlayNextItemAbort.nb_errors_received_ = 0
            ∧ s.PlayNextItemAbort.engine_.commands = s.engine_.commands ++ [.Stop false]
            ∧ s.PlayNextItemAbort.signals = s.signals)
      ∧ (s.ErrorCeilingReached Engine.Auto = false →
          PlayNextItem env fuel s Engine.Auto
            = (if env.next_row s.playlist false = -1 then
                some ((({ s with playlist := s.playlist.set_current_row (-1) } : Player).emit
                  .PlaylistFinished).Stop false)
              else PlayAt env fuel s (env.next_row s.playlist false) Engine.Auto false)) := by
  have hiff : s.ErrorCeilingReached Engine.Auto = true
      ↔ (s.nb_errors_received_ ≥ 3 ∨ s.nb_errors_received_ ≥ s.playlist.proxy_rowCount) := by
    rw [ErrorCeilingReached_iff]
    simp [h]
  refine ⟨hiff, ?_, ?_, ?_⟩
  · intro h3
    rw [hiff]
    constructor
    · rintro (h1 | h1)
      · exact h1
      · omega
    · exact Or.inl
  · intro hc
    exact ⟨PlayNextItem_of_ceiling env fuel s _ hc, rfl, rfl, rfl⟩
  · intro hc
    exact PlayNextItem_of_not_ceiling env fuel s Engine.Auto hc

/-- C3 (amended), run: three rows under `Repeat_Track`; the count 3 aborts, the
count 2 does not. -/
theorem PlayNextItem_repeat_track_ceiling_witness :
    (Demo.localPlayer [0, 1, 2] .Repeat_Track 3).playlist.repeat_mode = .Repeat_Track
      ∧ (Demo.localPlayer [0, 1, 2] .Repeat_Track 3).ErrorCeilingReached Engine.Auto = true
      ∧ (Demo.localPlayer [0, 1, 2] .Repeat_Track 2).ErrorCeilingReached Engine.Auto = false
      ∧ PlayNextItem (Demo.env .TrackAvailable) 1 (Demo.localPlayer [0, 1, 2] .Repeat_Track 3)
          Engine.Auto = some (Demo.localPlayer [0, 1, 2] .Repeat_Track 3).PlayNextItemAbort :=
  ⟨rfl, by decide, by decide,
    ((PlayNextItem_repeat_track_ceiling (Demo.env .TrackAvailable) 1
      (Demo.localPlayer [0, 1, 2] .Repeat_Track 3) rfl).2.2.1 (by decide)).1⟩

/-- C4: under a repeat mode other than `Repeat_Off` and `Repeat_Track`, an
auto-advance with reason `Auto` aborts exactly when the error count is at
least the row count; when it aborts the count is 0, the engine received `Stop`,
the current item is empty and the cursor has no current row.  On the queue of
three local files under repeat-all (`Demo.localState`), with the engine
reporting `Error` after every `Play`: the auto-advances made at counts 1 and 2
play rows 1 and 2, and the one made at count 3 stops playback with the count
reset to 0. -/
theorem PlayNextItem_repeat_all_ceiling (env : Env) (fuel : Nat) (s : Player)
    (hoff : s.playlist.repeat_mode ≠ .Repeat_Off)
    (htrack : s.playlist.repeat_mode ≠ .Repeat_Track) :
    (s.ErrorCeilingReached Engine.Auto = true
        ↔ s.nb_errors_received_ ≥ s.playlist.proxy_rowCount)
      ∧ (s.nb_errors_received_ ≥ s.playlist.proxy_rowCount →
          ∃ s', PlayNextItem env fuel s Engine.Auto = some s'
            ∧ s'.nb_errors_received_ = 0
            ∧ s'.engine_.commands = s.engine_.commands ++ [.Stop false]
            ∧ s'.current_item_ = none
            ∧ s'.playlist.current_row = -1
            ∧ s'.signals = s.signals)
      ∧ (s.nb_errors_received_ < s.playlist.proxy_rowCount →
          PlayNextItem env fuel s Engine.Auto
            = (if env.next_row s.playlist false = -1 then
                some ((({ s with playlist := s.playlist.set_current_row (-1) } : Player).emit
                  .PlaylistFinished).Stop false)
              else PlayAt env fuel s (env.next_row s.playlist false) Engine.Auto false))
      ∧ (PlayAt (Demo.env .TrackAvailable) 1 (Demo.localState 0 none 0 .Empty [] [])
              0 Engine.First false
            = some (Demo.localState 0 (some 0) 0 .Empty [Demo.playFile "a" Engine.First] [])
          ∧ PlayNextItem (Demo.env .TrackAvailable) 1
              ((Demo.localState 0 (some 0) 0 .Empty [Demo.playFile "a" Engine.First]
                []).EngineStateChanged .Error) Engine.Auto
            = some (Demo.localState 1 (some 1) 1 .Error
                [Demo.playFile "a" Engine.First, Demo.playFile "b" Engine.Auto]
                [.Error "", .Stopped])
          ∧ PlayNextItem (Demo.env .TrackAvailable) 1
              ((Demo.localState 1 (some 1) 1 .Error
                [Demo.playFile "a" Engine.First, Demo.playFile "b" Engine.Auto]
                [.Error "", .Stopped]).EngineStateChanged .Error) Engine.Auto
            = some (Demo.localState 2 (some 2) 2 .Error
                [Demo.playFile "a" Engine.First, Demo.playFile "b" Engine.Auto,
                  Demo.playFile "c" Engine.Auto]
                [.Error "", .Stopped, .Error "", .Stopped])
          ∧ PlayNextItem (Demo.env .TrackAvailable) 1
              ((Demo.localState 2 (some 2) 2 .Error
                [Demo.playFile "a" Engine.First, Demo.playFile "b" Engine.Auto,
                  Demo.playFile "c" Engine.Auto]
                [.Error "", .Stopped, .Error "", .Stopped]).EngineStateChanged .Error)
              Engine.Auto
            = some (Demo.localState (-1) none 0 .Error
                [Demo.playFile "a" Engine.First, Demo.playFile "b" Engine.Auto,
                  Demo.playFile "c" Engine.Auto, .Stop false]
                [.Error "", .Stopped, .Error "", .Stopped, .Error "", .Stopped])) := by
  have hiff : s.ErrorCeilingReached Engine.Auto = true
      ↔ s.nb_errors_received_ ≥ s.playlist.proxy_rowCount := by
    rw [ErrorCeilingReached_iff]
    simp [hoff, htrack]
  refine ⟨hiff, ?_, ?_, ?_⟩
  · intro hn
    have hab := PlayNextItemAbort_effect s
    exact ⟨s.PlayNextItemAbort, PlayNextItem_of_ceiling env fuel s _ (hiff.2 hn),
      hab.1, hab.2.1, hab.2.2.1, hab.2.2.2.1, hab.2.2.2.2.1⟩
  · intro hn
    have hc : s.ErrorCeilingReached Engine.Auto = false := by
      cases hb : s.ErrorCeilingReached Engine.Auto
      · rfl
      · have := hiff.1 hb
        omega
    exact PlayNextItem_of_not_ceiling env fuel s Engine.Auto hc
  · exact ⟨rfl, rfl, rfl, rfl⟩

/-- C4, run: three rows under repeat-all with an error count of 3. -/
theorem PlayNextItem_repeat_all_ceiling_witness :
    (Demo.localPlayer [0, 1, 2] .Repeat_Playlist 3).playlist.repeat_mode ≠ .Repeat_Off
      ∧ (Demo.localPlayer [0, 1, 2] .Repeat_Playlist 3).playlist.repeat_mode ≠ .Repeat_Track
      ∧ ((Demo.localPlayer [0, 1, 2] .Repeat_Playlist 3).ErrorCeilingReached Engine.Auto = true
          ↔ (Demo.localPlayer [0, 1, 2] .Repeat_Playlist 3).nb_errors_received_
              ≥ (Demo.localPlayer [0, 1, 2] .Repeat_Playlist 3).playlist.proxy_rowCount) :=
  ⟨by decide, by decide,
    (PlayNextItem_repeat_all_ceiling (Demo.env .TrackAvailable) 1
      (Demo.localPlayer [0, 1, 2] .Repeat_Playlist 3) (by decide) (by decide)).1⟩

theorem PlayAtSkip_frame (s : Player) (change : TrackChangeFlags) :
    (s.PlayAtSkip change).playlist = s.playlist
      ∧ (s.PlayAtSkip change).heap = s.heap
      ∧ (s.PlayAtSkip change).url_handlers_ = s.url_handlers_
      ∧ (s.PlayAtSkip change).loading_async_ = s.loading_async_
      ∧ (s.PlayAtSkip change).current_item_ = s.current_item_
      ∧ (s.PlayAtSkip change).nb_errors_received_ = s.nb_errors_received_
      ∧ (s.PlayAtSkip change).engine_ = s.engine_
      ∧ (s.PlayAtSkip change).last_state_ = s.last_state_ := by
  unfold PlayAtSkip
  split
  · split
    · dsimp only
      split <;> exact ⟨rfl, rfl, rfl, rfl, rfl, rfl, rfl, rfl⟩
    · exact ⟨rfl, rfl, rfl, rfl, rfl, rfl, rfl, rfl⟩
  · exact ⟨rfl, rfl, rfl, rfl, rfl, rfl, rfl, rfl⟩

/-- The state reached by the first part of `PlayAt`, field by field. -/
theorem PlayAtSelect_frame (env : Env) (s : Player) (index : Int) (change : TrackChangeFlags)
    (reshuffle : Bool) :
    (PlayAtSelect env s index change reshuffle).1.playlist
        = (if reshuffle then s.playlist.ReshuffleIndices else s.playlist).set_current_row index
      ∧ (PlayAtSelect env s index change reshuffle).1.heap = s.heap
      ∧ (PlayAtSelect env s index change reshuffle).1.url_handlers_ = s.url_handlers_
      ∧ (PlayAtSelect env s index change reshuffle).1.loading_async_ = s.loading_async_
      ∧ (PlayAtSelect env s index change reshuffle).1.current_item_ = s.current_item_
      ∧ (PlayAtSelect env s index change reshuffle).1.nb_errors_received_
          = s.nb_errors_received_
      ∧ (PlayAtSelect env s index change reshuffle).1.engine_ = s.engine_
      ∧ (PlayAtSelect env s index change reshuffle).1.last_state_ = s.last_state_
      ∧ (PlayAtSelect env s index change reshuffle).1.signals = (s.PlayAtSkip change).signals
      ∧ (PlayAtSelect env s index change reshuffle).1.handler_calls
          = (s.PlayAtSkip change).handler_calls := by
  obtain ⟨h1, h2, h3, h4, h5, h6, h7, h8⟩ := PlayAtSkip_frame s change
  cases reshuffle <;> simp [PlayAtSelect, h1, h2, h3, h4, h5, h6, h7, h8]

theorem PlayAtSelect_row (env : Env) (s : Player) (index : Int) (change : TrackChangeFlags)
    (reshuffle : Bool) :
    (PlayAtSelect env s index change reshuffle).1.playlist.current_row
        = (if s.playlist.has_item_at index then index else -1)
      ∧ (PlayAtSelect env s index change reshuffle).1.playlist.current_item
        = s.playlist.item_at index := by
  rw [(PlayAtSelect_frame env s index change reshuffle).1]
  have hp : ∀ p : Playlist, p.items = s.playlist.items →
      (p.set_current_row index).current_row
          = (if s.playlist.has_item_at index then index else -1)
        ∧ (p.set_current_row index).current_item = s.playlist.item_at index := by
    intro p hitems
    have hhas : p.has_item_at index = s.playlist.has_item_at index := by
      simp [Playlist.has_item_at, hitems]
    have hat : p.item_at index = s.playlist.item_at index := by
      simp [Playlist.item_at, hhas, hitems]
    cases hb : s.playlist.has_item_at index
    · have hnone : s.playlist.item_at index = none := by simp [Playlist.item_at, hb]
      have hrow : (p.set_current_row index).current_row = -1 := by
        simp [Playlist.set_current_row, hhas, hb]
      refine ⟨by simpa using hrow, ?_⟩
      rw [hnone]
      unfold Playlist.current_item
      rw [hrow]
      simp [Playlist.item_at, Playlist.has_item_at]
    · obtain ⟨item, hitem⟩ := has_item_at_item_at s.playlist index hb
      have := current_item_set_current_row p index item (hat.trans hitem)
      refine ⟨by simpa using this.1, ?_⟩
      rw [this.2, hitem]
  cases reshuffle
  · exact hp s.playlist rfl
  · exact hp s.playlist.ReshuffleIndices rfl

theorem PlayAt_of_missing_row (env : Env) (fuel : Nat) (s : Player) (index : Int)
    (change : TrackChangeFlags) (reshuffle : Bool)
    (h : s.playlist.has_item_at index = false) :
    PlayAt env (fuel + 1) s index change reshuffle
      = some (PlayAtSelect env s index change reshuffle).1 := by
  have hrow := (PlayAtSelect_row env s index change reshuffle).1
  simp only [h] at hrow
  simp [PlayAt, PlayAtWith, hrow]

theorem PlayAtSelected_frame (env : Env) (s : Player) (index : Int)
    (change : TrackChangeFlags) (reshuffle : Bool) (item : ItemPtr) :
    (PlayAtSelected env s index change reshuffle item).current_item_ = some item
      ∧ (PlayAtSelected env s index change reshuffle item).playlist
          = (PlayAtSelect env s index change reshuffle).1.playlist
      ∧ (PlayAtSelected env s index change reshuffle item).heap = s.heap
      ∧ (PlayAtSelected env s index change reshuffle item).url_handlers_ = s.url_handlers_
      ∧ (PlayAtSelected env s index change reshuffle item).loading_async_ = s.loading_async_
      ∧ (PlayAtSelected env s index change reshuffle item).nb_errors_received_
          = s.nb_errors_received_
      ∧ (PlayAtSelected env s index change reshuffle item).engine_ = s.engine_
      ∧ (PlayAtSelected env s index change reshuffle item).last_state_ = s.last_state_
      ∧ (PlayAtSelected env s index change reshuffle item).signals
          = (s.PlayAtSkip change).signals
      ∧ (PlayAtSelected env s index change reshuffle item).handler_calls
          = (s.PlayAtSkip change).handler_calls := by
  obtain ⟨-, h2, h3, h4, -, h6, h7, h8, h9, h10⟩ :=
    PlayAtSelect_frame env s index change reshuffle
  exact ⟨rfl, rfl, h2, h3, h4, h6, h7, h8, h9, h10⟩

theorem PlayAtLoading_frame (s : Player) (cur : ItemPtr) (change : TrackChangeFlags)
    (handler : UrlHandler) :
    (s.PlayAtLoading cur change handler).current_item_ = s.current_item_
      ∧ (s.PlayAtLoading cur change handler).playlist = s.playlist
      ∧ (s.PlayAtLoading cur change handler).heap = s.heap
      ∧ (s.PlayAtLoading cur change handler).url_handlers_ = s.url_handlers_
      ∧ (s.PlayAtLoading cur change handler).loading_async_ = s.loading_async_
      ∧ (s.PlayAtLoading cur change handler).nb_errors_received_ = s.nb_errors_received_
      ∧ (s.PlayAtLoading cur change handler).engine_ = s.engine_
      ∧ (s.PlayAtLoading cur change handler).last_state_ = s.last_state_
      ∧ (s.PlayAtLoading cur change handler).signals = s.signals
      ∧ (s.PlayAtLoading cur change handler).stream_change_type_ = change
      ∧ (s.PlayAtLoading cur change handler).handler_calls
          = s.handler_calls ++ [.StartLoading handler (s.heap cur).url] :=
  ⟨rfl, rfl, rfl, rfl, rfl, rfl, rfl, rfl, rfl, rfl, rfl⟩

/-- Unfolds `PlayAt` on a row that exists, after the cursor has moved: the three ways it
ends (the handler is asked, the URL is already loading, the engine plays). -/
theorem PlayAt_of_row (env : Env) (fuel : Nat) (s : Player) (index : Int)
    (change : TrackChangeFlags) (reshuffle : Bool) (item : ItemPtr)
    (h : s.playlist.item_at index = some item) :
    PlayAt env (fuel + 1) s index change reshuffle
      = (match s.handler_for (s.heap item).url.scheme with
        | some handler =>
          if (s.heap item).url = s.loading_async_ then
            some (PlayAtSelected env s index change reshuffle item)
          else
            HandleLoadResult env fuel
              ((PlayAtSelected env s index change reshuffle item).PlayAtLoading item
                (PlayAtSelect env s index change reshuffle).2 handler)
              (env.StartLoading (s.PlayAtSkip change).handler_calls handler (s.heap item).url)
        | none =>
          some ((PlayAtSelected env s index change reshuffle item).PlayAtPlay item
            (PlayAtSelect env s index change reshuffle).2)) := by
  have hhas := item_at_has_item_at s.playlist index item h
  obtain ⟨hrow, hcur⟩ := PlayAtSelect_row env s index change reshuffle
  obtain ⟨-, -, hheap, hhandlers, hload, -, -, -, -, hcalls⟩ :=
    PlayAtSelected_frame env s index change reshuffle item
  simp only [hhas, if_true] at hrow
  rw [h] at hcur
  have hidx : index ≠ -1 := by
    have : 0 ≤ index := by
      have := hhas
      simp [Playlist.has_item_at] at this
      exact this.1
    omega
  have hfor : ∀ k, (PlayAtSelected env s index change reshuffle item).handler_for k
      = s.handler_for k := by
    intro k
    simp [handler_for, hhandlers]
  simp only [PlayAt, PlayAtWith, hrow, hidx, if_false, hcur, hheap, hfor, hload, hcalls]
  rfl

theorem HandleLoadResult_of_no_item (env : Env) (fuel : Nat) (s : Player) (r : LoadResult)
    (h : s.playlist.current_item = none) :
    HandleLoadResult env fuel s r = some { s with loading_async_ := QUrl.null } := by
  simp [HandleLoadResult, HandleLoadResultWith, h]

theorem HandleLoadResult_of_other_url (env : Env) (fuel : Nat) (s : Player) (r : LoadResult)
    (item : ItemPtr) (h : s.playlist.current_item = some item)
    (hu : (s.heap item).url ≠ r.original_url_) :
    HandleLoadResult env fuel s r = some s := by
  simp [HandleLoadResult, HandleLoadResultWith, h, hu]

/-- Unfolds `HandleLoadResult` for a result whose URL is that of the cursor's current
item, by the type of the result. -/
theorem HandleLoadResult_of_current_url (env : Env) (fuel : Nat) (s : Player) (r : LoadResult)
    (item : ItemPtr) (h : s.playlist.current_item = some item)
    (hu : (s.heap item).url = r.original_url_) :
    HandleLoadResult env fuel s r
      = (match r.type_ with
        | .Error =>
          some (((({ s with loading_async_ := QUrl.null } : Player).EngineStateChanged
            .Error).FatalError).emit (.Error r.error_))
        | .NoMoreTracks =>
          PlayNextItem env fuel { s with loading_async_ := QUrl.null } s.stream_change_type_
        | .TrackAvailable => some (s.HandleTrackAvailable item r)
        | .WillLoadAsynchronously => some { s with loading_async_ := r.original_url_ }) := by
  simp only [HandleLoadResult, HandleLoadResultWith, h, hu, ne_eq, not_true_eq_false,
    if_false]

theorem TrackAvailableOverlay_frame (s : Player) (item : ItemPtr) (r : LoadResult) :
    (s.TrackAvailableOverlay item r).engine_ = s.engine_
      ∧ (s.TrackAvailableOverlay item r).stream_change_type_ = s.stream_change_type_
      ∧ (s.TrackAvailableOverlay item r).signals = s.signals
      ∧ (s.TrackAvailableOverlay item r).nb_errors_received_ = s.nb_errors_received_
      ∧ (s.TrackAvailableOverlay item r).handler_calls = s.handler_calls
      ∧ (s.TrackAvailableOverlay item r).last_state_ = s.last_state_ := by
  unfold TrackAvailableOverlay
  dsimp only
  split <;> exact ⟨rfl, rfl, rfl, rfl, rfl, rfl⟩

theorem HandleTrackAvailable_effect (s : Player) (item : ItemPtr) (r : LoadResult) :
    (s.HandleTrackAvailable item r).current_item_ = some item
      ∧ (s.HandleTrackAvailable item r).loading_async_ = QUrl.null
      ∧ (s.HandleTrackAvailable item r).engine_.commands
          = s.engine_.commands
            ++ [.Play r.media_url_ r.original_url_ s.stream_change_type_
                ((s.TrackAvailableOverlay item r).heap item).Metadata.has_cue
                ((s.TrackAvailableOverlay item r).heap item).Metadata.beginning_nanosec
                ((s.TrackAvailableOverlay item r).heap item).Metadata.end_nanosec]
      ∧ (s.HandleTrackAvailable item r).signals = s.signals
      ∧ (s.HandleTrackAvailable item r).nb_errors_received_ = s.nb_errors_received_
      ∧ (s.HandleTrackAvailable item r).handler_calls = s.handler_calls
      ∧ (s.HandleTrackAvailable item r).last_state_ = s.last_state_ := by
  obtain ⟨h1, h2, h3, h4, h5, h6⟩ := TrackAvailableOverlay_frame s item r
  refine ⟨rfl, rfl, ?_, h3, h4, h5, h6⟩
  simp only [HandleTrackAvailable, engine_call, h1, h2]

theorem Stop_effect (s : Player) (stop_after : Bool) :
    (s.Stop stop_after).engine_.commands = s.engine_.commands ++ [.Stop stop_after]
      ∧ (s.Stop stop_after).current_item_ = none
      ∧ (s.Stop stop_after).playlist.current_row = -1
      ∧ (s.Stop stop_after).playlist.current_item = none
      ∧ (s.Stop stop_after).signals = s.signals
      ∧ (s.Stop stop_after).nb_errors_received_ = s.nb_errors_received_
      ∧ (s.Stop stop_after).loading_async_ = s.loading_async_
      ∧ (s.Stop stop_after).last_state_ = s.last_state_
      ∧ (s.Stop stop_after).handler_calls = s.handler_calls :=
  ⟨rfl, rfl, (current_item_set_current_row_none s.playlist).1,
    (current_item_set_current_row_none s.playlist).2, rfl, rfl, rfl, rfl, rfl⟩

/-- C5 (as stated, refuted): the local file `a` is the current item and `PlayAt`
targets row 0, which holds the stream item; the handler answers `Error`.  When
`PlayAt` returns the current item is empty: neither the item at the requested
row nor the item held before the call. -/
theorem PlayAt_handler_error_clears_current_item :
    (Demo.streamPlayer 1 (some 0) QUrl.null).playlist.item_at 0 = some 3
      ∧ (Demo.streamPlayer 1 (some 0) QUrl.null).current_item_ = some 0
      ∧ (PlayAt (Demo.env .Error) 1 (Demo.streamPlayer 1 (some 0) QUrl.null) 0 Engine.Auto
          false).map (fun s => s.current_item_) = some none := by
  refine ⟨by decide, rfl, by decide⟩

/-- C5 (amended): when `PlayAt(index, change, reshuffle)` returns, the current
item is the one held before the call if the row does not exist.  If the row
exists, it is the item at that row when no handler is registered for its
scheme, when its URL is already being loaded, or when the handler's answer is
`TrackAvailable`, `WillLoadAsynchronously` or carries another original URL; it
is empty when the handler's answer is `Error`; and when the answer is
`NoMoreTracks` it is what the auto-advance (`PlayNextItem` with the stored
reason, run from a state whose current item is the item at the row) leaves. -/
theorem PlayAt_current_item (env : Env) (fuel : Nat) (s : Player) (index : Int)
    (change : TrackChangeFlags) (reshuffle : Bool) :
    (s.playlist.has_item_at index = false →
        ∃ s', PlayAt env (fuel + 1) s index change reshuffle = some s'
          ∧ s'.current_item_ = s.current_item_)
      ∧ (∀ item, s.playlist.item_at index = some item →
          (s.handler_for (s.heap item).url.scheme = none →
            ∃ s', PlayAt env (fuel + 1) s index change reshuffle = some s'
              ∧ s'.current_item_ = some item)
          ∧ (∀ handler r, s.handler_for (s.heap item).url.scheme = some handler →
              r = env.StartLoading (s.PlayAtSkip change).handler_calls handler
                    (s.heap item).url →
              ((s.heap item).url = s.loading_async_ ∨ r.original_url_ ≠ (s.heap item).url
                  ∨ r.type_ = .TrackAvailable ∨ r.type_ = .WillLoadAsynchronously →
                ∃ s', PlayAt env (fuel + 1) s index change reshuffle = some s'
                  ∧ s'.current_item_ = some item)
              ∧ ((s.heap item).url ≠ s.loading_async_ → r.original_url_ = (s.heap item).url →
                  r.type_ = .Error →
                ∃ s', PlayAt env (fuel + 1) s index change reshuffle = some s'
                  ∧ s'.current_item_ = none)
              ∧ ((s.heap item).url ≠ s.loading_async_ → r.original_url_ = (s.heap item).url →
                  r.type_ = .NoMoreTracks →
                ∃ s1, s1.current_item_ = some item ∧ s1.playlist.current_item = some item
                  ∧ PlayAt env (fuel + 1) s index change reshuffle
                      = PlayNextItem env fuel s1 s1.stream_change_type_))) := by
  refine ⟨?_, ?_⟩
  · intro h
    exact ⟨_, PlayAt_of_missing_row env fuel s index change reshuffle h,
      (PlayAtSelect_frame env s index change reshuffle).2.2.2.2.1⟩
  · intro item hitem
    have hrow := PlayAt_of_row env fuel s index change reshuffle item hitem
    have hcur := (PlayAtSelect_row env s index change reshuffle).2
    rw [hitem] at hcur
    refine ⟨?_, ?_⟩
    · intro hnone
      simp only [hnone] at hrow
      exact ⟨_, hrow, rfl⟩
    · intro handler r hh hr
      simp only [hh] at hrow
      rw [← hr] at hrow
      have hcur1 : ((PlayAtSelected env s index change reshuffle item).PlayAtLoading item
          (PlayAtSelect env s index change reshuffle).2 handler).playlist.current_item
            = some item := hcur
      have hurl1 : (((PlayAtSelected env s index change reshuffle item).PlayAtLoading item
          (PlayAtSelect env s index change reshuffle).2 handler).heap item).url
            = (s.heap item).url := by
        show ((PlayAtSelect env s index change reshuffle).1.heap item).url = _
        rw [(PlayAtSelect_frame env s index change reshuffle).2.1]
      refine ⟨?_, ?_, ?_⟩
      · intro hcases
        by_cases hl : (s.heap item).url = s.loading_async_
        · rw [hrow, if_pos hl]
          exact ⟨_, rfl, rfl⟩
        · simp only [hl, if_false] at hrow
          rw [hrow]
          by_cases hu : r.original_url_ = (s.heap item).url
          · rcases hcases with h1 | h1 | h1 | h1
            · exact absurd h1 hl
            · exact absurd hu h1
            · rw [HandleLoadResult_of_current_url env fuel _ r item hcur1 (hurl1.trans hu.symm), h1]
              exact ⟨_, rfl, (HandleTrackAvailable_effect _ item r).1⟩
            · rw [HandleLoadResult_of_current_url env fuel _ r item hcur1 (hurl1.trans hu.symm), h1]
              exact ⟨_, rfl, rfl⟩
          · rw [HandleLoadResult_of_other_url env fuel _ r item hcur1
              (by rw [hurl1]; exact fun h => hu h.symm)]
            exact ⟨_, rfl, rfl⟩
      · intro hl hu ht
        simp only [hl, if_false] at hrow
        rw [hrow, HandleLoadResult_of_current_url env fuel _ r item hcur1 (hurl1.trans hu.symm), ht]
        exact ⟨_, rfl, rfl⟩
      · intro hl hu ht
        simp only [hl, if_false] at hrow
        rw [hrow, HandleLoadResult_of_current_url env fuel _ r item hcur1 (hurl1.trans hu.symm), ht]
        exact ⟨{ ((PlayAtSelected env s index change reshuffle item).PlayAtLoading item
            (PlayAtSelect env s index change reshuffle).2 handler) with
          loading_async_ := QUrl.null }, rfl, hcur, rfl⟩

/-- C5 (amended), run: `PlayAt` on the row of the stream item, the handler answers
`TrackAvailable`, and the stream item is the current item afterwards. -/
theorem PlayAt_current_item_witness :
    (Demo.streamPlayer 1 (some 0) QUrl.null).playlist.item_at 0 = some 3
      ∧ (Demo.streamPlayer 1 (some 0) QUrl.null).handler_for
          ((Demo.streamPlayer 1 (some 0) QUrl.null).heap 3).url.scheme = some Demo.handlerX
      ∧ ∃ s', PlayAt (Demo.env .TrackAvailable) 1 (Demo.streamPlayer 1 (some 0) QUrl.null) 0
            Engine.Auto false = some s'
          ∧ s'.current_item_ = some 3 :=
  ⟨by decide, by decide,
    (((PlayAt_current_item (Demo.env .TrackAvailable) 0
      (Demo.streamPlayer 1 (some 0) QUrl.null) 0 Engine.Auto false).2 3 (by decide)).2
        Demo.handlerX _ (by decide) rfl).1 (Or.inr (Or.inr (Or.inl rfl)))⟩

/-- C6 (as stated, refuted): the local file `a` is playing, four seconds into the
track, and `PlayAt` is called with reason `Manual`, the reshuffle flag and the
index 7, for which the queue of three rows has no row.  `TrackSkipped` is
emitted for the current item and the queue is reshuffled. -/
theorem PlayAt_no_row_skips_and_reshuffles :
    (Demo.midTrack (Demo.localState 0 (some 0) 0 .Playing [] [])).playlist.has_item_at 7
        = false
      ∧ (PlayAt (Demo.env .Error) 1 (Demo.midTrack (Demo.localState 0 (some 0) 0 .Playing [] []))
          7 Engine.Manual true).map (fun s => (s.signals, s.playlist.reshuffles))
        = some ([.TrackSkipped 0], 1)
      ∧ (Demo.midTrack (Demo.localState 0 (some 0) 0 .Playing [] [])).signals = []
      ∧ (Demo.midTrack (Demo.localState 0 (some 0) 0 .Playing [] [])).playlist.reshuffles
        = 0 := by
  refine ⟨by decide, by decide, rfl, rfl⟩

/-- C6 (amended): `PlayAt` on an index for which the cursor has no row returns,
issues no engine command, makes no `StartLoading` or `LoadNext` call, and
leaves the current item, the pending load, the error count and the tracked
playback state unchanged; the cursor ends with no current row.  The queue is
reshuffled exactly when the reshuffle flag is set.  `TrackSkipped` is emitted
(and the `TrackSkipped` hook of the handler registered for the current item's
scheme is called) exactly when there is a current item, the reason is
`Manual` and the engine's position differs from its length; no other signal
is emitted. -/
theorem PlayAt_no_row_effects (env : Env) (fuel : Nat) (s : Player) (index : Int)
    (change : TrackChangeFlags) (reshuffle : Bool)
    (h : s.playlist.has_item_at index = false) :
    ∃ s', PlayAt env (fuel + 1) s index change reshuffle = some s'
      ∧ s'.engine_ = s.engine_
      ∧ s'.current_item_ = s.current_item_
      ∧ s'.loading_async_ = s.loading_async_
      ∧ s'.nb_errors_received_ = s.nb_errors_received_
      ∧ s'.last_state_ = s.last_state_
      ∧ s'.playlist.current_row = -1
      ∧ s'.playlist.reshuffles = s.playlist.reshuffles + (if reshuffle then 1 else 0)
      ∧ ((s.current_item_ = none ∨ change ≠ Engine.Manual
            ∨ s.engine_.position_nanosec = s.engine_.length_nanosec) →
          s'.signals = s.signals ∧ s'.handler_calls = s.handler_calls)
      ∧ (∀ cur, s.current_item_ = some cur → change = Engine.Manual →
          s.engine_.position_nanosec ≠ s.engine_.length_nanosec →
          s'.signals = s.signals ++ [.TrackSkipped cur]
            ∧ (s.handler_for (s.heap cur).url.scheme = none →
                s'.handler_calls = s.handler_calls)
            ∧ (∀ handler, s.handler_for (s.heap cur).url.scheme = some handler →
                s'.handler_calls = s.handler_calls ++ [.TrackSkipped handler])) := by
  obtain ⟨h1, -, -, h4, h5, h6, h7, h8, h9, h10⟩ :=
    PlayAtSelect_frame env s index change reshuffle
  have hrow := (PlayAtSelect_row env s index change reshuffle).1
  simp only [h] at hrow
  refine ⟨_, PlayAt_of_missing_row env fuel s index change reshuffle h, h7, h5, h4, h6, h8,
    by simpa using hrow, ?_, ?_, ?_⟩
  · rw [h1]
    cases reshuffle <;> simp [Playlist.set_current_row, Playlist.ReshuffleIndices]
  · intro hc
    rw [h9, h10]
    unfold PlayAtSkip
    rcases hc with hc | hc | hc
    · simp [hc]
    · cases s.current_item_ <;> simp [hc]
    · cases s.current_item_ <;> simp [hc]
  · intro cur hcur hm hp
    rw [h9, h10]
    unfold PlayAtSkip
    simp only [hcur, hm, hp, ne_eq, not_false_eq_true, and_self, if_true]
    refine ⟨?_, ?_, ?_⟩
    · cases hh : (s.emit (.TrackSkipped cur)).handler_for
        ((s.emit (.TrackSkipped cur)).heap cur).url.scheme <;> rfl
    · intro hn
      have hn' : (s.emit (.TrackSkipped cur)).handler_for
        ((s.emit (.TrackSkipped cur)).heap cur).url.scheme = none := hn
      simp only [hn']
      rfl
    · intro handler hn
      have hn' : (s.emit (.TrackSkipped cur)).handler_for
        ((s.emit (.TrackSkipped cur)).heap cur).url.scheme = some handler := hn
      simp only [hn']
      rfl

/-- C6 (amended), run: `PlayAt` on the missing row 7 of the queue of three local
files. -/
theorem PlayAt_no_row_effects_witness :
    (Demo.midTrack (Demo.localState 0 (some 0) 0 .Playing [] [])).playlist.has_item_at 7
        = false
      ∧ ∃ s', PlayAt (Demo.env .Error) 1
            (Demo.midTrack (Demo.localState 0 (some 0) 0 .Playing [] [])) 7 Engine.Manual true
            = some s'
          ∧ s'.engine_ = (Demo.midTrack (Demo.localState 0 (some 0) 0 .Playing [] [])).engine_
          ∧ s'.current_item_ = some 0 :=
  ⟨by decide,
    (PlayAt_no_row_effects (Demo.env .Error) 0
      (Demo.midTrack (Demo.localState 0 (some 0) 0 .Playing [] [])) 7 Engine.Manual true
      (by decide)).elim fun s' hs => ⟨s', hs.1, hs.2.1, hs.2.2.1⟩⟩

/-- C7: a handler is registered for the scheme of the item `item` at row `index`
(URL `u`), the URL is not already pending and `StartLoading` answers
`WillLoadAsynchronously` for `u`.  Then `PlayAt` returns with
`loading_async_ = u`, no engine command issued and `item` the cursor's current
item.  A completion `TrackAvailable` for `u` delivered next appends exactly
one `Play` with the media URL of the result and the original URL `u`, makes
`item` the current item and clears `loading_async_`.  After `Stop`, a further
completion `r3` (any result, in particular one for `u`) issues no engine
command and leaves the current item empty. -/
theorem async_load_then_stop (env : Env) (fuel : Nat) (s : Player) (index : Int)
    (change : TrackChangeFlags) (reshuffle : Bool) (item : ItemPtr) (handler : UrlHandler)
    (r2 r3 : LoadResult) (stop_after : Bool)
    (hitem : s.playlist.item_at index = some item)
    (hh : s.handler_for (s.heap item).url.scheme = some handler)
    (hpend : (s.heap item).url ≠ s.loading_async_)
    (h1t : (env.StartLoading (s.PlayAtSkip change).handler_calls handler
      (s.heap item).url).type_ = .WillLoadAsynchronously)
    (h1u : (env.StartLoading (s.PlayAtSkip change).handler_calls handler
      (s.heap item).url).original_url_ = (s.heap item).url)
    (h2t : r2.type_ = .TrackAvailable) (h2u : r2.original_url_ = (s.heap item).url) :
    ∃ s1 s2 s3,
      PlayAt env (fuel + 1) s index change reshuffle = some s1
        ∧ s1.loading_async_ = (s.heap item).url
        ∧ s1.engine_.commands = s.engine_.commands
        ∧ s1.playlist.current_item = some item
        ∧ HandleLoadResult env fuel s1 r2 = some s2
        ∧ (∃ reason cue b e, s2.engine_.commands
            = s1.engine_.commands ++ [.Play r2.media_url_ (s.heap item).url reason cue b e])
        ∧ s2.current_item_ = some item
        ∧ s2.loading_async_ = QUrl.null
        ∧ HandleLoadResult env fuel (s2.Stop stop_after) r3 = some s3
        ∧ s3.engine_.commands = s2.engine_.commands ++ [.Stop stop_after]
        ∧ s3.current_item_ = none := by
  have hrow := PlayAt_of_row env fuel s index change reshuffle item hitem
  simp only [hh, hpend, if_false] at hrow
  have hcur := (PlayAtSelect_row env s index change reshuffle).2
  rw [hitem] at hcur
  have hheap := (PlayAtSelect_frame env s index change reshuffle).2.1
  have hengine := (PlayAtSelect_frame env s index change reshuffle).2.2.2.2.2.2.1
  -- the state in which the answer of the handler is processed
  generalize hL : (PlayAtSelected env s index change reshuffle item).PlayAtLoading item
      (PlayAtSelect env s index change reshuffle).2 handler = L at hrow
  have hLcur : L.playlist.current_item = some item := by rw [← hL]; exact hcur
  have hLheap : L.heap = s.heap := by rw [← hL]; exact hheap
  have hLengine : L.engine_ = s.engine_ := by rw [← hL]; exact hengine
  have hLurl : (L.heap item).url = (s.heap item).url := by rw [hLheap]
  rw [HandleLoadResult_of_current_url env fuel L _ item hLcur (hLurl.trans h1u.symm), h1t] at hrow
  simp only [h1u] at hrow
  -- the completion
  have h2 := HandleLoadResult_of_current_url env fuel { L with loading_async_ := (s.heap item).url }
    r2 item hLcur (hLurl.trans h2u.symm)
  simp only [h2t] at h2
  obtain ⟨e1, e2, e3, -, -, -, -⟩ :=
    HandleTrackAvailable_effect { L with loading_async_ := (s.heap item).url } item r2
  -- the late completion
  obtain ⟨k1, k2, -, k4, -, -, -, -, -⟩ :=
    Stop_effect (HandleTrackAvailable { L with loading_async_ := (s.heap item).url } item r2)
      stop_after
  have h3 := HandleLoadResult_of_no_item env fuel
    ((HandleTrackAvailable { L with loading_async_ := (s.heap item).url } item r2).Stop
      stop_after) r3 k4
  refine ⟨_, _, _, hrow, rfl, ?_, hLcur, h2, ?_, e1, e2, h3, k1, k2⟩
  · show L.engine_.commands = _
    rw [hLengine]
  · rw [e3, h2u]
    exact ⟨_, _, _, _, rfl⟩

/-- C7, run: the stream item at row 0, the handler for scheme `x` answering
`WillLoadAsynchronously`, then the completion, `Stop`, and a late completion. -/
theorem async_load_then_stop_witness :
    ∃ s1 s2 s3,
      PlayAt (Demo.env .WillLoadAsynchronously) 1 (Demo.streamPlayer 1 none QUrl.null) 0
          Engine.First false = some s1
        ∧ s1.loading_async_ = ((Demo.streamPlayer 1 none QUrl.null).heap 3).url
        ∧ s1.engine_.commands = (Demo.streamPlayer 1 none QUrl.null).engine_.commands
        ∧ s1.playlist.current_item = some 3
        ∧ HandleLoadResult (Demo.env .WillLoadAsynchronously) 0 s1
            (Demo.result .TrackAvailable Demo.streamUrl) = some s2
        ∧ (∃ reason cue b e, s2.engine_.commands
            = s1.engine_.commands
              ++ [.Play (Demo.result .TrackAvailable Demo.streamUrl).media_url_
                  ((Demo.streamPlayer 1 none QUrl.null).heap 3).url reason cue b e])
        ∧ s2.current_item_ = some 3
        ∧ s2.loading_async_ = QUrl.null
        ∧ HandleLoadResult (Demo.env .WillLoadAsynchronously) 0 (s2.Stop false)
            (Demo.result .TrackAvailable Demo.streamUrl) = some s3
        ∧ s3.engine_.commands = s2.engine_.commands ++ [.Stop false]
        ∧ s3.current_item_ = none :=
  async_load_then_stop (Demo.env .WillLoadAsynchronously) 0 (Demo.streamPlayer 1 none QUrl.null)
    0 Engine.First false 3 Demo.handlerX (Demo.result .TrackAvailable Demo.streamUrl)
    (Demo.result .TrackAvailable Demo.streamUrl) false (by decide) (by decide) (by decide)
    rfl rfl rfl rfl

/-- C8: while `loading_async_` equals the URL `u` and a handler is registered
for the scheme of `u`, a `PlayAt` on a row whose item has URL `u` returns
without a `StartLoading` or `LoadNext` call (the only handler call it can add
is the `TrackSkipped` hook), without an engine command and with
`loading_async_` still `u`; and `NextInternal` (so `Next` too), called while
the cursor's current item has URL `u` and stop-after-current is not set,
returns the state unchanged. -/
theorem pending_load_is_not_requested_again (env : Env) (fuel : Nat) (s : Player)
    (u : QUrl) (handler : UrlHandler)
    (hh : s.handler_for u.scheme = some handler) (hp : s.loading_async_ = u) :
    (∀ index change reshuffle item, s.playlist.item_at index = some item →
        (s.heap item).url = u →
        ∃ s', PlayAt env (fuel + 1) s index change reshuffle = some s'
          ∧ s'.engine_ = s.engine_
          ∧ s'.loading_async_ = u
          ∧ (s'.handler_calls = s.handler_calls
              ∨ ∃ skipped, s'.handler_calls = s.handler_calls ++ [.TrackSkipped skipped]))
      ∧ (∀ change item, s.playlist.current_item = some item → (s.heap item).url = u →
          s.playlist.stop_after_current = false →
          NextInternal env fuel s change = some s ∧ Next env fuel s = some s) := by
  refine ⟨?_, ?_⟩
  · intro index change reshuffle item hitem hu
    have hrow := PlayAt_of_row env fuel s index change reshuffle item hitem
    rw [hu] at hrow
    simp only [hh, hp, if_true] at hrow
    obtain ⟨-, -, -, -, h5, -, h7, -, -, h10⟩ :=
      PlayAtSelected_frame env s index change reshuffle item
    refine ⟨_, hrow, h7, h5.trans hp, ?_⟩
    rw [h10]
    unfold PlayAtSkip
    cases s.current_item_ with
    | none => exact Or.inl rfl
    | some cur =>
      dsimp only
      split
      · split
        · exact Or.inr ⟨_, rfl⟩
        · exact Or.inl rfl
      · exact Or.inl rfl
  · intro change item hcur hu hsa
    have key : ∀ c, NextInternal env fuel s c = some s := by
      intro c
      simp [NextInternal, HandleStopAfter, hsa, hcur, hu, hh, hp]
    exact ⟨key change, key Engine.Manual⟩

/-- C8, run: the stream URL is pending and the stream item is the cursor's
current item; `PlayAt` on its row and `NextInternal` ask the handler nothing. -/
theorem pending_load_is_not_requested_again_witness :
    (Demo.streamPlayer 0 none Demo.streamUrl).playlist.current_item = some 3
      ∧ (Demo.streamPlayer 0 none Demo.streamUrl).loading_async_ = Demo.streamUrl
      ∧ (∃ s', PlayAt (Demo.env .TrackAvailable) 1 (Demo.streamPlayer 0 none Demo.streamUrl) 0
            Engine.Manual false = some s'
          ∧ s'.engine_ = (Demo.streamPlayer 0 none Demo.streamUrl).engine_
          ∧ s'.loading_async_ = Demo.streamUrl)
      ∧ NextInternal (Demo.env .TrackAvailable) 0 (Demo.streamPlayer 0 none Demo.streamUrl)
          Engine.Auto = some (Demo.streamPlayer 0 none Demo.streamUrl) :=
  (fun h => ⟨by decide, rfl,
      (h.1 0 Engine.Manual false 3 (by decide) (by decide)).elim
        fun s' hs => ⟨s', hs.1, hs.2.1, hs.2.2.1⟩,
      (h.2 Engine.Auto 3 (by decide) (by decide) (by decide)).1⟩)
    (pending_load_is_not_requested_again (Demo.env .TrackAvailable) 0
      (Demo.streamPlayer 0 none Demo.streamUrl) Demo.streamUrl Demo.handlerX (by decide) rfl)

/-- C9 (as stated, refuted): the stream URL is pending while the cursor's current
item is the local file `a`; the `TrackAvailable` result for the stream URL is
delivered and dropped, and the stream URL is still pending afterwards. -/
theorem HandleLoadResult_stale_keeps_pending :
    (Demo.streamPlayer 1 (some 0) Demo.streamUrl).loading_async_ ≠ QUrl.null
      ∧ (Demo.result .TrackAvailable Demo.streamUrl).type_ = .TrackAvailable
      ∧ (HandleLoadResult (Demo.env .TrackAvailable) 1
          (Demo.streamPlayer 1 (some 0) Demo.streamUrl)
          (Demo.result .TrackAvailable Demo.streamUrl)).map (fun s => s.loading_async_)
        = some Demo.streamUrl
      ∧ Demo.streamUrl ≠ QUrl.null := by
  refine ⟨by decide, rfl, by decide, by decide⟩

/-- C9 (amended): for a load result of type `TrackAvailable` or `Error` delivered
to `HandleLoadResult`: when the cursor has no current item, or the original
URL of the result is the URL of the cursor's current item, `loading_async_`
is empty afterwards; when the original URL differs from the URL of the
cursor's current item the result is dropped and the state, `loading_async_`
included, is left as it was. -/
theorem HandleLoadResult_terminal_pending (env : Env) (fuel : Nat) (s : Player)
    (r : LoadResult) (ht : r.type_ = .TrackAvailable ∨ r.type_ = .Error) :
    ((s.playlist.current_item = none
        ∨ ∃ item, s.playlist.current_item = some item ∧ (s.heap item).url = r.original_url_) →
      ∃ s', HandleLoadResult env fuel s r = some s' ∧ s'.loading_async_ = QUrl.null)
    ∧ ((∃ item, s.playlist.current_item = some item ∧ (s.heap item).url ≠ r.original_url_) →
      HandleLoadResult env fuel s r = some s) := by
  refine ⟨?_, ?_⟩
  · rintro (hn | ⟨item, hcur, hu⟩)
    · exact ⟨_, HandleLoadResult_of_no_item env fuel s r hn, rfl⟩
    · rw [HandleLoadResult_of_current_url env fuel s r item hcur hu]
      rcases ht with ht | ht
      · rw [ht]
        exact ⟨_, rfl, rfl⟩
      · rw [ht]
        exact ⟨_, rfl, rfl⟩
  · rintro ⟨item, hcur, hu⟩
    exact HandleLoadResult_of_other_url env fuel s r item hcur hu

/-- C9 (amended), run: the stream URL is pending, the stream item is the cursor's
current item and its `TrackAvailable` result clears the pending load. -/
theorem HandleLoadResult_terminal_pending_witness :
    ((Demo.result .TrackAvailable Demo.streamUrl).type_ = .TrackAvailable
        ∨ (Demo.result .TrackAvailable Demo.streamUrl).type_ = .Error)
      ∧ ∃ s', HandleLoadResult (Demo.env .TrackAvailable) 0
            (Demo.streamPlayer 0 none Demo.streamUrl)
            (Demo.result .TrackAvailable Demo.streamUrl) = some s'
          ∧ s'.loading_async_ = QUrl.null :=
  ⟨Or.inl rfl,
    (HandleLoadResult_terminal_pending (Demo.env .TrackAvailable) 0
      (Demo.streamPlayer 0 none Demo.streamUrl) (Demo.result .TrackAvailable Demo.streamUrl)
      (Or.inl rfl)).1 (Or.inr ⟨3, by decide, by decide⟩)⟩

/-- C10: a load result `Error` whose original URL is the URL of the cursor's
current item makes `HandleLoadResult` return with `loading_async_` empty, the
tracked playback state `Error`, the error count 0, exactly one engine command
issued, `Stop`, the current item empty, no current row in the cursor, and the
signals `Error()`, `Stopped` and `Error(message)` emitted, in this order, with
the message of the result. -/
theorem HandleLoadResult_error (env : Env) (fuel : Nat) (s : Player) (r : LoadResult)
    (item : ItemPtr) (hcur : s.playlist.current_item = some item)
    (hu : (s.heap item).url = r.original_url_) (ht : r.type_ = .Error) :
    ∃ s', HandleLoadResult env fuel s r = some s'
      ∧ s'.loading_async_ = QUrl.null
      ∧ s'.last_state_ = .Error
      ∧ s'.nb_errors_received_ = 0
      ∧ s'.engine_.commands = s.engine_.commands ++ [.Stop false]
      ∧ s'.current_item_ = none
      ∧ s'.playlist.current_row = -1
      ∧ s'.signals = s.signals ++ [.Error "", .Stopped, .Error r.error_]
      ∧ s'.handler_calls = s.handler_calls := by
  rw [HandleLoadResult_of_current_url env fuel s r item hcur hu, ht]
  refine ⟨_, rfl, rfl, rfl, rfl, rfl, rfl, ?_, ?_, rfl⟩
  · exact (current_item_set_current_row_none s.playlist).1
  · simp [emit, FatalError, Stop, EngineStateChanged, engine_call]

/-- C10, run: the handler reports `Error` with message `boom` for the stream item
that is the cursor's current item. -/
theorem HandleLoadResult_error_witness :
    (Demo.streamPlayer 0 none Demo.streamUrl).playlist.current_item = some 3
      ∧ ∃ s', HandleLoadResult (Demo.env .Error) 0
            (Demo.streamPlayer 0 none Demo.streamUrl) (Demo.result .Error Demo.streamUrl)
            = some s'
          ∧ s'.loading_async_ = QUrl.null
          ∧ s'.last_state_ = .Error
          ∧ s'.nb_errors_received_ = 0
          ∧ s'.engine_.commands = [.Stop false]
          ∧ s'.current_item_ = none
          ∧ s'.playlist.current_row = -1
          ∧ s'.signals = [.Error "", .Stopped, .Error "boom"] :=
  ⟨by decide,
    (HandleLoadResult_error (Demo.env .Error) 0 (Demo.streamPlayer 0 none Demo.streamUrl)
      (Demo.result .Error Demo.streamUrl) 3 (by decide) (by decide) rfl).elim
      fun s' hs => ⟨s', hs.1, hs.2.1, hs.2.2.1, hs.2.2.2.1, hs.2.2.2.2.1, hs.2.2.2.2.2.1,
        hs.2.2.2.2.2.2.1, hs.2.2.2.2.2.2.2.1⟩⟩

theorem qBound_percent (x : Int) : qBound 0 x 100 = min (max x 0) 100 := by
  unfold qBound
  omega

theorem qBound_percent_of_mem (x : Int) (h0 : 0 ≤ x) (h1 : x ≤ 100) : qBound 0 x 100 = x := by
  unfold qBound
  omega

theorem SetVolume_effect (s : Player) (value : Int) :
    (s.SetVolume value).engine_.volume = qBound 0 value 100
      ∧ (s.SetVolume value).settings_volume = qBound 0 value 100
      ∧ (s.SetVolume value).engine_.commands
          = s.engine_.commands ++ [.SetVolume (qBound 0 value 100)]
      ∧ (s.SetVolume value).signals
          = (if qBound 0 value 100 ≠ s.engine_.volume then
              s.signals ++ [.VolumeChanged (qBound 0 value 100)]
            else s.signals)
      ∧ (s.SetVolume value).volume_before_mute_ = s.volume_before_mute_
      ∧ (s.SetVolume value).volume_control_ = s.volume_control_ := by
  unfold SetVolume
  dsimp only
  split <;> exact ⟨rfl, rfl, rfl, rfl, rfl, rfl⟩

theorem Mute_of_zero (t : Player) (ht : t.volume_control_ = true)
    (h0 : t.engine_.volume = 0) : t.Mute = t.SetVolume t.volume_before_mute_ := by
  unfold Mute
  rw [if_neg (by rw [ht]; exact Bool.noConfusion)]
  dsimp only
  rw [if_pos h0]

theorem Mute_of_nonzero (t : Player) (ht : t.volume_control_ = true)
    (h0 : t.engine_.volume ≠ 0) :
    t.Mute = ({ t with volume_before_mute_ := t.engine_.volume } : Player).SetVolume 0 := by
  unfold Mute
  rw [if_neg (by rw [ht]; exact Bool.noConfusion)]
  dsimp only
  rw [if_neg h0]

/-- C11: with volume control enabled and `v` between 1 and 100, after
`SetVolume(v); Mute(); Mute()` the volume is `v` again, and it is 0 after the
first `Mute`, whatever the volume and the remembered pre-mute value were
before. -/
theorem SetVolume_Mute_Mute (s : Player) (v : Int) (hc : s.volume_control_ = true)
    (h1 : 1 ≤ v) (h100 : v ≤ 100) :
    (s.SetVolume v).engine_.volume = v
      ∧ ((s.SetVolume v).Mute).engine_.volume = 0
      ∧ (((s.SetVolume v).Mute).Mute).engine_.volume = v := by
  obtain ⟨a1, -, -, -, -, a6⟩ := SetVolume_effect s v
  rw [qBound_percent_of_mem v (by omega) h100] at a1
  rw [hc] at a6
  have hv : (s.SetVolume v).engine_.volume ≠ 0 := by rw [a1]; omega
  have hm := Mute_of_nonzero (s.SetVolume v) a6 hv
  obtain ⟨b1, -, -, -, b5, b6⟩ := SetVolume_effect
    ({ s.SetVolume v with volume_before_mute_ := (s.SetVolume v).engine_.volume } : Player) 0
  rw [← hm] at b1 b5 b6
  have b1' : ((s.SetVolume v).Mute).engine_.volume = 0 := by
    rw [b1]; unfold qBound; omega
  have b5' : ((s.SetVolume v).Mute).volume_before_mute_ = v := by
    rw [b5]; exact a1
  have b6' : ((s.SetVolume v).Mute).volume_control_ = true := by
    rw [b6]; exact a6
  refine ⟨a1, b1', ?_⟩
  rw [Mute_of_zero _ b6' b1', (SetVolume_effect _ _).1, b5',
    qBound_percent_of_mem v (by omega) h100]

/-- C11, run: from the player as constructed, `SetVolume(40); Mute(); Mute()`. -/
theorem SetVolume_Mute_Mute_witness :
    ((Demo.localState 0 none 0 .Empty [] []).SetVolume 40).engine_.volume = 40
      ∧ (((Demo.localState 0 none 0 .Empty [] []).SetVolume 40).Mute).engine_.volume = 0
      ∧ ((((Demo.localState 0 none 0 .Empty [] []).SetVolume 40).Mute).Mute).engine_.volume
          = 40 :=
  SetVolume_Mute_Mute (Demo.localState 0 none 0 .Empty [] []) 40 rfl (by decide) (by decide)

/-- C12 (as stated, refuted): from the player as constructed, whose remembered
pre-mute value is 100, `SetVolume(50); SetVolume(0); Mute()` ends with the
volume 100, not 50. -/
theorem SetVolume_zero_Mute_restores_remembered :
    ((((Demo.localState 0 none 0 .Empty [] []).SetVolume 50).SetVolume 0).Mute).engine_.volume
        = 100
      ∧ (((Demo.localState 0 none 0 .Empty [] []).SetVolume 50).SetVolume 0).engine_.volume = 0
      ∧ (Demo.localState 0 none 0 .Empty [] []).volume_control_ = true := by
  refine ⟨by decide, by decide, rfl⟩

/-- C12 (amended): with volume control enabled, whenever the current volume is 0
`Mute` sets the volume to the remembered pre-mute value, clamped to 0..100.
The remembered value is 100 in the player as constructed, it is the volume in
force when `Mute` muted a non-zero volume, and `SetVolume` does not change it:
`SetVolume(a); SetVolume(0); Mute()` ends with the volume equal to the value
remembered before the sequence. -/
theorem Mute_at_zero (s : Player) (hc : s.volume_control_ = true) :
    (s.engine_.volume = 0 →
        (s.Mute).engine_.volume = qBound 0 s.volume_before_mute_ 100)
      ∧ (s.engine_.volume ≠ 0 →
          (s.Mute).volume_before_mute_ = s.engine_.volume ∧ (s.Mute).engine_.volume = 0)
      ∧ (∀ a, (s.SetVolume a).volume_before_mute_ = s.volume_before_mute_)
      ∧ (∀ a, (((s.SetVolume a).SetVolume 0).Mute).engine_.volume
          = qBound 0 s.volume_before_mute_ 100)
      ∧ (∀ playlist engine heap now,
          (Player.initial playlist engine heap now).volume_before_mute_ = 100) := by
  have hzero : ∀ t : Player, t.volume_control_ = true → t.engine_.volume = 0 →
      (t.Mute).engine_.volume = qBound 0 t.volume_before_mute_ 100 := by
    intro t ht h0
    rw [Mute_of_zero t ht h0, (SetVolume_effect _ _).1]
  refine ⟨hzero s hc, ?_, ?_, ?_, ?_⟩
  · intro hne
    rw [Mute_of_nonzero s hc hne]
    obtain ⟨b1, -, -, -, b5, -⟩ :=
      SetVolume_effect ({ s with volume_before_mute_ := s.engine_.volume } : Player) 0
    refine ⟨b5, ?_⟩
    rw [b1]; unfold qBound; omega
  · intro a
    exact (SetVolume_effect s a).2.2.2.2.1
  · intro a
    obtain ⟨-, -, -, -, a5, a6⟩ := SetVolume_effect s a
    obtain ⟨b1, -, -, -, b5, b6⟩ := SetVolume_effect (s.SetVolume a) 0
    rw [hzero _ (by rw [b6, a6, hc]) (by rw [b1]; unfold qBound; omega), b5, a5]
  · intro _ _ _ _
    rfl

/-- C12 (amended), run: `SetVolume(50); Mute(); SetVolume(70); SetVolume(0); Mute()`
ends with the volume 50 that the first `Mute` remembered. -/
theorem Mute_at_zero_witness :
    ((Demo.localState 0 none 0 .Empty [] []).SetVolume 50).Mute.volume_control_ = true
      ∧ ((((((Demo.localState 0 none 0 .Empty [] []).SetVolume 50).Mute).SetVolume
          70).SetVolume 0).Mute).engine_.volume
        = qBound 0 (((Demo.localState 0 none 0 .Empty [] []).SetVolume 50).Mute).volume_before_mute_
            100
      ∧ (((Demo.localState 0 none 0 .Empty [] []).SetVolume 50).Mute).volume_before_mute_ = 50 :=
  ⟨by decide,
    (Mute_at_zero (((Demo.localState 0 none 0 .Empty [] []).SetVolume 50).Mute)
      (by decide)).2.2.2.1 70,
    by decide⟩

/-- C13: `SetVolume(x)` sets the volume of the engine and the stored setting to
`min(max(x, 0), 100)` and emits `VolumeChanged` with that value exactly when
it differs from the volume the engine had; a second `SetVolume(x)` emits
nothing. -/
theorem SetVolume_clamps_and_notifies (s : Player) (x : Int) :
    (s.SetVolume x).engine_.volume = min (max x 0) 100
      ∧ (s.SetVolume x).settings_volume = min (max x 0) 100
      ∧ (s.SetVolume x).signals
          = (if min (max x 0) 100 ≠ s.engine_.volume then
              s.signals ++ [.VolumeChanged (min (max x 0) 100)]
            else s.signals)
      ∧ ((s.SetVolume x).SetVolume x).signals = (s.SetVolume x).signals
      ∧ ((s.SetVolume x).SetVolume x).engine_.volume = min (max x 0) 100 := by
  obtain ⟨a1, a2, -, a4, -, -⟩ := SetVolume_effect s x
  obtain ⟨b1, -, -, b4, -, -⟩ := SetVolume_effect (s.SetVolume x) x
  rw [qBound_percent] at a1 a2 a4 b1 b4
  refine ⟨a1, a2, a4, ?_, b1⟩
  rw [b4, if_neg (not_not.mpr a1.symm)]

theorem qint64_of_small (x : Int) (h0 : -2 ^ 63 ≤ x) (h1 : x < 2 ^ 63) : qint64 x = x := by
  unfold qint64
  omega

theorem qint64_seconds (seconds : Int) (h0 : -2 ^ 31 ≤ seconds) (h1 : seconds < 2 ^ 31) :
    qint64 (qint64 seconds * kNsecPerSec) = seconds * 10 ^ 9 := by
  have e1 : qint64 seconds = seconds := qint64_of_small seconds (by omega) (by omega)
  rw [e1]
  have e2 : kNsecPerSec = 10 ^ 9 := by unfold kNsecPerSec; norm_num
  rw [e2]
  apply qint64_of_small <;> omega

/-- C14: for a 32-bit `seconds` and a track length `L` (the engine's
`length_nanosec`): if `L <= 0`, `SeekTo(seconds)` changes nothing (no `Seek`,
no `Seeked`); if `L > 0` it issues exactly one `Seek` to
`min(max(seconds * 10^9, 0), L)`, the product being exact in `qint64`, tells
the cursor the scrobble point and emits exactly one `Seeked` with that target
in microseconds; a negative `seconds` seeks to 0 and a target beyond the
track seeks to `L`. -/
theorem SeekTo_clamps (s : Player) (seconds : Int) (h0 : -2 ^ 31 ≤ seconds)
    (h1 : seconds < 2 ^ 31) :
    qint64 (qint64 seconds * kNsecPerSec) = seconds * 10 ^ 9
      ∧ (s.engine_.length_nanosec ≤ 0 → s.SeekTo seconds = s)
      ∧ (0 < s.engine_.length_nanosec →
          (s.SeekTo seconds).engine_.commands
              = s.engine_.commands
                ++ [.Seek (min (max (seconds * 10 ^ 9) 0) s.engine_.length_nanosec)]
            ∧ (s.SeekTo seconds).signals
              = s.signals
                ++ [.Seeked
                    ((min (max (seconds * 10 ^ 9) 0) s.engine_.length_nanosec).tdiv 1000)]
            ∧ (s.SeekTo seconds).playlist.scrobble_points
              = s.playlist.scrobble_points
                ++ [min (max (seconds * 10 ^ 9) 0) s.engine_.length_nanosec]
            ∧ (seconds < 0 →
                min (max (seconds * 10 ^ 9) 0) s.engine_.length_nanosec = 0)
            ∧ (s.engine_.length_nanosec ≤ seconds * 10 ^ 9 →
                min (max (seconds * 10 ^ 9) 0) s.engine_.length_nanosec
                  = s.engine_.length_nanosec)) := by
  have hq := qint64_seconds seconds h0 h1
  refine ⟨hq, ?_, ?_⟩
  · intro hL
    unfold SeekTo
    dsimp only
    rw [if_pos hL]
  · intro hL
    have hb : qBound 0 (qint64 (qint64 seconds * kNsecPerSec)) s.engine_.length_nanosec
        = min (max (seconds * 10 ^ 9) 0) s.engine_.length_nanosec := by
      rw [hq]
      unfold qBound
      omega
    have hs : s.SeekTo seconds
        = ((({ (s.engine_call (.Seek
              (min (max (seconds * 10 ^ 9) 0) s.engine_.length_nanosec))) with
            playlist := s.playlist.UpdateScrobblePoint
              (min (max (seconds * 10 ^ 9) 0) s.engine_.length_nanosec) } : Player)).emit
          (.Seeked ((min (max (seconds * 10 ^ 9) 0) s.engine_.length_nanosec).tdiv 1000))) := by
      unfold SeekTo
      dsimp only
      rw [if_neg (by omega), hb]
      rfl
    rw [hs]
    refine ⟨rfl, rfl, rfl, ?_, ?_⟩
    · intro hneg
      omega
    · intro hbig
      omega

/-- C14, run: four seconds into a track of ten seconds, `SeekTo(-5)` seeks to 0
and `SeekTo(2147483647)` seeks to the length. -/
theorem SeekTo_clamps_witness :
    ((Demo.midTrack (Demo.localState 0 (some 0) 0 .Playing [] [])).SeekTo (-5)).engine_.commands
        = [.Seek 0]
      ∧ ((Demo.midTrack (Demo.localState 0 (some 0) 0 .Playing [] [])).SeekTo
          2147483647).engine_.commands = [.Seek 10000000000]
      ∧ qint64 (qint64 2147483647 * kNsecPerSec) = 2147483647 * 10 ^ 9 :=
  ⟨by decide, by decide,
    (SeekTo_clamps (Demo.midTrack (Demo.localState 0 (some 0) 0 .Playing [] [])) 2147483647
      (by decide) (by decide)).1⟩

theorem isPrefixOf_append_self (needle post : List Char) :
    needle.isPrefixOf (needle ++ post) = true := by
  induction needle with
  | nil => simp [List.isPrefixOf]
  | cons c rest ih => simp [List.isPrefixOf, ih]

theorem indexOfFrom_first (needle : List Char) :
    ∀ (pre post : List Char) (i : Nat),
      (∀ k, k < pre.length → needle.isPrefixOf ((pre ++ needle ++ post).drop k) = false) →
      QString.indexOfFrom needle (pre ++ needle ++ post) i = ((i + pre.length : Nat) : Int) := by
  intro pre
  induction pre with
  | nil =>
    intro post i _
    have hp : needle.isPrefixOf (needle ++ post) = true := isPrefixOf_append_self needle post
    show QString.indexOfFrom needle (needle ++ post) i = _
    generalize hh : needle ++ post = hay at hp
    cases hay with
    | nil =>
      have hn : needle = [] := by
        cases needle with
        | nil => rfl
        | cons c r => simp at hh
      simp [QString.indexOfFrom, hn]
    | cons c rest =>
      simp [QString.indexOfFrom, hp]
  | cons c pre ih =>
    intro post i h
    have h0 := h 0 (by simp)
    simp only [List.drop_zero] at h0
    have hrest : ∀ k, k < pre.length →
        needle.isPrefixOf ((pre ++ needle ++ post).drop k) = false := by
      intro k hk
      have := h (k + 1) (by simp; omega)
      simpa using this
    have e : c :: pre ++ needle ++ post = c :: (pre ++ needle ++ post) := by simp
    rw [e] at h0 ⊢
    rw [QString.indexOfFrom, if_neg (by rw [h0]; exact Bool.noConfusion), ih post (i + 1) hrest]
    simp
    omega

theorem indexOfFrom_none (needle : List Char) :
    ∀ (hay : List Char) (i : Nat),
      (∀ k, k ≤ hay.length → needle.isPrefixOf (hay.drop k) = false) →
      QString.indexOfFrom needle hay i = -1 := by
  intro hay
  induction hay with
  | nil =>
    intro i h
    have h0 := h 0 (by simp)
    have : needle ≠ [] := by
      intro hn
      rw [hn] at h0
      simp at h0
    simp [QString.indexOfFrom, this]
  | cons c rest ih =>
    intro i h
    have h0 := h 0 (by simp)
    simp only [List.drop_zero] at h0
    rw [QString.indexOfFrom, if_neg (by rw [h0]; exact Bool.noConfusion)]
    apply ih
    intro k hk
    have := h (k + 1) (by simp; omega)
    simpa using this

theorem indexOfFrom_nonneg (needle : List Char) :
    ∀ (hay : List Char) (i : Nat),
      QString.indexOfFrom needle hay i = -1 ∨ (i : Int) ≤ QString.indexOfFrom needle hay i := by
  intro hay
  induction hay with
  | nil =>
    intro i
    unfold QString.indexOfFrom
    split
    · exact Or.inr (le_refl _)
    · exact Or.inl rfl
  | cons c rest ih =>
    intro i
    rw [QString.indexOfFrom]
    split
    · exact Or.inr (le_refl _)
    · rcases ih (i + 1) with h | h
      · exact Or.inl h
      · right
        have : ((i + 1 : Nat) : Int) = (i : Int) + 1 := by simp
        omega

theorem indexOfFrom_found (needle : List Char) :
    ∀ (pre post : List Char) (i : Nat),
      QString.indexOfFrom needle (pre ++ needle ++ post) i ≠ -1 := by
  intro pre
  induction pre with
  | nil =>
    intro post i
    rw [indexOfFrom_first needle [] post i (fun k hk => absurd hk (by simp))]
    omega
  | cons c pre ih =>
    intro post i
    have e : c :: pre ++ needle ++ post = c :: (pre ++ needle ++ post) := by simp
    rw [e, QString.indexOfFrom]
    split
    · omega
    · exact ih post (i + 1)

theorem single_not_isPrefixOf (c : Char) :
    ∀ (pre rest : List Char) (k : Nat), c ∉ pre → k < pre.length →
      [c].isPrefixOf ((pre ++ rest).drop k) = false := by
  intro pre
  induction pre with
  | nil => intro rest k _ hk; simp at hk
  | cons x pre ih =>
    intro rest k hc hk
    have hx : c ≠ x := fun h => hc (by simp [h])
    have hpre : c ∉ pre := fun h => hc (by simp [h])
    cases k with
    | zero => simp [List.isPrefixOf, hx]
    | succ k =>
      have := ih rest k hpre (by simpa using hk)
      simpa using this

theorem indexOf_absent (c : Char) (hay : List Char) (h : c ∉ hay) (i : Nat) :
    QString.indexOfFrom [c] hay i = -1 := by
  apply indexOfFrom_none
  intro k hk
  rcases Nat.lt_or_ge k hay.length with hlt | hge
  · have := single_not_isPrefixOf c hay [] k h hlt
    simpa using this
  · have : hay.drop k = [] := List.drop_eq_nil_of_le hge
    rw [this]
    rfl

/-- C15: for a bundle with an empty artist: if the title is `pre`, then " - ",
then `post`, with no " - " starting before the end of `pre` (a bare `-` may
occur in `pre`), the artist becomes `pre` trimmed and the title `post`
trimmed; if the title holds no " - " and is `pre`, then `-`, then `post`, with
no `-` in `pre`, the same holds for this split.  If the artist is not empty or
the title holds no `-`, the bundle is left as received.  "Artist - Title"
gives artist "Artist" and title "Title"; "A-B" gives "A" and "B". -/
theorem SplitArtistTitle_spec (bundle : SimpleMetaBundle) :
    (∀ pre post : List Char, bundle.artist.data = [] →
        bundle.title.data = pre ++ " - ".data ++ post →
        (∀ k, k < pre.length →
          (" - ".data).isPrefixOf ((pre ++ " - ".data ++ post).drop k) = false) →
        SplitArtistTitle bundle
          = { bundle with artist := ⟨QString.trim pre⟩, title := ⟨QString.trim post⟩ })
      ∧ (∀ pre post : List Char, bundle.artist.data = [] →
          bundle.title.data = pre ++ "-".data ++ post → '-' ∉ pre →
          (∀ k, k ≤ bundle.title.data.length →
            (" - ".data).isPrefixOf (bundle.title.data.drop k) = false) →
          SplitArtistTitle bundle
            = { bundle with artist := ⟨QString.trim pre⟩, title := ⟨QString.trim post⟩ })
      ∧ (bundle.artist.data ≠ [] ∨ '-' ∉ bundle.title.data → SplitArtistTitle bundle = bundle)
      ∧ SplitArtistTitle ⟨bundle.url, "Artist - Title", ""⟩ = ⟨bundle.url, "Title", "Artist"⟩
      ∧ SplitArtistTitle ⟨bundle.url, "A-B", ""⟩ = ⟨bundle.url, "B", "A"⟩
      ∧ SplitArtistTitle ⟨bundle.url, "A-B - C", ""⟩ = ⟨bundle.url, "C", "A-B"⟩ := by
  refine ⟨?_, ?_, ?_, rfl, rfl, rfl⟩
  · intro pre post ha ht hfirst
    have hdash : QString.indexOf bundle.title "-" ≠ -1 := by
      unfold QString.indexOf
      rw [ht]
      have := indexOfFrom_found "-".data (pre ++ [' ']) ([' '] ++ post) 0
      simpa using this
    have hsep : QString.indexOf bundle.title " - " = (pre.length : Int) := by
      unfold QString.indexOf
      rw [ht, indexOfFrom_first " - ".data pre post 0 hfirst]
      simp
    have hlen : bundle.title.data.length = pre.length + 3 + post.length := by
      rw [ht]; simp; omega
    have hempty : QString.isEmpty bundle.artist = true := by
      simp [QString.isEmpty, ha]
    unfold SplitArtistTitle
    simp only [hdash, hempty, hsep, ne_eq, not_false_eq_true, and_self, if_true]
    have hne : ((pre.length : Int) = -1) = False := by
      apply eq_false; omega
    simp only [hne, if_false, not_false_eq_true, if_true]
    have hl : QString.left bundle.title (pre.length : Int) = ⟨pre⟩ := by
      unfold QString.left
      rw [if_neg (by omega), ht]
      simp
    have hm : QString.mid bundle.title ((pre.length : Int) + 3) = ⟨post⟩ := by
      unfold QString.mid
      have : ((pre.length : Int) + 3).toNat = pre.length + 3 := by omega
      rw [this, ht]
      simp [List.drop_append]
    rw [hl, hm]
    rfl
  · intro pre post ha ht hpre hnosep
    have hdash : QString.indexOf bundle.title "-" = (pre.length : Int) := by
      unfold QString.indexOf
      rw [ht, indexOfFrom_first "-".data pre post 0
        (fun k hk => by
          have := single_not_isPrefixOf '-' pre ("-".data ++ post) k hpre hk
          simpa using this)]
      simp
    have hsep : QString.indexOf bundle.title " - " = -1 := by
      unfold QString.indexOf
      exact indexOfFrom_none _ _ _ hnosep
    have hlen : bundle.title.data.length = pre.length + 1 + post.length := by
      rw [ht]; simp; omega
    have hempty : QString.isEmpty bundle.artist = true := by
      simp [QString.isEmpty, ha]
    unfold SplitArtistTitle
    have hne : ((pre.length : Int) = -1) = False := by
      apply eq_false; omega
    simp only [hdash, hempty, hsep, ne_eq, hne, not_false_eq_true, and_self, if_true,
      not_true_eq_false, if_false]
    have hl : QString.left bundle.title (pre.length : Int) = ⟨pre⟩ := by
      unfold QString.left
      rw [if_neg (by omega), ht]
      simp
    have hm : QString.mid bundle.title ((pre.length : Int) + 1) = ⟨post⟩ := by
      unfold QString.mid
      have : ((pre.length : Int) + 1).toNat = pre.length + 1 := by omega
      rw [this, ht]
      simp [List.drop_append]
    rw [hl, hm]
    rfl
  · rintro (ha | ht)
    · have hempty : QString.isEmpty bundle.artist = false := by
        cases hd : bundle.artist.data with
        | nil => exact absurd hd ha
        | cons c r => simp [QString.isEmpty, hd]
      unfold SplitArtistTitle
      simp [hempty]
    · have hdash : QString.indexOf bundle.title "-" = -1 := by
        unfold QString.indexOf
        exact indexOf_absent '-' _ ht 0
      unfold SplitArtistTitle
      simp [hdash]

/-- C15, run: the title " Artist - Title " with an empty artist. -/
theorem SplitArtistTitle_spec_witness :
    SplitArtistTitle ⟨Demo.streamUrl, " Artist - Title ", ""⟩
      = ⟨Demo.streamUrl, "Title", "Artist"⟩ :=
  ((SplitArtistTitle_spec ⟨Demo.streamUrl, " Artist - Title ", ""⟩).1
    " Artist".data "Title ".data rfl rfl (by decide)).trans rfl

/-- C16 (as stated, refuted): the cursor's current item is the stream item, whose
own metadata has title "t" and artist "a"; a bundle for its URL with an empty
title and an empty artist (also after the split) is not discarded: the cursor
is given the stream metadata. -/
theorem EngineMetadataReceived_empty_bundle_not_discarded :
    (Demo.streamPlayer 0 none QUrl.null).playlist.current_item = some 3
      ∧ SplitArtistTitle ⟨Demo.streamUrl, "", ""⟩ = ⟨Demo.streamUrl, "", ""⟩
      ∧ (EngineMetadataReceived Song.MergeFromSimpleMetaBundle
          (Demo.streamPlayer 0 none QUrl.null) ⟨Demo.streamUrl, "", ""⟩).playlist.stream_metadata
        = [(Demo.streamUrl, Demo.song Demo.streamUrl)]
      ∧ (Demo.streamPlayer 0 none QUrl.null).playlist.stream_metadata = [] := by
  refine ⟨by decide, by decide, by decide, rfl⟩

/-- C16 (amended): for a bundle whose URL is that of the metadata of the cursor's
current item, `EngineMetadataReceived` discards the bundle (leaves the state
as it is) exactly when the title and the artist of the item's metadata after
the merge of the split bundle are both empty, whatever the merge is; otherwise
it hands the merged song to the cursor.  With a merge that keeps the item's
own title and artist where the bundle has none, a bundle whose title and
artist are empty after the split is discarded exactly when the item's own
title and artist are empty.  A bundle for another URL, or one that arrives
when the cursor has no current item, is discarded. -/
theorem EngineMetadataReceived_discards (merge : Song → SimpleMetaBundle → Song) (s : Player)
    (bundle : SimpleMetaBundle) (item : ItemPtr)
    (hcur : s.playlist.current_item = some item) :
    (bundle.url ≠ (s.heap item).Metadata.url → EngineMetadataReceived merge s bundle = s)
      ∧ (bundle.url = (s.heap item).Metadata.url →
          ((merge (s.heap item).Metadata (SplitArtistTitle bundle)).title.data = []
              ∧ (merge (s.heap item).Metadata (SplitArtistTitle bundle)).artist.data = [] →
            EngineMetadataReceived merge s bundle = s)
          ∧ (¬ ((merge (s.heap item).Metadata (SplitArtistTitle bundle)).title.data = []
                ∧ (merge (s.heap item).Metadata (SplitArtistTitle bundle)).artist.data = []) →
            EngineMetadataReceived merge s bundle
                = s.SetStreamMetadata item
                    (merge (s.heap item).Metadata (SplitArtistTitle bundle))
              ∧ (EngineMetadataReceived merge s bundle).playlist.stream_metadata
                = s.playlist.stream_metadata
                  ++ [((s.heap item).url,
                      merge (s.heap item).Metadata (SplitArtistTitle bundle))])
          ∧ ((SplitArtistTitle bundle).title.data = [] →
              (SplitArtistTitle bundle).artist.data = [] →
              (EngineMetadataReceived Song.MergeFromSimpleMetaBundle s bundle = s
                ↔ ((s.heap item).Metadata.title.data = []
                    ∧ (s.heap item).Metadata.artist.data = [])))) := by
  have hempty : ∀ x : String, (QString.isEmpty x = true) = (x.data = []) := by
    intro x
    simp [QString.isEmpty]
  have hyes : ∀ m : Song → SimpleMetaBundle → Song, bundle.url = (s.heap item).Metadata.url →
      ((m (s.heap item).Metadata (SplitArtistTitle bundle)).title.data = []
        ∧ (m (s.heap item).Metadata (SplitArtistTitle bundle)).artist.data = []) →
      EngineMetadataReceived m s bundle = s := by
    intro m hu hm
    unfold EngineMetadataReceived
    simp only [hcur, hu, ne_eq, not_true_eq_false, if_false, hempty, hm, and_self, if_true]
  have hno : ∀ m : Song → SimpleMetaBundle → Song, bundle.url = (s.heap item).Metadata.url →
      ¬ ((m (s.heap item).Metadata (SplitArtistTitle bundle)).title.data = []
        ∧ (m (s.heap item).Metadata (SplitArtistTitle bundle)).artist.data = []) →
      EngineMetadataReceived m s bundle
        = s.SetStreamMetadata item (m (s.heap item).Metadata (SplitArtistTitle bundle)) := by
    intro m hu hm
    unfold EngineMetadataReceived
    simp only [hcur, hu, ne_eq, not_true_eq_false, if_false, hempty, hm]
  refine ⟨?_, ?_⟩
  · intro hu
    unfold EngineMetadataReceived
    simp only [hcur, hu, ne_eq, not_false_eq_true, if_true]
  · intro hu
    refine ⟨hyes merge hu, ?_, ?_⟩
    · intro hm
      rw [hno merge hu hm]
      exact ⟨rfl, rfl⟩
    · intro ht ha
      have hmerge : Song.MergeFromSimpleMetaBundle (s.heap item).Metadata
          (SplitArtistTitle bundle) = (s.heap item).Metadata := by
        unfold Song.MergeFromSimpleMetaBundle
        simp [QString.isEmpty, ht, ha]
      constructor
      · intro heq
        by_contra hc
        have hc' : ¬ ((Song.MergeFromSimpleMetaBundle (s.heap item).Metadata
              (SplitArtistTitle bundle)).title.data = []
            ∧ (Song.MergeFromSimpleMetaBundle (s.heap item).Metadata
              (SplitArtistTitle bundle)).artist.data = []) := by
          rw [hmerge]; exact hc
        have h2 := hno Song.MergeFromSimpleMetaBundle hu hc'
        rw [heq] at h2
        have h3 := congrArg (fun p : Player => p.playlist.stream_metadata.length) h2
        simp [SetStreamMetadata, Playlist.SetStreamMetadata] at h3
      · intro hboth
        exact hyes Song.MergeFromSimpleMetaBundle hu (by rw [hmerge]; exact hboth)

/-- C16 (amended), run: the cursor's current item is a stream item without title
and artist, and a bundle for its URL with an empty title and artist is
discarded. -/
theorem EngineMetadataReceived_discards_witness :
    Demo.untitledPlayer.playlist.current_item = some 3
      ∧ EngineMetadataReceived Song.MergeFromSimpleMetaBundle Demo.untitledPlayer
          ⟨Demo.streamUrl, "", ""⟩ = Demo.untitledPlayer :=
  ⟨by decide,
    ((EngineMetadataReceived_discards Song.MergeFromSimpleMetaBundle Demo.untitledPlayer
      ⟨Demo.streamUrl, "", ""⟩ 3 (by decide)).2 (by decide)).1 ⟨by decide, by decide⟩⟩

theorem QMap_contains_iff (m : List (String × UrlHandler)) (k : String) :
    QMap.contains m k = true ↔ ∃ e ∈ m, e.1 = k := by
  unfold QMap.contains
  induction m with
  | nil => simp
  | cons e rest ih =>
    obtain ⟨k', v'⟩ := e
    by_cases h : k = k'
    · subst h
      simp [List.lookup]
    · have hb : (k == k') = false := by simpa using h
      simp only [List.lookup, hb, ih, List.mem_cons]
      constructor
      · rintro ⟨e, he, hk⟩
        exact ⟨e, Or.inr he, hk⟩
      · rintro ⟨e, he | he, hk⟩
        · subst he
          exact absurd hk.symm h
        · exact ⟨e, he, hk⟩

theorem QMap_lookup_none_iff (m : List (String × UrlHandler)) (k : String) :
    m.lookup k = none ↔ ∀ e ∈ m, e.1 ≠ k := by
  have h := QMap_contains_iff m k
  unfold QMap.contains at h
  constructor
  · intro hn e he hk
    have := h.2 ⟨e, he, hk⟩
    rw [hn] at this
    exact Bool.noConfusion this
  · intro hall
    cases hl : m.lookup k with
    | none => rfl
    | some v =>
      have := h.1 (by rw [hl]; rfl)
      obtain ⟨e, he, hk⟩ := this
      exact absurd hk (hall e he)

theorem QMap_lookup_insert_self (m : List (String × UrlHandler)) (k : String)
    (v : UrlHandler) : (QMap.insert m k v).lookup k = some v := by
  induction m with
  | nil => simp [QMap.insert, List.lookup]
  | cons e rest ih =>
    obtain ⟨k', v'⟩ := e
    unfold QMap.insert
    split
    · simp [List.lookup]
    · split
      · simp [List.lookup]
      · rename_i h1 h2
        have hb : (k == k') = false := by simpa using h2
        simp only [List.lookup, hb]
        exact ih

theorem QMap_length_insert (m : List (String × UrlHandler)) (k : String) (v : UrlHandler)
    (h : ∀ e ∈ m, e.1 ≠ k) : (QMap.insert m k v).length = m.length + 1 := by
  induction m with
  | nil => simp [QMap.insert]
  | cons e rest ih =>
    obtain ⟨k', v'⟩ := e
    have hk : k ≠ k' := fun hh => h (k', v') (by simp) hh.symm
    unfold QMap.insert
    split
    · simp
    · rw [List.length_cons, ih (fun e he => h e (by simp [he]))]
      rfl

/-- C17: when the scheme of the handler is already a key of the handler map,
`RegisterUrlHandler` leaves the state as it is: the scheme is still mapped to
the handler stored before and the map has the same number of entries. -/
theorem RegisterUrlHandler_duplicate (s : Player) (handler stored : UrlHandler)
    (h : s.url_handlers_.lookup handler.scheme = some stored) :
    s.RegisterUrlHandler handler = s
      ∧ (s.RegisterUrlHandler handler).url_handlers_ = s.url_handlers_
      ∧ (s.RegisterUrlHandler handler).url_handlers_.lookup handler.scheme = some stored
      ∧ (s.RegisterUrlHandler handler).url_handlers_.length = s.url_handlers_.length := by
  have hs : s.RegisterUrlHandler handler = s := by
    unfold RegisterUrlHandler QMap.contains
    simp [h]
  rw [hs]
  exact ⟨rfl, rfl, h, rfl⟩

/-- C17, run: a second handler for scheme `x` is registered while the handler
`handlerX` is stored for it. -/
theorem RegisterUrlHandler_duplicate_witness :
    (Demo.streamPlayer 0 none QUrl.null).RegisterUrlHandler ⟨8, "x"⟩
        = Demo.streamPlayer 0 none QUrl.null
      ∧ ((Demo.streamPlayer 0 none QUrl.null).RegisterUrlHandler ⟨8, "x"⟩).url_handlers_.lookup
          "x" = some Demo.handlerX :=
  ⟨(RegisterUrlHandler_duplicate (Demo.streamPlayer 0 none QUrl.null) ⟨8, "x"⟩ Demo.handlerX
      (by decide)).1,
    by decide⟩

/-- C18: when no entry of the handler map stores the handler (as a pointer),
`UnregisterUrlHandler` leaves the state, so the map, as it is, also when
another handler is stored under the scheme string the handler reports. -/
theorem UnregisterUrlHandler_not_stored (s : Player) (handler : UrlHandler)
    (h : ∀ e ∈ s.url_handlers_, e.2.ptr ≠ handler.ptr) :
    s.UnregisterUrlHandler handler = s
      ∧ (s.UnregisterUrlHandler handler).url_handlers_ = s.url_handlers_ := by
  have hfind : s.url_handlers_.find? (fun e => decide (e.2.ptr = handler.ptr)) = none := by
    rw [List.find?_eq_none]
    intro e he
    simpa using h e he
  have hs : s.UnregisterUrlHandler handler = s := by
    unfold UnregisterUrlHandler QMap.key
    rw [hfind]
    rfl
  rw [hs]
  exact ⟨rfl, rfl⟩

/-- C18, run: the handler `handlerX` is stored for scheme `x` and another handler
that reports the scheme `x` is unregistered. -/
theorem UnregisterUrlHandler_not_stored_witness :
    (Demo.streamPlayer 0 none QUrl.null).url_handlers_.lookup (UrlHandler.mk 8 "x").scheme
        = some Demo.handlerX
      ∧ (Demo.streamPlayer 0 none QUrl.null).UnregisterUrlHandler ⟨8, "x"⟩
        = Demo.streamPlayer 0 none QUrl.null :=
  ⟨by decide,
    (UnregisterUrlHandler_not_stored (Demo.streamPlayer 0 none QUrl.null) ⟨8, "x"⟩
      (by decide)).1⟩

/-- C19 (as stated, refuted): with `handlerX` stored for scheme `x`, a handler that
reports the scheme `X` is not rejected but stored as a second entry, and the
lookup for a URL whose scheme is `X` finds no handler. -/
theorem handler_map_is_case_sensitive :
    ((Demo.streamPlayer 0 none QUrl.null).RegisterUrlHandler ⟨9, "X"⟩).url_handlers_
        = [("X", ⟨9, "X"⟩), ("x", Demo.handlerX)]
      ∧ (Demo.streamPlayer 0 none QUrl.null).url_handlers_ = [("x", Demo.handlerX)]
      ∧ (Demo.streamPlayer 0 none QUrl.null).HandlerForUrl ⟨"X", "radio"⟩ = none
      ∧ (Demo.streamPlayer 0 none QUrl.null).handler_for "X" = none := by
  refine ⟨by decide, rfl, by decide, by decide⟩

/-- C19 (amended): scheme matching in the handler map is by equality of the
strings.  `RegisterUrlHandler` rejects a handler exactly when its scheme
string equals a key of the map; otherwise, also when the scheme differs from
a key in letter case only, the handler is stored under its scheme as one more
entry.  `HandlerForUrl`, and the test used by `PlayAt` and `NextInternal`,
find a handler exactly when a key equals the scheme string of the URL. -/
theorem handler_map_matches_exactly (s : Player) (handler : UrlHandler) (url : QUrl) :
    ((∃ e ∈ s.url_handlers_, e.1 = handler.scheme) → s.RegisterUrlHandler handler = s)
      ∧ ((∀ e ∈ s.url_handlers_, e.1 ≠ handler.scheme) →
          (s.RegisterUrlHandler handler).url_handlers_.lookup handler.scheme = some handler
            ∧ (s.RegisterUrlHandler handler).url_handlers_.length
                = s.url_handlers_.length + 1)
      ∧ (s.HandlerForUrl url = none ↔ ∀ e ∈ s.url_handlers_, e.1 ≠ url.scheme)
      ∧ s.HandlerForUrl url = s.handler_for url.scheme := by
  refine ⟨?_, ?_, ?_, rfl⟩
  · intro h
    have hc := (QMap_contains_iff s.url_handlers_ handler.scheme).2 h
    unfold RegisterUrlHandler
    simp [hc]
  · intro h
    have hc : QMap.contains s.url_handlers_ handler.scheme = false := by
      cases hb : QMap.contains s.url_handlers_ handler.scheme with
      | false => rfl
      | true =>
        obtain ⟨e, he, hk⟩ := (QMap_contains_iff _ _).1 hb
        exact absurd hk (h e he)
    have hs : (s.RegisterUrlHandler handler).url_handlers_
        = QMap.insert s.url_handlers_ handler.scheme handler := by
      unfold RegisterUrlHandler
      simp [hc]
    rw [hs]
    exact ⟨QMap_lookup_insert_self _ _ _, QMap_length_insert _ _ _ h⟩
  · exact QMap_lookup_none_iff s.url_handlers_ url.scheme

/-- C19 (amended), run: a handler for scheme `X` is registered next to the one for
scheme `x`. -/
theorem handler_map_matches_exactly_witness :
    ((Demo.streamPlayer 0 none QUrl.null).RegisterUrlHandler ⟨9, "X"⟩).url_handlers_.lookup
        "X" = some ⟨9, "X"⟩
      ∧ ((Demo.streamPlayer 0 none QUrl.null).RegisterUrlHandler ⟨9, "X"⟩).url_handlers_.length
        = (Demo.streamPlayer 0 none QUrl.null).url_handlers_.length + 1 :=
  ((handler_map_matches_exactly (Demo.streamPlayer 0 none QUrl.null) ⟨9, "X"⟩
    Demo.streamUrl).2.1 (by decide))

theorem PlayAtSkip_signals (s : Player) (change : TrackChangeFlags) :
    ∃ added, (s.PlayAtSkip change).signals = s.signals ++ added
      ∧ Signal.PlaylistFinished ∉ added := by
  unfold PlayAtSkip
  split
  · split
    · dsimp only
      split
      · exact ⟨[.TrackSkipped _], rfl, by simp⟩
      · exact ⟨[.TrackSkipped _], rfl, by simp⟩
    · exact ⟨[], by simp, by simp⟩
  · exact ⟨[], by simp, by simp⟩

/-- C20 (as stated, refuted): the local file `a` is current and the cursor's next
row, 1, holds the stream item, whose handler answers `NoMoreTracks`.  The
auto-advance gets the row 1 from the cursor, and when it returns
`PlaylistFinished` has been emitted. -/
theorem PlayNextItem_nested_finish :
    (Demo.env .NoMoreTracks).next_row Demo.streamLastPlayer.playlist false = 1
      ∧ Demo.streamLastPlayer.ErrorCeilingReached Engine.Auto = false
      ∧ (PlayNextItem (Demo.env .NoMoreTracks) 1 Demo.streamLastPlayer Engine.Auto).map
          (fun s => s.signals) = some [.PlaylistFinished]
      ∧ Demo.streamLastPlayer.signals = [] := by
  refine ⟨by decide, by decide, by decide, rfl⟩

/-- C20 (amended): when the error ceiling is not triggered, `PlayNextItem` asks the
cursor for the next row, ignoring repeat-track exactly when the reason has the
tag `Manual`.  If the answer is `-1` it sets the cursor's row to `-1`, emits
`PlaylistFinished` once, stops the engine (no `Play`) and clears the current
item.  Otherwise it does exactly what `PlayAt(i, reason, false)` does and emits
no `PlaylistFinished` of its own: none is emitted unless the handler of the
item at row `i` answers `NoMoreTracks`, which starts another auto-advance. -/
theorem PlayNextItem_advances (env : Env) (fuel : Nat) (s : Player)
    (change : TrackChangeFlags) (hc : s.ErrorCeilingReached change = false) :
    (change.hasManual = true ↔ change.tag = .Manual)
      ∧ (env.next_row s.playlist change.hasManual = -1 →
          ∃ s', PlayNextItem env fuel s change = some s'
            ∧ s'.playlist.current_row = -1
            ∧ s'.signals = s.signals ++ [.PlaylistFinished]
            ∧ s'.engine_.commands = s.engine_.commands ++ [.Stop false]
            ∧ s'.current_item_ = none)
      ∧ (env.next_row s.playlist change.hasManual ≠ -1 →
          PlayNextItem env fuel s change
              = PlayAt env fuel s (env.next_row s.playlist change.hasManual) change false
            ∧ ((∀ item handler,
                  s.playlist.item_at (env.next_row s.playlist change.hasManual) = some item →
                  s.handler_for (s.heap item).url.scheme = some handler →
                  (env.StartLoading (s.PlayAtSkip change).handler_calls handler
                    (s.heap item).url).type_ ≠ .NoMoreTracks) →
                ∃ s' added, PlayNextItem env (fuel + 1) s change = some s'
                  ∧ s'.signals = s.signals ++ added
                  ∧ Signal.PlaylistFinished ∉ added)) := by
  have hadv := PlayNextItem_of_not_ceiling env fuel s change hc
  have hadv1 := PlayNextItem_of_not_ceiling env (fuel + 1) s change hc
  refine ⟨by simp [TrackChangeFlags.hasManual], ?_, ?_⟩
  · intro hn
    rw [hadv, if_pos hn]
    obtain ⟨k1, k2, k3, -, k5, -, -, -, -⟩ := Stop_effect
      (({ s with playlist := s.playlist.set_current_row (-1) } : Player).emit
        .PlaylistFinished) false
    exact ⟨_, rfl, k3, k5, k1, k2⟩
  · intro hn
    rw [hadv, if_neg hn]
    refine ⟨rfl, ?_⟩
    intro hno
    rw [hadv1, if_neg hn]
    generalize env.next_row s.playlist change.hasManual = i at hno
    obtain ⟨sk, hsk, hskn⟩ := PlayAtSkip_signals s change
    cases hhas : s.playlist.has_item_at i with
    | false =>
      rw [PlayAt_of_missing_row env fuel s i change false hhas]
      refine ⟨_, sk, rfl, ?_, hskn⟩
      rw [(PlayAtSelect_frame env s i change false).2.2.2.2.2.2.2.2.1, hsk]
    | true =>
      obtain ⟨item, hitem⟩ := has_item_at_item_at s.playlist i hhas
      rw [PlayAt_of_row env fuel s i change false item hitem]
      obtain ⟨-, -, f3, -, -, -, -, -, f9, -⟩ := PlayAtSelected_frame env s i change false item
      cases hh : s.handler_for (s.heap item).url.scheme with
      | none =>
        refine ⟨_, sk, rfl, ?_, hskn⟩
        show (PlayAtSelected env s i change false item).signals = _
        rw [f9, hsk]
      | some handler =>
        dsimp only
        by_cases hl : (s.heap item).url = s.loading_async_
        · rw [if_pos hl]
          exact ⟨_, sk, rfl, by rw [f9, hsk], hskn⟩
        · rw [if_neg hl]
          have hcur := (PlayAtSelect_row env s i change false).2
          rw [hitem] at hcur
          generalize hL : (PlayAtSelected env s i change false item).PlayAtLoading item
            (PlayAtSelect env s i change false).2 handler = L
          have hLcur : L.playlist.current_item = some item := by rw [← hL]; exact hcur
          have hLheap : L.heap = s.heap := by rw [← hL]; exact f3
          have hLsig : L.signals = s.signals ++ sk := by
            rw [← hL]
            show (PlayAtSelected env s i change false item).signals = _
            rw [f9, hsk]
          generalize hr : env.StartLoading (s.PlayAtSkip change).handler_calls handler
            (s.heap item).url = r
          have hrt : r.type_ ≠ .NoMoreTracks := by
            rw [← hr]; exact hno item handler hitem hh
          by_cases hu : (L.heap item).url = r.original_url_
          · rw [HandleLoadResult_of_current_url env fuel L r item hLcur hu]
            cases hty : r.type_ with
            | NoMoreTracks => exact absurd hty hrt
            | WillLoadAsynchronously => exact ⟨_, sk, rfl, hLsig, hskn⟩
            | TrackAvailable =>
              refine ⟨_, sk, rfl, ?_, hskn⟩
              rw [(HandleTrackAvailable_effect L item r).2.2.2.1, hLsig]
            | Error =>
              refine ⟨_, sk ++ [.Error "", .Stopped, .Error r.error_], rfl, ?_, ?_⟩
              · simp [emit, FatalError, Stop, EngineStateChanged, engine_call, hLsig]
              · simp [hskn]
          · rw [HandleLoadResult_of_other_url env fuel L r item hLcur hu]
            exact ⟨_, sk, rfl, hLsig, hskn⟩

/-- C20 (amended), run: the cursor is on the only row of the queue with repeat
off; the auto-advance finds no next row. -/
theorem PlayNextItem_advances_witness :
    (Demo.localPlayer [0] .Repeat_Off 0).ErrorCeilingReached Engine.Auto = false
      ∧ ∃ s', PlayNextItem (Demo.env .Error) 0 (Demo.localPlayer [0] .Repeat_Off 0)
            Engine.Auto = some s'
          ∧ s'.playlist.current_row = -1
          ∧ s'.signals = (Demo.localPlayer [0] .Repeat_Off 0).signals ++ [.PlaylistFinished]
          ∧ s'.engine_.commands
              = (Demo.localPlayer [0] .Repeat_Off 0).engine_.commands ++ [.Stop false]
          ∧ s'.current_item_ = none :=
  ⟨by decide,
    (PlayNextItem_advances (Demo.env .Error) 0 (Demo.localPlayer [0] .Repeat_Off 0)
      Engine.Auto (by decide)).2.1 (by decide)⟩

theorem KeepsTrackedState.refl (s : Player) : KeepsTrackedState s s :=
  ⟨Or.inl rfl, rfl, rfl⟩

theorem KeepsTrackedState.trans {a b c : Player} (h1 : KeepsTrackedState a b)
    (h2 : KeepsTrackedState b c) : KeepsTrackedState a c := by
  obtain ⟨x1, x2, x3⟩ := h1
  obtain ⟨y1, y2, y3⟩ := h2
  refine ⟨?_, y2.trans x2, y3.trans x3⟩
  rcases y1 with y1 | y1
  · rcases x1 with x1 | x1
    · exact Or.inl (y1.trans x1)
    · exact Or.inr (y1.trans x1)
  · exact Or.inr y1

theorem KeepsTrackedState_Stop (s : Player) (stop_after : Bool) :
    KeepsTrackedState s (s.Stop stop_after) := ⟨Or.inl rfl, rfl, rfl⟩

theorem KeepsTrackedState_PlayAtSkip (s : Player) (change : TrackChangeFlags) :
    KeepsTrackedState s (s.PlayAtSkip change) := by
  unfold PlayAtSkip
  split
  · split
    · dsimp only
      split <;> exact ⟨Or.inl rfl, rfl, rfl⟩
    · exact KeepsTrackedState.refl s
  · exact KeepsTrackedState.refl s

theorem KeepsTrackedState_PlayAtSelect (env : Env) (s : Player) (index : Int)
    (change : TrackChangeFlags) (reshuffle : Bool) :
    KeepsTrackedState s (PlayAtSelect env s index change reshuffle).1 := by
  have h := KeepsTrackedState_PlayAtSkip s change
  cases reshuffle <;> exact h

theorem KeepsTrackedState_HandleTrackAvailable (s : Player) (item : ItemPtr)
    (r : LoadResult) : KeepsTrackedState s (s.HandleTrackAvailable item r) := by
  have h : KeepsTrackedState s (s.TrackAvailableOverlay item r) := by
    unfold TrackAvailableOverlay
    dsimp only
    split
    · exact ⟨Or.inl rfl, rfl, rfl⟩
    · exact KeepsTrackedState.refl s
  exact h

theorem KeepsTrackedState_error (s : Player) (message : String) :
    KeepsTrackedState s
      (((({ s with loading_async_ := QUrl.null } : Player).EngineStateChanged
        .Error).FatalError).emit (.Error message)) :=
  ⟨Or.inr rfl, rfl, rfl⟩

theorem KeepsTrackedState_HandleLoadResultWith
    (f : Player → TrackChangeFlags → Option Player)
    (hf : ∀ s c s', f s c = some s' → KeepsTrackedState s s')
    (s : Player) (r : LoadResult) (s' : Player)
    (h : HandleLoadResultWith f s r = some s') : KeepsTrackedState s s' := by
  unfold HandleLoadResultWith at h
  split at h
  · cases h
    exact ⟨Or.inl rfl, rfl, rfl⟩
  · split at h
    · cases h
      exact KeepsTrackedState.refl s
    · split at h
      · cases h
        exact KeepsTrackedState_error s r.error_
      · have := hf _ _ _ h
        exact this
      · cases h
        exact KeepsTrackedState_HandleTrackAvailable s _ r
      · cases h
        exact ⟨Or.inl rfl, rfl, rfl⟩

theorem KeepsTrackedState_PlayNextItemWith (env : Env)
    (g : Player → Int → TrackChangeFlags → Bool → Option Player)
    (hg : ∀ s i c r s', g s i c r = some s' → KeepsTrackedState s s')
    (s : Player) (change : TrackChangeFlags) (s' : Player)
    (h : PlayNextItemWith env g s change = some s') : KeepsTrackedState s s' := by
  unfold PlayNextItemWith at h
  split at h
  · cases h
    exact ⟨Or.inl rfl, rfl, rfl⟩
  · unfold PlayNextItemAdvance at h
    dsimp only at h
    split at h
    · cases h
      exact ⟨Or.inl rfl, rfl, rfl⟩
    · exact hg _ _ _ _ _ h

theorem KeepsTrackedState_PlayAtWith (env : Env)
    (f : Player → LoadResult → Option Player)
    (hf : ∀ s r s', f s r = some s' → KeepsTrackedState s s')
    (s : Player) (index : Int) (change : TrackChangeFlags) (reshuffle : Bool) (s' : Player)
    (h : PlayAtWith env f s index change reshuffle = some s') : KeepsTrackedState s s' := by
  have hsel := KeepsTrackedState_PlayAtSelect env s index change reshuffle
  unfold PlayAtWith at h
  dsimp only at h
  split at h
  · cases h
    exact hsel
  · split at h
    · exact absurd h (by simp)
    · rename_i cur hcur
      have hsd : KeepsTrackedState s (PlayAtSelected env s index change reshuffle cur) := hsel
      split at h
      · split at h
        · cases h
          exact hsd
        · have := hf _ _ _ h
          exact KeepsTrackedState.trans hsd this
      · cases h
        exact hsd

theorem KeepsTrackedState_PlayAt (env : Env) :
    ∀ (fuel : Nat) (s : Player) (index : Int) (change : TrackChangeFlags) (reshuffle : Bool)
      (s' : Player), PlayAt env fuel s index change reshuffle = some s' →
      KeepsTrackedState s s' := by
  intro fuel
  induction fuel with
  | zero =>
    intro s index change reshuffle s' h
    exact absurd h (by simp [PlayAt])
  | succ fuel ih =>
    intro s index change reshuffle s' h
    exact KeepsTrackedState_PlayAtWith env _
      (KeepsTrackedState_HandleLoadResultWith _
        (KeepsTrackedState_PlayNextItemWith env _ ih)) s index change reshuffle s' h

theorem KeepsTrackedState_PlayNextItem (env : Env) (fuel : Nat) (s : Player)
    (change : TrackChangeFlags) (s' : Player) (h : PlayNextItem env fuel s change = some s') :
    KeepsTrackedState s s' :=
  KeepsTrackedState_PlayNextItemWith env _ (KeepsTrackedState_PlayAt env fuel) s change s' h

theorem KeepsTrackedState_HandleLoadResult (env : Env) (fuel : Nat) (s : Player)
    (r : LoadResult) (s' : Player) (h : HandleLoadResult env fuel s r = some s') :
    KeepsTrackedState s s' :=
  KeepsTrackedState_HandleLoadResultWith _ (KeepsTrackedState_PlayNextItem env fuel) s r s' h

theorem KeepsTrackedState_HandleStopAfter (env : Env) (s : Player) :
    KeepsTrackedState s (HandleStopAfter env s).2 := by
  unfold HandleStopAfter
  split
  · dsimp only
    split <;> exact ⟨Or.inl rfl, rfl, rfl⟩
  · exact KeepsTrackedState.refl s

theorem HandleStopAfter_false (env : Env) (s t : Player)
    (h : HandleStopAfter env s = (false, t)) : t = s := by
  unfold HandleStopAfter at h
  split at h
  · simp at h
  · simp at h
    exact h.symm

theorem KeepsTrackedState_NextInternal (env : Env) (fuel : Nat) (s : Player)
    (change : TrackChangeFlags) (s' : Player)
    (h : NextInternal env fuel s change = some s') : KeepsTrackedState s s' := by
  unfold NextInternal at h
  have hsa := KeepsTrackedState_HandleStopAfter env s
  split at h
  · rename_i t heq
    cases h
    rw [heq] at hsa
    exact hsa
  · rename_i t heq
    have ht := HandleStopAfter_false env s t heq
    subst ht
    split at h
    · dsimp only at h
      split at h
      · split at h
        · cases h
          exact KeepsTrackedState.refl _
        · have := KeepsTrackedState_HandleLoadResult env fuel _ _ _ h
          exact this
      · exact KeepsTrackedState_PlayNextItem env fuel _ _ _ h
    · exact KeepsTrackedState_PlayNextItem env fuel _ _ _ h

theorem KeepsTrackedState_TrackEnded (env : Env) (fuel : Nat) (s : Player) (s' : Player)
    (h : TrackEnded env fuel s = some s') : KeepsTrackedState s s' := by
  unfold TrackEnded at h
  have hsa := KeepsTrackedState_HandleStopAfter env s
  split at h
  · rename_i t heq
    cases h
    rw [heq] at hsa
    exact hsa
  · rename_i t heq
    have ht := HandleStopAfter_false env s t heq
    subst ht
    have := KeepsTrackedState_NextInternal env fuel _ _ _ h
    refine KeepsTrackedState.trans ?_ this
    split
    · split
      · exact ⟨Or.inl rfl, rfl, rfl⟩
      · exact KeepsTrackedState.refl _
    · exact KeepsTrackedState.refl _

theorem KeepsTrackedState_PreloadNext (env : Env) (s : Player) (next_item : ItemPtr) :
    KeepsTrackedState s (PreloadNext env s next_item) := by
  unfold PreloadNext
  dsimp only
  split
  · split
    · exact ⟨Or.inr rfl, rfl, rfl⟩
    · exact ⟨Or.inl rfl, rfl, rfl⟩
    · exact ⟨Or.inl rfl, rfl, rfl⟩
    · exact ⟨Or.inl rfl, rfl, rfl⟩
  · exact ⟨Or.inl rfl, rfl, rfl⟩

theorem KeepsTrackedState_TrackAboutToEndGapless (env : Env) (s : Player) :
    KeepsTrackedState s (TrackAboutToEndGapless env s) := by
  unfold TrackAboutToEndGapless
  split
  · exact KeepsTrackedState.refl s
  · split
    · exact KeepsTrackedState.refl s
    · exact KeepsTrackedState_PreloadNext env s _

theorem KeepsTrackedState_TrackAboutToEndLocal (env : Env) (fuel : Nat) (s s' : Player)
    (h : TrackAboutToEndLocal env fuel s = some s') : KeepsTrackedState s s' := by
  unfold TrackAboutToEndLocal at h
  dsimp only at h
  split at h
  · split at h
    · cases h
      exact KeepsTrackedState.refl s
    · split at h
      · exact KeepsTrackedState_TrackEnded env fuel s s' h
      · split at h
        · exact KeepsTrackedState_TrackEnded env fuel s s' h
        · split at h
          · exact absurd h (by simp)
          · split at h
            · exact KeepsTrackedState_TrackEnded env fuel s s' h
            · cases h
              exact KeepsTrackedState_TrackAboutToEndGapless env s
  · cases h
    exact KeepsTrackedState_TrackAboutToEndGapless env s

theorem KeepsTrackedState_TrackAboutToEnd (env : Env) (fuel : Nat) (s s' : Player)
    (h : TrackAboutToEnd env fuel s = some s') : KeepsTrackedState s s' := by
  unfold TrackAboutToEnd at h
  split at h
  · split at h
    · cases h
      exact ⟨Or.inl rfl, rfl, rfl⟩
    · exact KeepsTrackedState_TrackAboutToEndLocal env fuel s s' h
  · exact KeepsTrackedState_TrackAboutToEndLocal env fuel s s' h

theorem KeepsTrackedState_SetVolume (s : Player) (value : Int) :
    KeepsTrackedState s (s.SetVolume value) := by
  unfold SetVolume
  dsimp only
  split <;> exact ⟨Or.inl rfl, rfl, rfl⟩

theorem KeepsTrackedState_Mute (s : Player) : KeepsTrackedState s s.Mute := by
  unfold Mute
  split
  · exact KeepsTrackedState.refl s
  · dsimp only
    split
    · exact KeepsTrackedState_SetVolume s _
    · exact KeepsTrackedState_SetVolume
        ({ s with volume_before_mute_ := s.engine_.volume } : Player) 0

theorem KeepsTrackedState_SeekTo (s : Player) (seconds : Int) :
    KeepsTrackedState s (s.SeekTo seconds) := by
  unfold SeekTo
  dsimp only
  split
  · exact KeepsTrackedState.refl s
  · exact ⟨Or.inl rfl, rfl, rfl⟩

theorem KeepsTrackedState_PlayPause (env : Env) (fuel : Nat) (s s' : Player)
    (h : PlayPause env fuel s = some s') : KeepsTrackedState s s' := by
  unfold PlayPause at h
  split at h
  · cases h
    exact ⟨Or.inl rfl, rfl, rfl⟩
  · split at h
    · exact absurd h (by simp)
    · split at h <;> cases h <;> exact ⟨Or.inl rfl, rfl, rfl⟩
  · split at h
    · cases h
      exact KeepsTrackedState.refl s
    · exact KeepsTrackedState_PlayAt env fuel _ _ _ _ _ h

theorem KeepsTrackedState_Play (env : Env) (fuel : Nat) (s s' : Player)
    (h : Play env fuel s = some s') : KeepsTrackedState s s' := by
  unfold Play at h
  split at h
  · cases h
    exact KeepsTrackedState_SeekTo s 0
  · cases h
    exact ⟨Or.inl rfl, rfl, rfl⟩
  · exact KeepsTrackedState_PlayPause env fuel s s' h

theorem KeepsTrackedState_InvalidSongRequested (env : Env) (fuel : Nat) (s s' : Player)
    (url : QUrl) (h : InvalidSongRequested env fuel s url = some s') :
    KeepsTrackedState s s' := by
  unfold InvalidSongRequested at h
  dsimp only at h
  have h0 : KeepsTrackedState s
      (if s.greyout_ = true then s.emit (.SongChangeRequestProcessed url false) else s) := by
    split
    · exact ⟨Or.inl rfl, rfl, rfl⟩
    · exact KeepsTrackedState.refl s
  generalize (if s.greyout_ = true then s.emit (.SongChangeRequestProcessed url false)
    else s) = g at h h0
  split at h
  · cases h
    exact KeepsTrackedState.trans h0 ⟨Or.inl rfl, rfl, rfl⟩
  · exact KeepsTrackedState.trans h0 (KeepsTrackedState_PlayNextItem env fuel _ _ _ h)

theorem KeepsTrackedState_PreviousItemBack (env : Env) (fuel : Nat) (s s' : Player)
    (change : TrackChangeFlags) (h : PreviousItemBack env fuel s change = some s') :
    KeepsTrackedState s s' := by
  unfold PreviousItemBack at h
  dsimp only at h
  split at h
  · have := KeepsTrackedState_PlayAt env fuel _ _ _ _ _ h
    exact KeepsTrackedState.trans ⟨Or.inl rfl, rfl, rfl⟩ this
  · have := KeepsTrackedState_PlayAt env fuel _ _ _ _ _ h
    exact KeepsTrackedState.trans ⟨Or.inl rfl, rfl, rfl⟩ this

/-- The tracked playback state after `PreviousItem` is kept or `Error`, and in
the restart mode the time of the last press is the clock reading. -/
theorem PreviousItem_frame (env : Env) (fuel : Nat) (now : Int) (s s' : Player)
    (change : TrackChangeFlags) (h : PreviousItem env fuel now s change = some s') :
    (s'.last_state_ = s.last_state_ ∨ s'.last_state_ = .Error)
      ∧ s'.menu_previousmode_ = s.menu_previousmode_
      ∧ (s.menu_previousmode_ = .PreviousBehaviour_Restart →
          s'.last_pressed_previous_ = some now)
      ∧ (s.menu_previousmode_ ≠ .PreviousBehaviour_Restart →
          s'.last_pressed_previous_ = s.last_pressed_previous_) := by
  unfold PreviousItem at h
  split at h
  · rename_i hmode
    split at h
    · obtain ⟨a, b, c⟩ := KeepsTrackedState_PlayAt env fuel _ _ _ _ _ h
      exact ⟨a, b, fun _ => c, fun hne => absurd hmode hne⟩
    · obtain ⟨a, b, c⟩ := KeepsTrackedState_PreviousItemBack env fuel _ _ _ h
      exact ⟨a, b, fun _ => c, fun hne => absurd hmode hne⟩
  · rename_i hmode
    obtain ⟨a, b, c⟩ := KeepsTrackedState_PreviousItemBack env fuel _ _ _ h
    exact ⟨a, b, fun hm => absurd hm hmode, fun _ => c⟩

theorem HandleStopAfter_of_flag (env : Env) (s : Player)
    (h : s.playlist.stop_after_current = true) :
    (HandleStopAfter env s).1 = true
      ∧ (HandleStopAfter env s).2.playlist.stop_after = -1
      ∧ (HandleStopAfter env s).2.playlist.stop_after_current = false
      ∧ (HandleStopAfter env s).2.engine_.commands = s.engine_.commands ++ [.Stop true]
      ∧ (HandleStopAfter env s).2.current_item_ = none
      ∧ (HandleStopAfter env s).2.playlist.current_row = -1
      ∧ (HandleStopAfter env s).2.handler_calls = s.handler_calls
      ∧ (HandleStopAfter env s).2.play_count_increments = s.play_count_increments
      ∧ (HandleStopAfter env s).2.signals = s.signals := by
  unfold HandleStopAfter
  rw [if_pos h]
  dsimp only
  have hrow : ∀ p : Playlist, (p.set_current_row (-1)).current_row = -1 :=
    fun p => (current_item_set_current_row_none p).1
  have hflag : ∀ p : Playlist, p.stop_after = -1 → p.stop_after_current = false := by
    intro p hp
    simp [Playlist.stop_after_current, hp]
  split
  · exact ⟨rfl, rfl, hflag _ rfl, rfl, rfl, hrow _, rfl, rfl, rfl⟩
  · exact ⟨rfl, rfl, hflag _ rfl, rfl, rfl, hrow _, rfl, rfl, rfl⟩

/-- C21: when the cursor's stop-after-current flag is set, `NextInternal` (any
reason), `Next` and `TrackEnded` all return the state of the stop path: the
flag is cleared, the engine received `Stop` with the stop-after indicator
true and nothing else (no `Play`), the current item is empty, no handler was
called (no `LoadNext`), no signal was emitted and no play count was
incremented. -/
theorem stop_after_current_is_honoured (env : Env) (fuel : Nat) (s : Player)
    (change : TrackChangeFlags) (h : s.playlist.stop_after_current = true) :
    ∃ s', NextInternal env fuel s change = some s'
      ∧ Next env fuel s = some s'
      ∧ TrackEnded env fuel s = some s'
      ∧ s'.playlist.stop_after_current = false
      ∧ s'.engine_.commands = s.engine_.commands ++ [.Stop true]
      ∧ s'.current_item_ = none
      ∧ s'.handler_calls = s.handler_calls
      ∧ s'.play_count_increments = s.play_count_increments
      ∧ s'.signals = s.signals := by
  obtain ⟨h1, -, h3, h4, h5, -, h7, h8, h9⟩ := HandleStopAfter_of_flag env s h
  have hpair : HandleStopAfter env s = (true, (HandleStopAfter env s).2) := by
    rw [← h1]
  have hn : ∀ c, NextInternal env fuel s c = some (HandleStopAfter env s).2 := by
    intro c
    unfold NextInternal
    rw [hpair]
  have ht : TrackEnded env fuel s = some (HandleStopAfter env s).2 := by
    unfold TrackEnded
    rw [hpair]
  exact ⟨_, hn change, hn Engine.Manual, ht, h3, h4, h5, h7, h8, h9⟩

/-- C21, run: the local file `a`, an entry of the collection with id 5, is
playing at row 0 and stop-after-current is set on that row. -/
theorem stop_after_current_is_honoured_witness :
    Demo.stopAfterPlayer.playlist.stop_after_current = true
      ∧ ∃ s', NextInternal (Demo.env .TrackAvailable) 1 Demo.stopAfterPlayer Engine.Auto
            = some s'
          ∧ Next (Demo.env .TrackAvailable) 1 Demo.stopAfterPlayer = some s'
          ∧ TrackEnded (Demo.env .TrackAvailable) 1 Demo.stopAfterPlayer = some s'
          ∧ s'.playlist.stop_after_current = false
          ∧ s'.engine_.commands = Demo.stopAfterPlayer.engine_.commands ++ [.Stop true]
          ∧ s'.current_item_ = none
          ∧ s'.handler_calls = Demo.stopAfterPlayer.handler_calls
          ∧ s'.play_count_increments = Demo.stopAfterPlayer.play_count_increments
          ∧ s'.signals = Demo.stopAfterPlayer.signals :=
  ⟨by decide,
    stop_after_current_is_honoured (Demo.env .TrackAvailable) 1 Demo.stopAfterPlayer
      Engine.Auto (by decide)⟩

theorem PreviousWouldRestartTrack_iff (now : Int) (s : Player) :
    PreviousWouldRestartTrack now s = true
      ↔ (s.menu_previousmode_ = .PreviousBehaviour_Restart
          ∧ ∃ last, s.last_pressed_previous_ = some last ∧ now - last ≥ 2) := by
  unfold PreviousWouldRestartTrack
  cases hl : s.last_pressed_previous_ with
  | none => simp [QDateTime.isValid, QDateTime.secsTo]
  | some last => simp [QDateTime.isValid, QDateTime.secsTo]

/-- C22: with the clock reading `now` as an input, `PreviousItem` takes the
restart branch (it is `PlayAt` on the cursor's current row, which leaves the
cursor on that row, and the cursor is not asked for the previous row) exactly
when the previous-behaviour is Restart and the recorded last press is valid
and at least 2 seconds before `now`; otherwise it asks the cursor for the
previous row and moves there.  In Restart mode the recorded last press is
`now` after either branch, so a second press less than 2 seconds later does
not restart.  `PreviousWouldRestartTrack` is true exactly in the states in
which `PreviousItem` takes the restart branch. -/
theorem PreviousItem_restart_window (env : Env) (fuel : Nat) (now : Int) (s : Player)
    (change : TrackChangeFlags) :
    (PreviousWouldRestartTrack now s = true
        ↔ (s.menu_previousmode_ = .PreviousBehaviour_Restart
            ∧ ∃ last, s.last_pressed_previous_ = some last ∧ now - last ≥ 2))
      ∧ (PreviousWouldRestartTrack now s = true →
          PreviousItem env fuel now s change
              = PlayAt env fuel { s with last_pressed_previous_ := some now }
                  s.playlist.current_row change false
            ∧ (s.playlist.has_item_at s.playlist.current_row = true
                ∨ s.playlist.current_row = -1 →
              (PlayAtSelect env { s with last_pressed_previous_ := some now }
                s.playlist.current_row change false).1.playlist.current_row
                = s.playlist.current_row))
      ∧ (PreviousWouldRestartTrack now s = false →
          PreviousItem env fuel now s change
            = PreviousItemBack env fuel
                (if s.menu_previousmode_ = .PreviousBehaviour_Restart then
                  { s with last_pressed_previous_ := some now }
                else s) change)
      ∧ (s.menu_previousmode_ = .PreviousBehaviour_Restart →
          ∀ s', PreviousItem env fuel now s change = some s' →
            s'.last_pressed_previous_ = some now
              ∧ ∀ later, later - now < 2 → PreviousWouldRestartTrack later s' = false) := by
  have hiff := PreviousWouldRestartTrack_iff now s
  have hcond : PreviousWouldRestartTrack now s = true
      ↔ (s.menu_previousmode_ = .PreviousBehaviour_Restart
          ∧ (QDateTime.isValid s.last_pressed_previous_ = true
            ∧ QDateTime.secsTo s.last_pressed_previous_ now ≥ 2)) := by
    unfold PreviousWouldRestartTrack
    simp
  refine ⟨hiff, ?_, ?_, ?_⟩
  · intro h
    obtain ⟨hm, hv⟩ := hcond.1 h
    refine ⟨?_, ?_⟩
    · unfold PreviousItem
      rw [if_pos hm, if_pos hv]
    · intro hrow
      have hsel := (PlayAtSelect_row env ({ s with last_pressed_previous_ := some now } : Player)
        s.playlist.current_row change false).1
      rw [hsel]
      rcases hrow with hrow | hrow
      · have : ({ s with last_pressed_previous_ := some now } : Player).playlist.has_item_at
            s.playlist.current_row = true := hrow
        rw [this]
        rfl
      · split
        · rfl
        · exact hrow.symm
  · intro h
    have hn : ¬ (s.menu_previousmode_ = .PreviousBehaviour_Restart
          ∧ (QDateTime.isValid s.last_pressed_previous_ = true
            ∧ QDateTime.secsTo s.last_pressed_previous_ now ≥ 2)) := by
      intro hc
      rw [hcond.2 hc] at h
      exact Bool.noConfusion h
    unfold PreviousItem
    by_cases hm : s.menu_previousmode_ = .PreviousBehaviour_Restart
    · rw [if_pos hm, if_neg (fun hv => hn ⟨hm, hv⟩), if_pos hm]
    · rw [if_neg hm, if_neg hm]
  · intro hm s' hs
    obtain ⟨-, b, c, -⟩ := PreviousItem_frame env fuel now s s' change hs
    have hlast := c hm
    refine ⟨hlast, ?_⟩
    intro later hlater
    cases hb : PreviousWouldRestartTrack later s' with
    | false => rfl
    | true =>
      obtain ⟨-, last, hl, hge⟩ := (PreviousWouldRestartTrack_iff later s').1 hb
      rw [hlast] at hl
      cases hl
      omega

/-- C22, run: in Restart mode with the last press at second 10, a press at second
13 restarts row 1 and a press at second 11 does not. -/
theorem PreviousItem_restart_window_witness :
    PreviousWouldRestartTrack 13 (Demo.restartPlayer (some 10)) = true
      ∧ PreviousWouldRestartTrack 11 (Demo.restartPlayer (some 10)) = false
      ∧ PreviousItem (Demo.env .Error) 1 13 (Demo.restartPlayer (some 10)) Engine.Manual
          = PlayAt (Demo.env .Error) 1 (Demo.restartPlayer (some 13)) 1 Engine.Manual false
      ∧ (PreviousItem (Demo.env .Error) 1 11 (Demo.restartPlayer (some 10))
          Engine.Manual).map (fun s => (s.playlist.current_row, s.last_pressed_previous_))
          = some (0, some 11) :=
  ⟨by decide, by decide,
    ((PreviousItem_restart_window (Demo.env .Error) 1 13 (Demo.restartPlayer (some 10))
      Engine.Manual).2.1 (by decide)).1,
    by decide⟩

/-- C23: `TrackAboutToEnd` when the scheme of the cursor's current item has a
registered handler calls the about-to-end hook of that handler and does
nothing else.  Otherwise, with automatic crossfading enabled and `cur` the
current item: (a) if fade-out is disabled and the cursor has no next row the
state is left as it is; (b) if not, the end-of-track handler `TrackEnded` runs
when same-album crossfading is allowed, or there is no next row, or the next
item is not on the same album as the current item; (c) in the remaining case
(same-album crossfading not allowed, next item on the same album) `TrackEnded`
does not run and the next item is preloaded, as it is with crossfading
disabled. -/
theorem TrackAboutToEnd_branches (env : Env) (fuel : Nat) (s : Player) :
    (∀ item handler, s.playlist.current_item = some item →
        s.handler_for (s.heap item).url.scheme = some handler →
        TrackAboutToEnd env fuel s = some (s.handler_call (.TrackAboutToEnd handler)))
      ∧ ((s.playlist.current_item = none
            ∨ ∃ item, s.playlist.current_item = some item
                ∧ s.handler_for (s.heap item).url.scheme = none) →
          (s.engine_.is_autocrossfade_enabled = false →
            TrackAboutToEnd env fuel s = some (TrackAboutToEndGapless env s))
          ∧ (s.engine_.is_autocrossfade_enabled = true →
              (s.engine_.is_fadeout_enabled = false → env.next_row s.playlist false = -1 →
                TrackAboutToEnd env fuel s = some s)
              ∧ (¬ (s.engine_.is_fadeout_enabled = false ∧ env.next_row s.playlist false = -1) →
                  (s.engine_.crossfade_same_album = true ∨ env.next_row s.playlist false = -1 →
                    TrackAboutToEnd env fuel s = TrackEnded env fuel s)
                  ∧ (∀ cur next, s.current_item_ = some cur →
                      s.playlist.item_at (env.next_row s.playlist false) = some next →
                      (env.IsOnSameAlbum (s.heap cur).Metadata (s.heap next).Metadata = false →
                        TrackAboutToEnd env fuel s = TrackEnded env fuel s)
                      ∧ (s.engine_.crossfade_same_album = false →
                          env.IsOnSameAlbum (s.heap cur).Metadata (s.heap next).Metadata = true →
                          TrackAboutToEnd env fuel s = some (PreloadNext env s next)
                            ∧ TrackAboutToEndGapless env s = PreloadNext env s next))))) := by
  refine ⟨?_, ?_⟩
  · intro item handler hcur hh
    unfold TrackAboutToEnd
    rw [hcur]
    simp only [hh]
  · intro hno
    have hlocal : TrackAboutToEnd env fuel s = TrackAboutToEndLocal env fuel s := by
      unfold TrackAboutToEnd
      rcases hno with hno | ⟨item, hcur, hh⟩
      · rw [hno]
      · rw [hcur]
        simp only [hh]
    rw [hlocal]
    refine ⟨?_, ?_⟩
    · intro hx
      unfold TrackAboutToEndLocal
      simp [hx]
    · intro hx
      refine ⟨?_, ?_⟩
      · intro hf hn
        unfold TrackAboutToEndLocal
        simp [hx, hf, hn]
      · intro hnot
        refine ⟨?_, ?_⟩
        · intro hor
          unfold TrackAboutToEndLocal
          rcases hor with hsame | hn
          · have hf : ¬ (s.engine_.is_fadeout_enabled = false
                ∧ env.next_row s.playlist false = -1) := hnot
            by_cases hn : env.next_row s.playlist false = -1
            · have hfe : s.engine_.is_fadeout_enabled = true := by
                cases hb : s.engine_.is_fadeout_enabled
                · exact absurd ⟨hb, hn⟩ hf
                · rfl
              simp [hx, hsame, hn, hfe]
            · simp [hx, hsame, hn]
          · have hfe : s.engine_.is_fadeout_enabled = true := by
              cases hb : s.engine_.is_fadeout_enabled
              · exact absurd ⟨hb, hn⟩ hnot
              · rfl
            simp [hx, hn, hfe]
        · intro cur next hc hnext
          have hn : env.next_row s.playlist false ≠ -1 := by
            intro hn
            rw [hn] at hnext
            simp [Playlist.item_at, Playlist.has_item_at] at hnext
          have hgap : TrackAboutToEndGapless env s = PreloadNext env s next := by
            unfold TrackAboutToEndGapless
            rw [if_neg hn, hnext]
          refine ⟨?_, ?_⟩
          · intro hdiff
            unfold TrackAboutToEndLocal
            cases hsame : s.engine_.crossfade_same_album
            · simp [hx, hn, hsame, hnext, hc, hdiff]
            · simp [hx, hn, hsame]
          · intro hsame halbum
            refine ⟨?_, hgap⟩
            unfold TrackAboutToEndLocal
            simp [hx, hn, hsame, hnext, hc, halbum, hgap]

/-- C23, run: crossfading on, fade-out off, same-album crossfading not allowed;
the file `a` plays at row 0 and the next item is not on the same album, so
the track is ended at once. -/
theorem TrackAboutToEnd_branches_witness :
    TrackAboutToEnd (Demo.env .Error) 1 (Demo.crossfadePlayer false false)
      = TrackEnded (Demo.env .Error) 1 (Demo.crossfadePlayer false false) :=
  (((((TrackAboutToEnd_branches (Demo.env .Error) 1 (Demo.crossfadePlayer false false)).2
    (Or.inr ⟨0, by decide, by decide⟩)).2 rfl).2 (by decide)).2 0 1 rfl (by decide)).1 rfl

/-- C24 (as stated, refuted): from the player as constructed on the queue of three
local files, the command `PlayAt(0, First, false)` gives a state whose current
item is not empty while the tracked playback state is still `Empty`: the
state is tracked from the notifications of the engine only. -/
theorem reachable_current_item_in_state_empty :
    ∃ s, Reachable (Demo.env .Error) s
      ∧ s.current_item_ = some 0
      ∧ s.last_state_ = .Empty
      ∧ step (Demo.env .Error) 1
          (Player.initial ⟨[0, 1, 2], 0, -1, .Repeat_Playlist, 3, 0, 0, [], [], -1⟩ Demo.engine
            Demo.heap 0)
          (.PlayAt 0 Engine.First false) = some s :=
  ⟨Demo.localState 0 (some 0) 0 .Empty [Demo.playFile "a" Engine.First] [],
    Reachable.next 1 _ _ (.PlayAt 0 Engine.First false)
      (Reachable.start ⟨[0, 1, 2], 0, -1, .Repeat_Playlist, 3, 0, 0, [], [], -1⟩ Demo.engine
        Demo.heap 0) rfl,
    rfl, rfl, rfl⟩

/-- C24 (amended): the tracked playback state is changed only by the state
notifications of the engine.  `EngineStateChanged(state)` sets it to `state`;
after every other command or callback (`Play`, `PlayAt`, `Pause`, `Stop`,
`Next`, `Previous`, `SeekTo`, `SetVolume`, `Mute`, `TrackEnded`,
`TrackAboutToEnd`, `HandleLoadResult`, `InvalidSongRequested`) it is what it
was before, or `Error` when a handler reported an error on the way.  A current
item that is not empty therefore says nothing about the tracked state. -/
theorem tracked_state_changes_on_notification_only (env : Env) (fuel : Nat)
    (s s' : Player) (e : Event) (h : step env fuel s e = some s') :
    (∀ state, e = .EngineStateChanged state → s'.last_state_ = state)
      ∧ ((∀ state, e ≠ .EngineStateChanged state) →
          s'.last_state_ = s.last_state_ ∨ s'.last_state_ = .Error) := by
  refine ⟨?_, ?_⟩
  · intro state he
    subst he
    simp only [step, Option.some.injEq] at h
    rw [← h]
    rfl
  · intro hne
    cases e with
    | Play => exact (KeepsTrackedState_Play env fuel s s' h).1
    | PlayAt index change reshuffle =>
      exact (KeepsTrackedState_PlayAt env fuel s index change reshuffle s' h).1
    | Pause =>
      simp only [step, Option.some.injEq] at h
      rw [← h]
      exact Or.inl rfl
    | Stop stop_after =>
      simp only [step, Option.some.injEq] at h
      rw [← h]
      exact Or.inl rfl
    | Next => exact (KeepsTrackedState_NextInternal env fuel s Engine.Manual s' h).1
    | Previous now => exact (PreviousItem_frame env fuel now s s' Engine.Manual h).1
    | SeekTo seconds =>
      simp only [step, Option.some.injEq] at h
      rw [← h]
      exact (KeepsTrackedState_SeekTo s seconds).1
    | SetVolume value =>
      simp only [step, Option.some.injEq] at h
      rw [← h]
      exact (KeepsTrackedState_SetVolume s value).1
    | Mute =>
      simp only [step, Option.some.injEq] at h
      rw [← h]
      exact (KeepsTrackedState_Mute s).1
    | EngineStateChanged state => exact absurd rfl (hne state)
    | TrackEnded => exact (KeepsTrackedState_TrackEnded env fuel s s' h).1
    | TrackAboutToEnd => exact (KeepsTrackedState_TrackAboutToEnd env fuel s s' h).1
    | HandleLoadResult result =>
      exact (KeepsTrackedState_HandleLoadResult env fuel s result s' h).1
    | InvalidSongRequested url =>
      exact (KeepsTrackedState_InvalidSongRequested env fuel s s' url h).1

/-- C24 (amended), run: `PlayAt(0, First, false)` on the player as constructed
keeps the tracked state `Empty`. -/
theorem tracked_state_changes_on_notification_only_witness :
    (Demo.localState 0 (some 0) 0 .Empty [Demo.playFile "a" Engine.First] []).last_state_
        = (Demo.localState 0 none 0 .Empty [] []).last_state_
      ∨ (Demo.localState 0 (some 0) 0 .Empty [Demo.playFile "a" Engine.First] []).last_state_
        = .Error :=
  (tracked_state_changes_on_notification_only (Demo.env .Error) 1
    (Demo.localState 0 none 0 .Empty [] [])
    (Demo.localState 0 (some 0) 0 .Empty [Demo.playFile "a" Engine.First] [])
    (.PlayAt 0 Engine.First false) rfl).2 (fun _ h => Event.noConfusion h)

/-- C25 (as stated, refuted): no item is current, `PlayAt` targets the row of the
stream item and its handler answers `WillLoadAsynchronously`; when `PlayAt`
returns the stream item is the current item already, not the empty one held
before the call. -/
theorem PlayAt_async_sets_current_item_at_once :
    (Demo.streamPlayer 1 none QUrl.null).current_item_ = none
      ∧ (Demo.streamPlayer 1 none QUrl.null).playlist.item_at 0 = some 3
      ∧ (Demo.env .WillLoadAsynchronously).StartLoading [] Demo.handlerX Demo.streamUrl
          = Demo.result .WillLoadAsynchronously Demo.streamUrl
      ∧ (PlayAt (Demo.env .WillLoadAsynchronously) 1 (Demo.streamPlayer 1 none QUrl.null) 0
          Engine.First false).map (fun s => (s.current_item_, s.loading_async_))
        = some (some 3, Demo.streamUrl) := by
  refine ⟨rfl, by decide, rfl, by decide⟩

/-- C25 (amended): when `PlayAt` targets an existing row whose item `item` has a
handler registered for its scheme, the URL is not already pending and
`StartLoading` answers `WillLoadAsynchronously` for that URL, then `PlayAt`
returns with `item` as the current item (it is recorded before the handler is
asked), whatever the current item was before, with the URL pending and no
engine command issued; a completion `TrackAvailable` for that URL delivered
next leaves `item` the current item and issues `Play`. -/
theorem PlayAt_async_current_item (env : Env) (fuel : Nat) (s : Player) (index : Int)
    (change : TrackChangeFlags) (reshuffle : Bool) (item : ItemPtr) (handler : UrlHandler)
    (r2 : LoadResult)
    (hitem : s.playlist.item_at index = some item)
    (hh : s.handler_for (s.heap item).url.scheme = some handler)
    (hpend : (s.heap item).url ≠ s.loading_async_)
    (h1t : (env.StartLoading (s.PlayAtSkip change).handler_calls handler
      (s.heap item).url).type_ = .WillLoadAsynchronously)
    (h1u : (env.StartLoading (s.PlayAtSkip change).handler_calls handler
      (s.heap item).url).original_url_ = (s.heap item).url)
    (h2t : r2.type_ = .TrackAvailable) (h2u : r2.original_url_ = (s.heap item).url) :
    ∃ s1 s2,
      PlayAt env (fuel + 1) s index change reshuffle = some s1
        ∧ s1.current_item_ = some item
        ∧ s1.loading_async_ = (s.heap item).url
        ∧ s1.engine_.commands = s.engine_.commands
        ∧ HandleLoadResult env fuel s1 r2 = some s2
        ∧ s2.current_item_ = some item
        ∧ s2.loading_async_ = QUrl.null
        ∧ (∃ reason cue b e, s2.engine_.commands
            = s1.engine_.commands ++ [.Play r2.media_url_ (s.heap item).url reason cue b e]) := by
  have hrow := PlayAt_of_row env fuel s index change reshuffle item hitem
  simp only [hh, hpend, if_false] at hrow
  have hcur := (PlayAtSelect_row env s index change reshuffle).2
  rw [hitem] at hcur
  have hheap := (PlayAtSelect_frame env s index change reshuffle).2.1
  have hengine := (PlayAtSelect_frame env s index change reshuffle).2.2.2.2.2.2.1
  generalize hL : (PlayAtSelected env s index change reshuffle item).PlayAtLoading item
      (PlayAtSelect env s index change reshuffle).2 handler = L at hrow
  have hLcur : L.playlist.current_item = some item := by rw [← hL]; exact hcur
  have hLheap : L.heap = s.heap := by rw [← hL]; exact hheap
  have hLengine : L.engine_ = s.engine_ := by rw [← hL]; exact hengine
  have hLitem : L.current_item_ = some item := by rw [← hL]; rfl
  have hLurl : (L.heap item).url = (s.heap item).url := by rw [hLheap]
  rw [HandleLoadResult_of_current_url env fuel L _ item hLcur (hLurl.trans h1u.symm), h1t]
    at hrow
  simp only [h1u] at hrow
  have h2 := HandleLoadResult_of_current_url env fuel
    { L with loading_async_ := (s.heap item).url } r2 item hLcur (hLurl.trans h2u.symm)
  simp only [h2t] at h2
  obtain ⟨e1, e2, e3, -, -, -, -⟩ :=
    HandleTrackAvailable_effect { L with loading_async_ := (s.heap item).url } item r2
  refine ⟨_, _, hrow, hLitem, rfl, ?_, h2, e1, e2, ?_⟩
  · show L.engine_.commands = _
    rw [hLengine]
  · rw [e3, h2u]
    exact ⟨_, _, _, _, rfl⟩

/-- C25 (amended), run: the stream item at row 0 with the handler for scheme `x`
answering `WillLoadAsynchronously`, while the local file `a` is current. -/
theorem PlayAt_async_current_item_witness :
    (Demo.streamPlayer 1 (some 0) QUrl.null).current_item_ = some 0
      ∧ ∃ s1 s2,
        PlayAt (Demo.env .WillLoadAsynchronously) 1 (Demo.streamPlayer 1 (some 0) QUrl.null) 0
            Engine.First false = some s1
          ∧ s1.current_item_ = some 3
          ∧ s1.loading_async_ = ((Demo.streamPlayer 1 (some 0) QUrl.null).heap 3).url
          ∧ s1.engine_.commands = (Demo.streamPlayer 1 (some 0) QUrl.null).engine_.commands
          ∧ HandleLoadResult (Demo.env .WillLoadAsynchronously) 0 s1
              (Demo.result .TrackAvailable Demo.streamUrl) = some s2
          ∧ s2.current_item_ = some 3
          ∧ s2.loading_async_ = QUrl.null
          ∧ (∃ reason cue b e, s2.engine_.commands
              = s1.engine_.commands
                ++ [.Play (Demo.result .TrackAvailable Demo.streamUrl).media_url_
                    ((Demo.streamPlayer 1 (some 0) QUrl.null).heap 3).url reason cue b e]) :=
  ⟨rfl,
    PlayAt_async_current_item (Demo.env .WillLoadAsynchronously) 0
      (Demo.streamPlayer 1 (some 0) QUrl.null) 0 Engine.First false 3 Demo.handlerX
      (Demo.result .TrackAvailable Demo.streamUrl) (by decide) (by decide) (by decide)
      rfl rfl rfl rfl⟩

/-- C26: `InvalidSongRequested(url)` emits `SongChangeRequestProcessed(url, false)`
exactly when `greyout` is set, and nothing else of its own.  With
`continue_on_error` false it then resets the error count to 0, stops the
engine (no `Play`), and clears the current item and the cursor's row; with
`continue_on_error` true it then does what the auto-advance with reason `Auto`
does (error ceiling included).  `ValidSongRequested(url)` always emits
`SongChangeRequestProcessed(url, true)`. -/
theorem InvalidSongRequested_policy (env : Env) (fuel : Nat) (s : Player) (url : QUrl) :
    (s.ValidSongRequested url).signals = s.signals ++ [.SongChangeRequestProcessed url true]
      ∧ (s.continue_on_error_ = false →
          ∃ s', InvalidSongRequested env fuel s url = some s'
            ∧ s'.nb_errors_received_ = 0
            ∧ s'.engine_.commands = s.engine_.commands ++ [.Stop false]
            ∧ s'.current_item_ = none
            ∧ s'.playlist.current_row = -1
            ∧ s'.signals
                = (if s.greyout_ = true then
                    s.signals ++ [.SongChangeRequestProcessed url false]
                  else s.signals))
      ∧ (s.continue_on_error_ = true →
          InvalidSongRequested env fuel s url
            = PlayNextItem env fuel
                (if s.greyout_ = true then s.emit (.SongChangeRequestProcessed url false)
                  else s) Engine.Auto
            ∧ (if s.greyout_ = true then s.emit (.SongChangeRequestProcessed url false)
                else s).signals
              = (if s.greyout_ = true then
                  s.signals ++ [.SongChangeRequestProcessed url false]
                else s.signals)
            ∧ (if s.greyout_ = true then s.emit (.SongChangeRequestProcessed url false)
                else s).engine_ = s.engine_) := by
  refine ⟨rfl, ?_, ?_⟩
  · intro hc
    cases hg : s.greyout_
    · refine ⟨s.FatalError, ?_, rfl, rfl, rfl, (current_item_set_current_row_none _).1, ?_⟩
      · unfold InvalidSongRequested
        simp [hg, hc]
      · simp [FatalError, Stop, engine_call]
    · refine ⟨(s.emit (.SongChangeRequestProcessed url false)).FatalError, ?_, rfl, rfl, rfl,
        (current_item_set_current_row_none _).1, ?_⟩
      · unfold InvalidSongRequested
        simp [hg, hc, emit]
      · simp [FatalError, Stop, engine_call, emit]
  · intro hc
    cases hg : s.greyout_
    · refine ⟨?_, by simp, by simp⟩
      unfold InvalidSongRequested
      simp [hg, hc]
    · refine ⟨?_, by simp [emit], by simp [emit]⟩
      unfold InvalidSongRequested
      simp [hg, hc, emit]

/-- C26, run: the engine asked for an invalid song while row 0 plays, with
`continue_on_error` off and `greyout` on. -/
theorem InvalidSongRequested_policy_witness :
    ∃ s', InvalidSongRequested (Demo.env .Error) 0 (Demo.errorPolicyPlayer false true)
          (Demo.fileUrl "a") = some s'
      ∧ s'.nb_errors_received_ = 0
      ∧ s'.engine_.commands = (Demo.errorPolicyPlayer false true).engine_.commands
          ++ [.Stop false]
      ∧ s'.current_item_ = none
      ∧ s'.playlist.current_row = -1
      ∧ s'.signals
          = (if (Demo.errorPolicyPlayer false true).greyout_ = true then
              (Demo.errorPolicyPlayer false true).signals
                ++ [.SongChangeRequestProcessed (Demo.fileUrl "a") false]
            else (Demo.errorPolicyPlayer false true).signals) :=
  (InvalidSongRequested_policy (Demo.env .Error) 0 (Demo.errorPolicyPlayer false true)
    (Demo.fileUrl "a")).2.1 rfl

/-- C27 (the code at the failing input): on the queue of three rows under
repeat-all with an error count of 3, `PlayNextItem` with reason `Auto` aborts,
and with reason `Auto` plus the flag `SameAlbum` it does not: it plays row 1.
The ceiling is never reached for a reason that carries the flag.  In the same
way `PlayAt` with reason `Manual` emits `TrackSkipped` four seconds into the
track, and with `Manual` plus `SameAlbum` it emits nothing. -/
theorem same_album_flag_defeats_reason_tests :
    (Demo.localState 0 (some 0) 3 .Error [] []).ErrorCeilingReached Engine.Auto = true
      ∧ (Demo.localState 0 (some 0) 3 .Error [] []).ErrorCeilingReached ⟨.Auto, true⟩ = false
      ∧ PlayNextItem (Demo.env .Error) 1 (Demo.localState 0 (some 0) 3 .Error [] [])
          Engine.Auto = some (Demo.localState (-1) none 0 .Error [.Stop false] [])
      ∧ PlayNextItem (Demo.env .Error) 1 (Demo.localState 0 (some 0) 3 .Error [] [])
          ⟨.Auto, true⟩
        = some (Demo.localState 1 (some 1) 3 .Error [Demo.playFile "b" ⟨.Auto, true⟩] [])
      ∧ (∀ s : Player, s.ErrorCeilingReached ⟨.Auto, true⟩ = false)
      ∧ (PlayAt (Demo.env .Error) 1 (Demo.midTrack (Demo.localState 0 (some 0) 0 .Playing [] []))
          1 Engine.Manual false).map (fun s => s.signals) = some [.TrackSkipped 0]
      ∧ (PlayAt (Demo.env .Error) 1 (Demo.midTrack (Demo.localState 0 (some 0) 0 .Playing [] []))
          1 ⟨.Manual, true⟩ false).map (fun s => s.signals) = some [] := by
  refine ⟨by decide, by decide, rfl, rfl, ?_, by decide, by decide⟩
  intro s
  simp [ErrorCeilingReached, Engine.Auto]

theorem TrackAvailableSong_spec (md : Song) (r : LoadResult) :
    ((TrackAvailableSong md r).2 = true
        ↔ ((md.filetype = .FileType_Unknown ∧ r.filetype_ ≠ .FileType_Unknown)
            ∨ (md.filetype = .FileType_Stream ∧ r.filetype_ ≠ .FileType_Stream)
            ∨ (md.length_nanosec ≤ 0 ∧ r.length_nanosec_ ≠ -1)))
      ∧ (TrackAvailableSong md r).1.filetype
          = (if (md.filetype = .FileType_Unknown ∧ r.filetype_ ≠ .FileType_Unknown)
                ∨ (md.filetype = .FileType_Stream ∧ r.filetype_ ≠ .FileType_Stream)
              then r.filetype_ else md.filetype)
      ∧ (TrackAvailableSong md r).1.length_nanosec
          = (if md.length_nanosec ≤ 0 ∧ r.length_nanosec_ ≠ -1 then r.length_nanosec_
              else md.length_nanosec) := by
  unfold TrackAvailableSong
  dsimp only
  by_cases c1 : (md.filetype = .FileType_Unknown ∧ r.filetype_ ≠ .FileType_Unknown)
      ∨ (md.filetype = .FileType_Stream ∧ r.filetype_ ≠ .FileType_Stream)
  · have c3 : (md.filetype = .FileType_Unknown ∧ r.filetype_ ≠ .FileType_Unknown)
        ∨ (md.filetype = .FileType_Stream ∧ r.filetype_ ≠ .FileType_Stream)
        ∨ (md.length_nanosec ≤ 0 ∧ r.length_nanosec_ ≠ -1) := by
      rcases c1 with c1 | c1
      · exact Or.inl c1
      · exact Or.inr (Or.inl c1)
    by_cases c2 : md.length_nanosec ≤ 0 ∧ r.length_nanosec_ ≠ -1
    · rw [decide_eq_true c1, decide_eq_true c2, if_pos c1, if_pos c2]
      exact ⟨⟨fun _ => c3, fun _ => rfl⟩, rfl, rfl⟩
    · rw [decide_eq_true c1, decide_eq_false c2, if_pos c1, if_neg c2]
      exact ⟨⟨fun _ => c3, fun _ => rfl⟩, rfl, rfl⟩
  · by_cases c2 : md.length_nanosec ≤ 0 ∧ r.length_nanosec_ ≠ -1
    · rw [decide_eq_false c1, decide_eq_true c2, if_neg c1, if_pos c2]
      exact ⟨⟨fun _ => Or.inr (Or.inr c2), fun _ => rfl⟩, rfl, rfl⟩
    · rw [decide_eq_false c1, decide_eq_false c2, if_neg c1, if_neg c2]
      refine ⟨⟨fun h => Bool.noConfusion h, ?_⟩, rfl, rfl⟩
      intro h
      rcases h with h | h | h
      · exact absurd (Or.inl h) c1
      · exact absurd (Or.inr h) c1
      · exact absurd h c2

/-- C28 (as stated, refuted): the cursor's current item has the file type `Stream`
and a known length.  A `TrackAvailable` result with the file type
`FileType_Other 1` and no length writes the overlay and informs the cursor,
one with the file type `Stream` does neither, and one with the file type
`Unknown` (no hint at all) writes the overlay with the file type `Unknown`
and informs the cursor. -/
theorem TrackAvailable_overlay_of_stream_item :
    (Demo.radioPlayer.heap 3).Metadata.filetype = .FileType_Stream
      ∧ (Demo.radioPlayer.heap 3).Metadata.length_nanosec = 10000000000
      ∧ Demo.radioPlayer.playlist.current_item = some 3
      ∧ Demo.radioPlayer.playlist.song_change_informs = 0
      ∧ (HandleLoadResult (Demo.env .Error) 0 Demo.radioPlayer
          { Demo.result .TrackAvailable Demo.streamUrl with
            filetype_ := .FileType_Other 1 }).map
          (fun s => ((s.heap 3).Metadata.filetype, (s.heap 3).temp_metadata.isSome,
            s.playlist.song_change_informs))
        = some (.FileType_Other 1, true, 1)
      ∧ (HandleLoadResult (Demo.env .Error) 0 Demo.radioPlayer
          { Demo.result .TrackAvailable Demo.streamUrl with
            filetype_ := .FileType_Stream }).map
          (fun s => ((s.heap 3).Metadata.filetype, (s.heap 3).temp_metadata.isSome,
            s.playlist.song_change_informs))
        = some (.FileType_Stream, false, 0)
      ∧ (Demo.result .TrackAvailable Demo.streamUrl).filetype_ = .FileType_Unknown
      ∧ (Demo.result .TrackAvailable Demo.streamUrl).length_nanosec_ = -1
      ∧ (HandleLoadResult (Demo.env .Error) 0 Demo.radioPlayer
          (Demo.result .TrackAvailable Demo.streamUrl)).map
          (fun s => ((s.heap 3).Metadata.filetype, (s.heap 3).temp_metadata.isSome,
            s.playlist.song_change_informs, s.engine_.commands))
        = some (.FileType_Unknown, true, 1,
            [.Play (Demo.fileUrl "resolved") Demo.streamUrl Engine.First false 0
              10000000000]) := by
  refine ⟨rfl, rfl, by decide, rfl, by decide, by decide, rfl, rfl, by decide⟩

/-- C28 (amended): for a `TrackAvailable` result for the URL of the cursor's
current item, other than a result of file type `Unknown` for an item of file
type `Stream`: the temporary metadata is written and the cursor informed of
the song change exactly when the item's file type is `Unknown` and the
result's is not, or the item's file type is `Stream` and the result's is not,
or the item's length is `<= 0` and the result's length is not `-1`; the file
type and the length of the item are then those of the result where the
respective condition holds.  A result without hints (file type `Unknown`,
length `-1`) changes nothing of the item and does not inform the cursor.  In
every case one `Play` with the result's media URL and original URL is
issued. -/
theorem TrackAvailable_overlay (env : Env) (fuel : Nat) (s : Player) (r : LoadResult)
    (item : ItemPtr) (hcur : s.playlist.current_item = some item)
    (hurl : (s.heap item).url = r.original_url_) (hty : r.type_ = .TrackAvailable)
    (hout : ¬ ((s.heap item).Metadata.filetype = .FileType_Stream
      ∧ r.filetype_ = .FileType_Unknown)) :
    ∃ s', HandleLoadResult env fuel s r = some s'
      ∧ ((((s.heap item).Metadata.filetype = .FileType_Unknown
              ∧ r.filetype_ ≠ .FileType_Unknown)
            ∨ ((s.heap item).Metadata.filetype = .FileType_Stream
              ∧ r.filetype_ ≠ .FileType_Stream)
            ∨ ((s.heap item).Metadata.length_nanosec ≤ 0 ∧ r.length_nanosec_ ≠ -1)) →
          (s'.heap item).temp_metadata.isSome = true
            ∧ s'.playlist.song_change_informs = s.playlist.song_change_informs + 1
            ∧ (s'.heap item).Metadata.filetype
                = (if ((s.heap item).Metadata.filetype = .FileType_Unknown
                      ∧ r.filetype_ ≠ .FileType_Unknown)
                    ∨ ((s.heap item).Metadata.filetype = .FileType_Stream
                      ∧ r.filetype_ ≠ .FileType_Stream)
                  then r.filetype_ else (s.heap item).Metadata.filetype)
            ∧ (s'.heap item).Metadata.length_nanosec
                = (if (s.heap item).Metadata.length_nanosec ≤ 0 ∧ r.length_nanosec_ ≠ -1
                  then r.length_nanosec_ else (s.heap item).Metadata.length_nanosec))
      ∧ (¬ (((s.heap item).Metadata.filetype = .FileType_Unknown
              ∧ r.filetype_ ≠ .FileType_Unknown)
            ∨ ((s.heap item).Metadata.filetype = .FileType_Stream
              ∧ r.filetype_ ≠ .FileType_Stream)
            ∨ ((s.heap item).Metadata.length_nanosec ≤ 0 ∧ r.length_nanosec_ ≠ -1)) →
          s'.heap = s.heap ∧ s'.playlist = s.playlist)
      ∧ (r.filetype_ = .FileType_Unknown → r.length_nanosec_ = -1 →
          s'.heap = s.heap ∧ s'.playlist = s.playlist)
      ∧ (∃ cue b e, s'.engine_.commands
          = s.engine_.commands
            ++ [.Play r.media_url_ r.original_url_ s.stream_change_type_ cue b e]) := by
  obtain ⟨hupd, hft, hlen⟩ := TrackAvailableSong_spec (s.heap item).Metadata r
  have hrun : HandleLoadResult env fuel s r = some (s.HandleTrackAvailable item r) := by
    rw [HandleLoadResult_of_current_url env fuel s r item hcur hurl, hty]
  have hheap : (s.HandleTrackAvailable item r).heap = (s.TrackAvailableOverlay item r).heap :=
    rfl
  have hpl : (s.HandleTrackAvailable item r).playlist
      = (s.TrackAvailableOverlay item r).playlist := rfl
  have hno : ¬ (((s.heap item).Metadata.filetype = .FileType_Unknown
              ∧ r.filetype_ ≠ .FileType_Unknown)
            ∨ ((s.heap item).Metadata.filetype = .FileType_Stream
              ∧ r.filetype_ ≠ .FileType_Stream)
            ∨ ((s.heap item).Metadata.length_nanosec ≤ 0 ∧ r.length_nanosec_ ≠ -1)) →
      s.TrackAvailableOverlay item r = s := by
    intro hn
    have hb : (TrackAvailableSong (s.heap item).Metadata r).2 = false := by
      cases hc : (TrackAvailableSong (s.heap item).Metadata r).2 with
      | false => rfl
      | true => exact absurd (hupd.1 hc) hn
    unfold TrackAvailableOverlay
    dsimp only
    rw [hb]
    rfl
  refine ⟨_, hrun, ?_, ?_, ?_, ?_⟩
  · intro hw
    have hb : (TrackAvailableSong (s.heap item).Metadata r).2 = true := hupd.2 hw
    have hov : s.TrackAvailableOverlay item r
        = { s with
            heap := Function.update s.heap item
              ((s.heap item).SetTemporaryMetadata
                (TrackAvailableSong (s.heap item).Metadata r).1)
            playlist := s.playlist.InformOfCurrentSongChange } := by
      unfold TrackAvailableOverlay
      dsimp only
      rw [hb]
      rfl
    rw [hheap, hpl, hov]
    dsimp only
    rw [Function.update_same]
    exact ⟨rfl, rfl, hft, hlen⟩
  · intro hn
    rw [hheap, hpl, hno hn]
    exact ⟨rfl, rfl⟩
  · intro h1 h2
    have hn : ¬ (((s.heap item).Metadata.filetype = .FileType_Unknown
              ∧ r.filetype_ ≠ .FileType_Unknown)
            ∨ ((s.heap item).Metadata.filetype = .FileType_Stream
              ∧ r.filetype_ ≠ .FileType_Stream)
            ∨ ((s.heap item).Metadata.length_nanosec ≤ 0 ∧ r.length_nanosec_ ≠ -1)) := by
      intro h
      rcases h with h | h | h
      · exact h.2 h1
      · exact hout ⟨h.1, h1⟩
      · exact h.2 h2
    rw [hheap, hpl, hno hn]
    exact ⟨rfl, rfl⟩
  · exact ⟨_, _, _, (HandleTrackAvailable_effect s item r).2.2.1⟩

/-- C28 (amended), run: the cursor's current item has the file type `Stream`; the
result carries the file type `FileType_Other 1` and no length. -/
theorem TrackAvailable_overlay_witness :
    ∃ s', HandleLoadResult (Demo.env .Error) 0 Demo.radioPlayer
          { Demo.result .TrackAvailable Demo.streamUrl with
            filetype_ := .FileType_Other 1 } = some s'
      ∧ (s'.heap 3).temp_metadata.isSome = true
      ∧ s'.playlist.song_change_informs = 1
      ∧ (s'.heap 3).Metadata.filetype = .FileType_Other 1
      ∧ (s'.heap 3).Metadata.length_nanosec = 10000000000
      ∧ (∃ cue b e, s'.engine_.commands
          = [.Play (Demo.fileUrl "resolved") Demo.streamUrl Engine.First cue b e]) := by
  obtain ⟨s', h1, h2, -, -, h5⟩ := TrackAvailable_overlay (Demo.env .Error) 0 Demo.radioPlayer
    { Demo.result .TrackAvailable Demo.streamUrl with filetype_ := .FileType_Other 1 } 3
    (by decide) rfl rfl (by decide)
  obtain ⟨a, b, c, d⟩ := h2 (by decide)
  exact ⟨s', h1, a, b, c, d, h5⟩

theorem int32_of_small (x : Int) (h0 : -2 ^ 31 ≤ x) (h1 : x < 2 ^ 31) : int32 x = x := by
  unfold int32
  omega

theorem SeekTo_commands (s : Player) (seconds : Int) (h0 : -2 ^ 31 ≤ seconds)
    (h1 : seconds < 2 ^ 31) (hL : 0 < s.engine_.length_nanosec) :
    (s.SeekTo seconds).engine_.commands
      = s.engine_.commands
        ++ [.Seek (min (max (seconds * 10 ^ 9) 0) s.engine_.length_nanosec)] := by
  have hq := qint64_seconds seconds h0 h1
  have hb : qBound 0 (qint64 (qint64 seconds * kNsecPerSec)) s.engine_.length_nanosec
      = min (max (seconds * 10 ^ 9) 0) s.engine_.length_nanosec := by
    rw [hq]
    unfold qBound
    omega
  unfold SeekTo
  dsimp only
  rw [if_neg (by omega), hb]
  rfl

theorem seek_seconds_fit (p k : Int) (hp : 0 ≤ p) (h0 : -2 ^ 31 ≤ p / 10 ^ 9 + k)
    (h1 : p / 10 ^ 9 + k < 2 ^ 31) :
    int32 (qint64 (p.tdiv kNsecPerSec + k)) = p / 10 ^ 9 + k := by
  have e2 : kNsecPerSec = 10 ^ 9 := by unfold kNsecPerSec; norm_num
  rw [e2, Int.tdiv_eq_ediv hp (by norm_num)]
  rw [qint64_of_small _ (by omega) (by omega)]
  exact int32_of_small _ h0 h1

set_option maxRecDepth 4000 in
/-- C29 (counterexample): the step is 10 seconds and the track is 100 seconds
long.  At 1.5 seconds `SeekForward` seeks to 11 seconds, not to 11.5 seconds;
at 20.5 seconds `SeekBackward` seeks to 10 seconds, not to 10.5 seconds. -/
theorem Seek_step_drops_fraction_of_second :
    (Demo.localState 0 (some 0) 0 .Playing [] []).seek_step_sec_ = 10
      ∧ ((Demo.atPosition (Demo.localState 0 (some 0) 0 .Playing [] []) 1500000000
          100000000000).SeekForward).engine_.commands = [.Seek 11000000000]
      ∧ min (1500000000 + 10 * 10 ^ 9) 100000000000 = (11500000000 : Int)
      ∧ ((Demo.atPosition (Demo.localState 0 (some 0) 0 .Playing [] []) 20500000000
          100000000000).SeekBackward).engine_.commands = [.Seek 10000000000]
      ∧ max (20500000000 - 10 * 10 ^ 9) 0 = (10500000000 : Int) := by
  refine ⟨rfl, by decide, by decide, by decide, by decide⟩

/-- C29 (amended): for a track length `L > 0`, a position `p` with
`0 <= p <= L` and a step of `k` seconds such that the whole seconds
`p div 10^9 + k` and `p div 10^9 - k` fit an `int`, `SeekForward` issues one
`Seek` to `min(max((p div 10^9 + k) * 10^9, 0), L)` and `SeekBackward` one to
`min(max((p div 10^9 - k) * 10^9, 0), L)`: the step is applied to the position
rounded down to whole seconds.  Both targets lie in `[0, L]`, and when `p` is
a whole number of seconds and `k >= 0` they are `min(p + k * 10^9, L)` and
`max(p - k * 10^9, 0)`. -/
theorem Seek_step_from_whole_seconds (s : Player)
    (hL : 0 < s.engine_.length_nanosec)
    (hp0 : 0 ≤ s.engine_.position_nanosec)
    (hpL : s.engine_.position_nanosec ≤ s.engine_.length_nanosec)
    (hf0 : -2 ^ 31 ≤ s.engine_.position_nanosec / 10 ^ 9 + s.seek_step_sec_)
    (hf1 : s.engine_.position_nanosec / 10 ^ 9 + s.seek_step_sec_ < 2 ^ 31)
    (hb0 : -2 ^ 31 ≤ s.engine_.position_nanosec / 10 ^ 9 - s.seek_step_sec_)
    (hb1 : s.engine_.position_nanosec / 10 ^ 9 - s.seek_step_sec_ < 2 ^ 31) :
    s.SeekForward.engine_.commands
        = s.engine_.commands
          ++ [.Seek (min (max ((s.engine_.position_nanosec / 10 ^ 9 + s.seek_step_sec_)
                * 10 ^ 9) 0) s.engine_.length_nanosec)]
      ∧ s.SeekBackward.engine_.commands
        = s.engine_.commands
          ++ [.Seek (min (max ((s.engine_.position_nanosec / 10 ^ 9 - s.seek_step_sec_)
                * 10 ^ 9) 0) s.engine_.length_nanosec)]
      ∧ 0 ≤ min (max ((s.engine_.position_nanosec / 10 ^ 9 + s.seek_step_sec_) * 10 ^ 9) 0)
              s.engine_.length_nanosec
      ∧ min (max ((s.engine_.position_nanosec / 10 ^ 9 + s.seek_step_sec_) * 10 ^ 9) 0)
              s.engine_.length_nanosec ≤ s.engine_.length_nanosec
      ∧ 0 ≤ min (max ((s.engine_.position_nanosec / 10 ^ 9 - s.seek_step_sec_) * 10 ^ 9) 0)
              s.engine_.length_nanosec
      ∧ min (max ((s.engine_.position_nanosec / 10 ^ 9 - s.seek_step_sec_) * 10 ^ 9) 0)
              s.engine_.length_nanosec ≤ s.engine_.length_nanosec
      ∧ (s.engine_.position_nanosec % 10 ^ 9 = 0 → 0 ≤ s.seek_step_sec_ →
          min (max ((s.engine_.position_nanosec / 10 ^ 9 + s.seek_step_sec_) * 10 ^ 9) 0)
              s.engine_.length_nanosec
            = min (s.engine_.position_nanosec + s.seek_step_sec_ * 10 ^ 9)
                s.engine_.length_nanosec
          ∧ min (max ((s.engine_.position_nanosec / 10 ^ 9 - s.seek_step_sec_) * 10 ^ 9) 0)
              s.engine_.length_nanosec
            = max (s.engine_.position_nanosec - s.seek_step_sec_ * 10 ^ 9) 0) := by
  have ef := seek_seconds_fit s.engine_.position_nanosec s.seek_step_sec_ hp0 hf0 hf1
  have eb := seek_seconds_fit s.engine_.position_nanosec (-s.seek_step_sec_) hp0
    (by omega) (by omega)
  refine ⟨?_, ?_, by omega, by omega, by omega, by omega, ?_⟩
  · unfold SeekForward
    rw [ef]
    exact SeekTo_commands s _ hf0 hf1 hL
  · unfold SeekBackward
    rw [Int.sub_eq_add_neg, eb, ← Int.sub_eq_add_neg]
    exact SeekTo_commands s _ hb0 hb1 hL
  · intro hmod hk
    constructor <;> omega

/-- C29 (amended), run: at 3 seconds of a track of 100 seconds with a step of 10
seconds, `SeekForward` seeks to 13 seconds and `SeekBackward` to 0. -/
theorem Seek_step_from_whole_seconds_witness :
    ((Demo.atPosition (Demo.localState 0 (some 0) 0 .Playing [] []) 3000000000
        100000000000).SeekForward).engine_.commands = [.Seek 13000000000]
      ∧ ((Demo.atPosition (Demo.localState 0 (some 0) 0 .Playing [] []) 3000000000
        100000000000).SeekBackward).engine_.commands = [.Seek 0] :=
  have h := Seek_step_from_whole_seconds
    (Demo.atPosition (Demo.localState 0 (some 0) 0 .Playing [] []) 3000000000 100000000000)
    (by decide) (by decide) (by decide) (by decide) (by decide) (by decide) (by decide)
  ⟨h.1, h.2.1⟩

theorem QMap_find_insert (m : List (String × UrlHandler)) (k : String) (v : UrlHandler)
    (hptr : ∀ e ∈ m, e.2.ptr ≠ v.ptr) :
    (QMap.insert m k v).find? (fun e => decide (e.2.ptr = v.ptr)) = some (k, v) := by
  induction m with
  | nil => simp [QMap.insert]
  | cons e rest ih =>
    obtain ⟨k', v'⟩ := e
    have hv : v'.ptr ≠ v.ptr := hptr (k', v') (by simp)
    unfold QMap.insert
    split
    · simp
    · split
      · simp
      · rw [List.find?_cons_of_neg _ (by simpa using hv)]
        exact ih (fun e he => hptr e (by simp [he]))

theorem QMap_remove_of_absent (m : List (String × UrlHandler)) (k : String)
    (h : ∀ e ∈ m, e.1 ≠ k) : QMap.remove m k = m := by
  unfold QMap.remove
  rw [List.filter_eq_self]
  intro e he
  simpa using h e he

theorem QMap_remove_insert (m : List (String × UrlHandler)) (k : String) (v : UrlHandler)
    (h : ∀ e ∈ m, e.1 ≠ k) : QMap.remove (QMap.insert m k v) k = m := by
  induction m with
  | nil => simp [QMap.insert, QMap.remove]
  | cons e rest ih =>
    obtain ⟨k', v'⟩ := e
    have hk : k' ≠ k := h (k', v') (by simp)
    unfold QMap.insert
    split
    · have := QMap_remove_of_absent ((k', v') :: rest) k h
      unfold QMap.remove at this ⊢
      rw [List.filter_cons_of_neg (by simp), this]
    · rw [if_neg (fun hh => hk hh.symm)]
      have := ih (fun e he => h e (by simp [he]))
      unfold QMap.remove at this ⊢
      rw [List.filter_cons_of_pos (by simpa using hk), this]

/-- C30 (counterexample): a handler whose scheme is the empty string is
registered in the empty map; `UnregisterUrlHandler` then finds the empty key,
takes the handler for not registered and leaves the entry in the map. -/
theorem unregister_keeps_handler_of_empty_scheme :
    (Demo.localState 0 (some 0) 0 .Playing [] []).url_handlers_ = []
      ∧ (((Demo.localState 0 (some 0) 0 .Playing [] []).RegisterUrlHandler
          ⟨5, ""⟩).UnregisterUrlHandler ⟨5, ""⟩).url_handlers_ = [("", ⟨5, ""⟩)]
      ∧ ((Demo.localState 0 (some 0) 0 .Playing [] []).RegisterUrlHandler
          ⟨5, ""⟩).HandlerForUrl ⟨"", "radio"⟩ = some ⟨5, ""⟩ := by
  refine ⟨rfl, by decide, by decide⟩

/-- C30 (amended): for a handler `h` whose scheme is not empty and not a key of
the handler map and whose pointer is not stored in the map,
`RegisterUrlHandler(h)` followed by `UnregisterUrlHandler(h)` gives back the
state it started from, and after the registration alone `HandlerForUrl` on a
URL with the scheme of `h` returns `h`. -/
theorem register_unregister_round_trip (s : Player) (handler : UrlHandler) (url : QUrl)
    (hne : QString.isEmpty handler.scheme = false)
    (hkey : ∀ e ∈ s.url_handlers_, e.1 ≠ handler.scheme)
    (hptr : ∀ e ∈ s.url_handlers_, e.2.ptr ≠ handler.ptr)
    (hurl : url.scheme = handler.scheme) :
    (s.RegisterUrlHandler handler).UnregisterUrlHandler handler = s
      ∧ ((s.RegisterUrlHandler handler).UnregisterUrlHandler handler).url_handlers_
          = s.url_handlers_
      ∧ (s.RegisterUrlHandler handler).HandlerForUrl url = some handler := by
  have hc : QMap.contains s.url_handlers_ handler.scheme = false := by
    cases hh : QMap.contains s.url_handlers_ handler.scheme with
    | false => rfl
    | true =>
      obtain ⟨e, he, hk⟩ := (QMap_contains_iff _ _).1 hh
      exact absurd hk (hkey e he)
  have hr : s.RegisterUrlHandler handler
      = { s with url_handlers_ := QMap.insert s.url_handlers_ handler.scheme handler } := by
    unfold RegisterUrlHandler
    dsimp only
    rw [hc]
    rfl
  have hk : QMap.key (QMap.insert s.url_handlers_ handler.scheme handler) handler
      = handler.scheme := by
    unfold QMap.key
    rw [QMap_find_insert _ _ _ hptr]
  have hu : (s.RegisterUrlHandler handler).UnregisterUrlHandler handler = s := by
    rw [hr]
    unfold UnregisterUrlHandler
    dsimp only
    rw [hk, hne]
    simp only [Bool.false_eq_true, if_false]
    rw [QMap_remove_insert _ _ _ hkey]
  refine ⟨hu, by rw [hu], ?_⟩
  rw [hr]
  unfold HandlerForUrl
  dsimp only
  rw [hurl]
  exact QMap_lookup_insert_self _ _ _

/-- C30 (amended), run: the handler of scheme `x` is registered in the empty map
and unregistered again. -/
theorem register_unregister_round_trip_witness :
    ((Demo.localState 0 (some 0) 0 .Playing [] []).RegisterUrlHandler
        Demo.handlerX).UnregisterUrlHandler Demo.handlerX
        = Demo.localState 0 (some 0) 0 .Playing [] []
      ∧ ((Demo.localState 0 (some 0) 0 .Playing [] []).RegisterUrlHandler
          Demo.handlerX).HandlerForUrl Demo.streamUrl = some Demo.handlerX :=
  have h := register_unregister_round_trip (Demo.localState 0 (some 0) 0 .Playing [] [])
    Demo.handlerX Demo.streamUrl (by decide) (by decide) (by decide) rfl
  ⟨h.1, h.2.2⟩

end Player

end Strawberry
